import Mathlib

/-!
# Prepaid card ledger: a shallow embedding of `backend/src/prepaid` and `backend/src/api`

Conventions of the embedding.

* Amounts (Go `int64`, in cents) are integers (`Int`).  Every function of the Go code that
  adds or subtracts amounts is embedded twice: under the name of the source, with `+` and `-`
  over the integers, and under that name followed by `64` (`Card.LoadFunds64`,
  `FundCapture.Capture64`, `refundFundsAPIHandler64`, `serve64`, ...), with every `+` and `-`
  followed by `wrap64`, the wrap-around of `int64`.  The definitions with `64` are the ones
  that do what the Go code does on every input; the definitions over the integers agree with
  them as long as no sum or difference leaves the `int64` range (`serve64_eq`), and serve the
  properties in which nothing can leave it.
* The three package-level maps of `prepaid` (`cards`, `authRequests`, `fundCaptures`) are
  total functions into `Option`; `none` is an absent key.  They are passed explicitly to the
  functions that read or write them and are bundled in `api.Registry` for the handlers.
* A method with a pointer receiver takes the pointee and returns the pointee after the call,
  together with the Go return values (`Option Error` is Go's `error`, `none` being `nil`).
  The state after the call is returned on the error paths too, because the Go code may have
  written to the pointee before it returns an error.
* A `*AuthRequest` is the place of the object in `authRequests`: the card number under which
  the slice is stored and the index in that slice (`AuthRequestPtr`).  Slices only grow by
  `append`, so a place never moves.
* The sources of randomness are inputs: `uuid.NewV4().String()` is the `uuid` argument of
  `Card.NewAuthRequest`, and the successive results of `rand.Int63()` inside one call of
  `NewCard` are the function `rand`.
* Of an HTTP request the handlers see `mux.Vars(r)` (`Vars`) and the result of decoding the
  JSON body (`none` when `Decode` returns an error).
-/

namespace prepaid

/-- Go: `createCardMaxRetries = 5`. -/
def createCardMaxRetries : Nat := 5

/-- Go: the map `SupportedCurrencies`. -/
def SupportedCurrencies : String → Option String := fun k =>
  if k = "GBP" then some "Pound Sterling"
  else if k = "USD" then some "United States Dollar"
  else none

/-- The error values of package `prepaid`; the two anonymous `errors.New` values of
`NewCard` and `FindCardByNumber` are named after their messages. -/
inductive Error where
  | ErrCardIsNotUsable
  | ErrNotEnoughFunds
  | errAuthRqDoesNotExist
  | ErrAuthIsReversed
  | ErrInvalidCapture
  | errNoFundCapture
  | errNoUniqueCardNumber
  | errCardDoesNotExist
  deriving DecidableEq, Repr

/-- Go: `type Cardholder struct`. -/
structure Cardholder where
  Name : String
  deriving DecidableEq, Repr

/-- Go: `type Card struct`. -/
structure Card where
  CardNumber : Int
  Cardholder : Cardholder
  CardCurrency : String
  LoadedFunds : Int
  BlockedFunds : Int
  TotalFunds : Int
  Usable : Bool
  deriving DecidableEq, Repr

/-- Go: `type AuthRequest struct`. -/
structure AuthRequest where
  UUID : String
  MerchantName : String
  AuthAmount : Int
  deriving DecidableEq, Repr, Inhabited

/-- A `*AuthRequest`: the key of `authRequests` and the index in the slice stored there. -/
structure AuthRequestPtr where
  cardNumber : Int
  index : Nat
  deriving DecidableEq, Repr

/-- Go: `type FundCapture struct`. -/
structure FundCapture where
  AuthRequest : AuthRequestPtr
  CapturedAmount : Int
  Completed : Bool
  deriving DecidableEq, Repr

/-- Go: `m[k] = v` on a map. -/
def mapSet {κ α : Type} [DecidableEq κ] (m : κ → Option α) (k : κ) (v : α) : κ → Option α :=
  fun k' => if k' = k then some v else m k'

/-- The slice stored under a card number (`nil` when the key is absent). -/
def holdsOf (authRequests : Int → Option (List AuthRequest)) (cardNumber : Int) :
    List AuthRequest :=
  (authRequests cardNumber).getD []

/-- Reading through a `*AuthRequest`. -/
def deref (authRequests : Int → Option (List AuthRequest)) (p : AuthRequestPtr) : AuthRequest :=
  (holdsOf authRequests p.cardNumber).getD p.index default

/-- Writing through a `*AuthRequest`. -/
def store (authRequests : Int → Option (List AuthRequest)) (p : AuthRequestPtr)
    (ar : AuthRequest) : Int → Option (List AuthRequest) :=
  mapSet authRequests p.cardNumber ((holdsOf authRequests p.cardNumber).set p.index ar)

/-- The retry loop of `NewCard`: `n` iterations are left and `i` candidates were drawn. -/
def NewCard.loop (cards : Int → Option Card) (rand : Nat → Int) : Nat → Nat → Option Int
  | 0, _ => none
  | n + 1, i =>
    if (cards (rand i)).isSome then NewCard.loop cards rand n (i + 1) else some (rand i)

/-- Go: `func NewCard(cardholderName string, chosenCurrency string) (*Card, error)`. -/
def NewCard (cards : Int → Option Card) (rand : Nat → Int)
    (cardholderName chosenCurrency : String) : (Int → Option Card) × Except Error Card :=
  match NewCard.loop cards rand createCardMaxRetries 0 with
  | none => (cards, .error .errNoUniqueCardNumber)
  | some cNum =>
    let pc : Card :=
      { CardNumber := cNum
        Cardholder := { Name := cardholderName }
        CardCurrency := chosenCurrency
        LoadedFunds := 0
        BlockedFunds := 0
        TotalFunds := 0
        Usable := false }
    (mapSet cards pc.CardNumber pc, .ok pc)

/-- Go: `func FindCardByNumber(cardNumber int64) (*Card, error)`. -/
def FindCardByNumber (cards : Int → Option Card) (cardNumber : Int) : Except Error Card :=
  match cards cardNumber with
  | none => .error .errCardDoesNotExist
  | some c => .ok c

/-- Go: `func (c *Card) LoadFunds(amountCents int64)`. -/
def Card.LoadFunds (c : Card) (amountCents : Int) : Card :=
  { c with
    LoadedFunds := c.LoadedFunds + amountCents
    TotalFunds := c.TotalFunds + amountCents
    Usable := true }

/-- Go: `func (c *Card) Refund(amountCents int64)`. -/
def Card.Refund (c : Card) (amountCents : Int) : Card :=
  { c with TotalFunds := c.TotalFunds + amountCents }

/-- Go: `func (c *Card) hasEnoughAvailableFunds(amountCents int64) bool`. -/
def Card.hasEnoughAvailableFunds (c : Card) (amountCents : Int) : Bool :=
  decide (c.TotalFunds - c.BlockedFunds ≥ amountCents)

/-- Go: `func (c *Card) BlockFunds(amountCents int64) error`. -/
def Card.BlockFunds (c : Card) (amountCents : Int) : Card × Option Error :=
  if !c.Usable then (c, some .ErrCardIsNotUsable)
  else if !c.hasEnoughAvailableFunds amountCents then (c, some .ErrNotEnoughFunds)
  else ({ c with BlockedFunds := c.BlockedFunds + amountCents }, none)

/-- Go: `func (c *Card) UnblockFunds(amountCents int64) error`. -/
def Card.UnblockFunds (c : Card) (amountCents : Int) : Card × Option Error :=
  if !c.Usable then (c, some .ErrCardIsNotUsable)
  else ({ c with BlockedFunds := c.BlockedFunds - amountCents }, none)

/-- Go: `func (c *Card) CaptureFunds(amountCents int64) error`. -/
def Card.CaptureFunds (c : Card) (amountCents : Int) : Card × Option Error :=
  if amountCents > c.BlockedFunds then (c, some .ErrNotEnoughFunds)
  else
    ({ c with
       BlockedFunds := c.BlockedFunds - amountCents
       TotalFunds := c.TotalFunds - amountCents }, none)

/-- Go: `func (c *Card) NewAuthRequest(merchantName string, authAmount int64) (*string, error)`;
`uuid` is the value of `uuid.NewV4().String()`. -/
def Card.NewAuthRequest (c : Card) (authRequests : Int → Option (List AuthRequest))
    (uuid : String) (merchantName : String) (authAmount : Int) :
    Card × (Int → Option (List AuthRequest)) × Except Error String :=
  let ar : AuthRequest := { UUID := uuid, MerchantName := merchantName, AuthAmount := authAmount }
  match c.BlockFunds authAmount with
  | (c1, some err) => (c1, authRequests, .error err)
  | (c1, none) =>
    (c1, mapSet authRequests c1.CardNumber (holdsOf authRequests c1.CardNumber ++ [ar]),
      .ok ar.UUID)

/-- Go: `func (ar *AuthRequest) Reverse(amount int64, card *Card) error`. -/
def AuthRequest.Reverse (ar : AuthRequest) (amount : Int) (card : Card) :
    AuthRequest × Card × Option Error :=
  let ar1 : AuthRequest := { ar with AuthAmount := ar.AuthAmount - amount }
  match card.UnblockFunds amount with
  | (card1, some err) => (ar1, card1, some err)
  | (card1, none) => (ar1, card1, none)

/-- The `range` loop of `FindAuthRequestByUUID`: the index of the first element of the slice
whose `UUID` is `uuid`. -/
def FindAuthRequestByUUID.loop (uuid : String) : List AuthRequest → Option Nat
  | [] => none
  | arq :: rest =>
    if uuid = arq.UUID then some 0 else (FindAuthRequestByUUID.loop uuid rest).map (· + 1)

/-- Go: `func FindAuthRequestByUUID(cardNumber int64, uuid string) (*AuthRequest, error)`. -/
def FindAuthRequestByUUID (authRequests : Int → Option (List AuthRequest))
    (cardNumber : Int) (uuid : String) : Except Error AuthRequestPtr :=
  match authRequests cardNumber with
  | none => .error .errAuthRqDoesNotExist
  | some authRqs =>
    match FindAuthRequestByUUID.loop uuid authRqs with
    | some i => .ok { cardNumber := cardNumber, index := i }
    | none => .error .errAuthRqDoesNotExist

/-- Go: `func NewFundCapture(authRq *AuthRequest) *FundCapture`; `authRqUUID` is
`authRq.UUID`, read through the pointer by the caller. -/
def NewFundCapture (fundCaptures : String → Option FundCapture) (authRq : AuthRequestPtr)
    (authRqUUID : String) : (String → Option FundCapture) × FundCapture :=
  let fc : FundCapture := { AuthRequest := authRq, CapturedAmount := 0, Completed := false }
  (mapSet fundCaptures authRqUUID fc, fc)

/-- Go: `func (fc *FundCapture) Capture(amount int64, card *Card) error`; `authRq` is the
object `fc.AuthRequest` points to (`Capture` only reads it). -/
def FundCapture.Capture (fc : FundCapture) (authRq : prepaid.AuthRequest) (amount : Int)
    (card : Card) :
    FundCapture × Card × Option Error :=
  if fc.Completed then (fc, card, some .ErrInvalidCapture)
  else if fc.CapturedAmount + amount > authRq.AuthAmount then (fc, card, some .ErrInvalidCapture)
  else
    let fc1 : FundCapture :=
      if fc.CapturedAmount + amount = authRq.AuthAmount then
        (if !fc.Completed then { fc with Completed := true } else fc)
      else fc
    let fc2 : FundCapture := { fc1 with CapturedAmount := fc1.CapturedAmount + amount }
    match card.CaptureFunds amount with
    | (card1, some err) => (fc2, card1, some err)
    | (card1, none) => (fc2, card1, none)

/-- Go: `func FindFundCaptureByAuthUUID(authUUID string) (*FundCapture, error)`. -/
def FindFundCaptureByAuthUUID (fundCaptures : String → Option FundCapture)
    (authUUID : String) : Except Error FundCapture :=
  match fundCaptures authUUID with
  | none => .error .errNoFundCapture
  | some fc => .ok fc

end prepaid

namespace api

open prepaid

/-- The error bodies of package `api` (the constants `errCardNumberIsNaN` ...). -/
inductive ErrorBody where
  | errCardNumberIsNaN
  | errCardNotFound
  | errIncorrectOrMalformedJSON
  | errRqInvalidOrMissingData
  | errCardCreation
  | errInvalidCardNumProvided
  | errBackendGeneric
  | errNotEnoughFunds
  | errCardIsNotUsable
  | errAuthRqNotFound
  | errAuthReversed
  | errInvalidCaptureAmount
  | errInvalidReverseAmount
  | errFundCaptureNotFound
  | errInvalidRefundAmount
  deriving DecidableEq, Repr

/-- What a handler writes to the `http.ResponseWriter`. -/
inductive Response where
  | empty
  | cardCreationSuccess (cardNumber : Int)
  | authRequestSuccess (authRequestUUID : String)
  | cardJSON (card : Card)
  | httpError (body : ErrorBody) (status : Nat)
  deriving DecidableEq, Repr

/-- Whether the handler answered with `http.Error`. -/
def Response.isError : Response → Bool
  | .httpError _ _ => true
  | _ => false

/-- Go: `type createCardRequest struct`. -/
structure createCardRequest where
  CardholderName : String
  CardCurrency : String
  deriving DecidableEq, Repr

/-- Go: `type loadFundsRequest struct`. -/
structure loadFundsRequest where
  AmountCents : Int
  deriving DecidableEq, Repr

/-- Go: `type authRequest struct`. -/
structure authRequest where
  MerchantName : String
  AuthAmount : Int
  deriving DecidableEq, Repr

/-- Go: `type reverseAuthRequest struct`. -/
structure reverseAuthRequest where
  ReverseAmount : Int
  deriving DecidableEq, Repr

/-- Go: `type captureFundsRequest struct`. -/
structure captureFundsRequest where
  CaptureAmount : Int
  deriving DecidableEq, Repr

/-- Go: `type refundFundsRequest struct`. -/
structure refundFundsRequest where
  RefundAmount : Int
  deriving DecidableEq, Repr

/-- The result of `mux.Vars(r)`, a `map[string]string`. -/
abbrev Vars := String → Option String

/-- Go: `vars[k]` (the empty string when the key is absent). -/
def Vars.get (vars : Vars) (k : String) : String := (vars k).getD ""

/-- The route variables of a path with `{card_number}` only. -/
def cardVars (cardNumber : String) : Vars := fun k =>
  if k = "card_number" then some cardNumber else none

/-- The route variables of a path with `{card_number}` and `{auth_request_uuid}`. -/
def cardAuthVars (cardNumber authRequestUUID : String) : Vars := fun k =>
  if k = "card_number" then some cardNumber
  else if k = "auth_request_uuid" then some authRequestUUID
  else none

/-- Decimal digits of `strconv.ParseInt`: the value of a non-empty string of digits. -/
def parseDigits (cs : List Char) : Option Nat :=
  if cs.isEmpty then none
  else cs.foldl
    (fun acc c => acc.bind fun n => if c.isDigit then some (n * 10 + (c.toNat - 48)) else none)
    (some 0)

/-- The library function `strconv.ParseInt(s, 10, 64)`: an optional sign and decimal digits,
an error (`none`) on any other input and on a value outside the 64-bit range. -/
def ParseInt (s : String) : Option Int :=
  match s.data with
  | [] => none
  | '-' :: cs => (parseDigits cs).bind fun n => if n ≤ 2 ^ 63 then some (-(n : Int)) else none
  | '+' :: cs => (parseDigits cs).bind fun n => if n < 2 ^ 63 then some (n : Int) else none
  | cs => (parseDigits cs).bind fun n => if n < 2 ^ 63 then some (n : Int) else none

/-- Go: `func createCardRqIsValid(data createCardRequest) bool`. -/
def createCardRqIsValid (data : createCardRequest) : Bool :=
  (SupportedCurrencies data.CardCurrency).isSome && data.CardholderName != ""

/-- Go: `func loadFundsRqIsValid(data loadFundsRequest) bool`. -/
def loadFundsRqIsValid (data : loadFundsRequest) : Bool := decide (data.AmountCents > 0)

/-- Go: `func authRqIsValid(data authRequest) bool`. -/
def authRqIsValid (data : authRequest) : Bool :=
  decide (data.AuthAmount > 0) && data.MerchantName != ""

/-- Go: `func captureFundsRqIsValid(data captureFundsRequest) bool`. -/
def captureFundsRqIsValid (data : captureFundsRequest) : Bool := decide (data.CaptureAmount > 0)

/-- Go: `func reverseAuthRqIsValid(data reverseAuthRequest) bool`. -/
def reverseAuthRqIsValid (data : reverseAuthRequest) : Bool := decide (data.ReverseAmount > 0)

/-- Go: `func refundFundsRqIsValid(data refundFundsRequest) bool`. -/
def refundFundsRqIsValid (data : refundFundsRequest) : Bool := decide (data.RefundAmount > 0)

/-- Go: `func validateAndReturnCardNumber(vars map[string]string) (*int64, error)`; `none` is
a non-nil error. -/
def validateAndReturnCardNumber (vars : Vars) : Option Int :=
  match vars "card_number" with
  | none => none
  | some cardNumberString => ParseInt cardNumberString

/-- The package-level state of `prepaid` the handlers work on. -/
structure Registry where
  cards : Int → Option Card
  authRequests : Int → Option (List AuthRequest)
  fundCaptures : String → Option FundCapture

/-- The state at process start: the three maps are empty. -/
def Registry.empty : Registry :=
  { cards := fun _ => none, authRequests := fun _ => none, fundCaptures := fun _ => none }

/-- Go: `func createCardAPIHandler(w http.ResponseWriter, r *http.Request)`. -/
def createCardAPIHandler (s : Registry) (body : Option createCardRequest) (rand : Nat → Int) :
    Registry × Response :=
  match body with
  | none => (s, .httpError .errIncorrectOrMalformedJSON 400)
  | some data =>
    if !createCardRqIsValid data then (s, .httpError .errRqInvalidOrMissingData 400)
    else
      match NewCard s.cards rand data.CardholderName data.CardCurrency with
      | (cards1, .error _) => ({ s with cards := cards1 }, .httpError .errCardCreation 500)
      | (cards1, .ok prepaidCard) =>
        ({ s with cards := cards1 }, .cardCreationSuccess prepaidCard.CardNumber)

/-- Go: `func getCardFundsAPIHandler(w http.ResponseWriter, r *http.Request)`. -/
def getCardFundsAPIHandler (s : Registry) (vars : Vars) : Registry × Response :=
  match validateAndReturnCardNumber vars with
  | none => (s, .httpError .errInvalidCardNumProvided 400)
  | some possibleCardNo =>
    match FindCardByNumber s.cards possibleCardNo with
    | .error _ => (s, .httpError .errCardNotFound 404)
    | .ok card => (s, .cardJSON card)

/-- Go: `func loadFundsAPIHandler(w http.ResponseWriter, r *http.Request)`. -/
def loadFundsAPIHandler (s : Registry) (vars : Vars) (body : Option loadFundsRequest) :
    Registry × Response :=
  match validateAndReturnCardNumber vars with
  | none => (s, .httpError .errInvalidCardNumProvided 400)
  | some possibleCardNo =>
    match body with
    | none => (s, .httpError .errIncorrectOrMalformedJSON 400)
    | some data =>
      if !loadFundsRqIsValid data then (s, .httpError .errRqInvalidOrMissingData 400)
      else
        match FindCardByNumber s.cards possibleCardNo with
        | .error _ => (s, .httpError .errCardNotFound 404)
        | .ok card =>
          ({ s with cards := mapSet s.cards possibleCardNo (card.LoadFunds data.AmountCents) },
            .empty)

/-- Go: `func authRequestAPIHandler(w http.ResponseWriter, r *http.Request)`; `uuid` is the
token `uuid.NewV4()` yields inside `NewAuthRequest`. -/
def authRequestAPIHandler (s : Registry) (vars : Vars) (body : Option authRequest)
    (uuid : String) : Registry × Response :=
  match validateAndReturnCardNumber vars with
  | none => (s, .httpError .errInvalidCardNumProvided 400)
  | some cardNumber =>
    match body with
    | none => (s, .httpError .errIncorrectOrMalformedJSON 400)
    | some data =>
      if !authRqIsValid data then (s, .httpError .errRqInvalidOrMissingData 400)
      else
        match FindCardByNumber s.cards cardNumber with
        | .error _ => (s, .httpError .errCardNotFound 404)
        | .ok card =>
          match card.NewAuthRequest s.authRequests uuid (vars.get "merchant_name")
              data.AuthAmount with
          | (card1, authRequests1, .error err) =>
            let s1 : Registry :=
              { s with cards := mapSet s.cards cardNumber card1, authRequests := authRequests1 }
            if err = Error.ErrCardIsNotUsable then (s1, .httpError .errCardIsNotUsable 403)
            else (s1, .httpError .errNotEnoughFunds 403)
          | (card1, authRequests1, .ok authRqUUID) =>
            ({ s with cards := mapSet s.cards cardNumber card1, authRequests := authRequests1 },
              .authRequestSuccess authRqUUID)

/-- Go: `func reverseAuthRqAPIHandler(w http.ResponseWriter, r *http.Request)`. -/
def reverseAuthRqAPIHandler (s : Registry) (vars : Vars) (body : Option reverseAuthRequest) :
    Registry × Response :=
  let authRqUUID := vars.get "auth_request_uuid"
  if authRqUUID = "" then (s, .httpError .errRqInvalidOrMissingData 400)
  else
    match validateAndReturnCardNumber vars with
    | none => (s, .httpError .errInvalidCardNumProvided 400)
    | some cardNumber =>
      match body with
      | none => (s, .httpError .errIncorrectOrMalformedJSON 400)
      | some data =>
        if !reverseAuthRqIsValid data then (s, .httpError .errRqInvalidOrMissingData 400)
        else
          match FindCardByNumber s.cards cardNumber with
          | .error _ => (s, .httpError .errCardNotFound 404)
          | .ok card =>
            match FindAuthRequestByUUID s.authRequests card.CardNumber authRqUUID with
            | .error _ => (s, .httpError .errAuthRqNotFound 404)
            | .ok authRq =>
              if data.ReverseAmount > (deref s.authRequests authRq).AuthAmount then
                (s, .httpError .errInvalidReverseAmount 403)
              else
                let captured : Bool :=
                  match FindFundCaptureByAuthUUID s.fundCaptures
                      (deref s.authRequests authRq).UUID with
                  | .ok fundCapture => decide (fundCapture.CapturedAmount > data.ReverseAmount)
                  | .error _ => false
                if captured then (s, .httpError .errInvalidReverseAmount 403)
                else
                  match (deref s.authRequests authRq).Reverse data.ReverseAmount card with
                  | (authRq1, card1, err) =>
                    let s1 : Registry :=
                      { s with
                        cards := mapSet s.cards cardNumber card1
                        authRequests := store s.authRequests authRq authRq1 }
                    match err with
                    | some _ => (s1, .httpError .errCardIsNotUsable 403)
                    | none => (s1, .empty)

/-- The statements `fundCapture, err := prepaid.FindFundCaptureByAuthUUID(authRq.UUID)` and
`if err != nil { fundCapture = prepaid.NewFundCapture(authRq) }` of `captureFundsAPIHandler`:
the map of captures after them and the capture the handler goes on with. -/
def captureFundsAPIHandler.fundCapture (s : Registry) (authRq : AuthRequestPtr) :
    (String → Option FundCapture) × FundCapture :=
  match FindFundCaptureByAuthUUID s.fundCaptures (deref s.authRequests authRq).UUID with
  | .ok fundCapture => (s.fundCaptures, fundCapture)
  | .error _ => NewFundCapture s.fundCaptures authRq (deref s.authRequests authRq).UUID

/-- Go: `func captureFundsAPIHandler(w http.ResponseWriter, r *http.Request)`. -/
def captureFundsAPIHandler (s : Registry) (vars : Vars) (body : Option captureFundsRequest) :
    Registry × Response :=
  let authRqUUID := vars.get "auth_request_uuid"
  if authRqUUID = "" then (s, .httpError .errRqInvalidOrMissingData 400)
  else
    match validateAndReturnCardNumber vars with
    | none => (s, .httpError .errInvalidCardNumProvided 400)
    | some cardNumber =>
      match body with
      | none => (s, .httpError .errIncorrectOrMalformedJSON 400)
      | some data =>
        if !captureFundsRqIsValid data then (s, .httpError .errRqInvalidOrMissingData 400)
        else
          match FindCardByNumber s.cards cardNumber with
          | .error _ => (s, .httpError .errCardNotFound 404)
          | .ok card =>
            match FindAuthRequestByUUID s.authRequests card.CardNumber authRqUUID with
            | .error _ => (s, .httpError .errAuthRqNotFound 404)
            | .ok authRq =>
              let found := captureFundsAPIHandler.fundCapture s authRq
              match found.2.Capture (deref s.authRequests found.2.AuthRequest)
                  data.CaptureAmount card with
              | (fundCapture1, card1, err) =>
                let s1 : Registry :=
                  { s with
                    cards := mapSet s.cards cardNumber card1
                    fundCaptures :=
                      mapSet found.1 (deref s.authRequests authRq).UUID fundCapture1 }
                match err with
                | some e =>
                  if e = Error.ErrAuthIsReversed then (s1, .httpError .errAuthReversed 403)
                  else (s1, .httpError .errInvalidCaptureAmount 400)
                | none => (s1, .empty)

/-- The last statements of `refundFundsAPIHandler`, from the check of the refund amount on:
the capture and the card after them, and whether the request was rejected. -/
def refundFunds (fundCapture : FundCapture) (card : Card) (data : refundFundsRequest) :
    FundCapture × Card × Option ErrorBody :=
  if data.RefundAmount > fundCapture.CapturedAmount then
    (fundCapture, card, some .errInvalidRefundAmount)
  else
    ({ fundCapture with CapturedAmount := fundCapture.CapturedAmount - data.RefundAmount },
      card.Refund data.RefundAmount, none)

/-- Go: `func refundFundsAPIHandler(w http.ResponseWriter, r *http.Request)`. -/
def refundFundsAPIHandler (s : Registry) (vars : Vars) (body : Option refundFundsRequest) :
    Registry × Response :=
  let authRqUUID := vars.get "auth_request_uuid"
  if authRqUUID = "" then (s, .httpError .errRqInvalidOrMissingData 400)
  else
    match validateAndReturnCardNumber vars with
    | none => (s, .httpError .errInvalidCardNumProvided 400)
    | some cardNumber =>
      match body with
      | none => (s, .httpError .errIncorrectOrMalformedJSON 400)
      | some data =>
        if !refundFundsRqIsValid data then (s, .httpError .errRqInvalidOrMissingData 400)
        else
          match FindCardByNumber s.cards cardNumber with
          | .error _ => (s, .httpError .errCardNotFound 404)
          | .ok card =>
            match FindAuthRequestByUUID s.authRequests card.CardNumber authRqUUID with
            | .error _ => (s, .httpError .errAuthRqNotFound 404)
            | .ok authRq =>
              match FindFundCaptureByAuthUUID s.fundCaptures
                  (deref s.authRequests authRq).UUID with
              | .error _ => (s, .httpError .errFundCaptureNotFound 404)
              | .ok fundCapture =>
                match refundFunds fundCapture card data with
                | (fundCapture1, card1, some e) =>
                  ({ s with
                     cards := mapSet s.cards cardNumber card1
                     fundCaptures :=
                       mapSet s.fundCaptures (deref s.authRequests authRq).UUID fundCapture1 },
                    .httpError e 403)
                | (fundCapture1, card1, none) =>
                  ({ s with
                     cards := mapSet s.cards cardNumber card1
                     fundCaptures :=
                       mapSet s.fundCaptures (deref s.authRequests authRq).UUID fundCapture1 },
                    .empty)

/-- A request to the server, with the random values its handler draws. -/
inductive Request where
  | createCard (body : Option createCardRequest) (rand : Nat → Int)
  | getCardFunds (vars : Vars)
  | loadFunds (vars : Vars) (body : Option loadFundsRequest)
  | authorize (vars : Vars) (body : Option authRequest) (uuid : String)
  | reverse (vars : Vars) (body : Option reverseAuthRequest)
  | capture (vars : Vars) (body : Option captureFundsRequest)
  | refund (vars : Vars) (body : Option refundFundsRequest)

/-- The router of `NewAPI`: the handler of the route of the request. -/
def serve (s : Registry) : Request → Registry × Response
  | .createCard body rand => createCardAPIHandler s body rand
  | .getCardFunds vars => getCardFundsAPIHandler s vars
  | .loadFunds vars body => loadFundsAPIHandler s vars body
  | .authorize vars body uuid => authRequestAPIHandler s vars body uuid
  | .reverse vars body => reverseAuthRqAPIHandler s vars body
  | .capture vars body => captureFundsAPIHandler s vars body
  | .refund vars body => refundFundsAPIHandler s vars body

/-- The state after a list of requests served one after the other. -/
def run (s : Registry) : List Request → Registry
  | [] => s
  | rq :: rest => run (serve s rq).1 rest

/-- No authorization request of the registry carries the token `uuid`. -/
def tokenUnused (s : Registry) (uuid : String) : Prop :=
  ∀ cardNumber, ∀ ar ∈ holdsOf s.authRequests cardNumber, ar.UUID ≠ uuid

/-- The assumption on `uuid.NewV4`: the token drawn for a new authorization request is not
the token of an authorization request made before. -/
def Request.tokenFresh (s : Registry) : Request → Prop
  | .authorize _ _ uuid => tokenUnused s uuid
  | _ => True

/-- The states the server reaches from the empty registry by serving, one at a time, requests
that satisfy `allowed` in the state they arrive in. -/
inductive ReachableBy (allowed : Registry → Request → Prop) : Registry → Prop where
  | start : ReachableBy allowed Registry.empty
  | step {s : Registry} (rq : Request) :
      ReachableBy allowed s → allowed s rq → rq.tokenFresh s →
        ReachableBy allowed (serve s rq).1

/-- The states the server reaches from the empty registry. -/
def Reachable (s : Registry) : Prop := ReachableBy (fun _ _ => True) s

end api

/-! ## Scenarios -/

namespace api

open prepaid

/-- The freshness assumption along a list of requests. -/
def TraceFresh (s : Registry) : List Request → Prop
  | [] => True
  | rq :: rest => rq.tokenFresh s ∧ TraceFresh (serve s rq).1 rest

/-- A card is created under the number 1 and loaded with 1000, and a hold of 400 with the
token `t1` is placed on it. -/
def authorized400 : List Request :=
  [ .createCard (some { CardholderName := "Ann", CardCurrency := "GBP" }) (fun _ => 1),
    .loadFunds (cardVars "1") (some { AmountCents := 1000 }),
    .authorize (cardVars "1") (some { MerchantName := "shop", AuthAmount := 400 }) "t1" ]

/-- A capture request on the hold `t1` of card 1. -/
def capture1 (amount : Int) : Request :=
  .capture (cardAuthVars "1" "t1") (some { CaptureAmount := amount })

/-- A reverse request on the hold `t1` of card 1. -/
def reverse1 (amount : Int) : Request :=
  .reverse (cardAuthVars "1" "t1") (some { ReverseAmount := amount })

/-- A refund request on the hold `t1` of card 1. -/
def refund1 (amount : Int) : Request :=
  .refund (cardAuthVars "1" "t1") (some { RefundAmount := amount })

/-- The card of the scenarios, with the number 1 and 1000 loaded, at given blocked and total
funds. -/
def card1 (blockedFunds totalFunds : Int) : Card :=
  { CardNumber := 1
    Cardholder := { Name := "Ann" }
    CardCurrency := "GBP"
    LoadedFunds := 1000
    BlockedFunds := blockedFunds
    TotalFunds := totalFunds
    Usable := true }

/-- The card of the counterexample to C9: usable, with `BlockedFunds = -400` and
`TotalFunds = 600`. -/
def overdrawnCard : Card :=
  { CardNumber := 1
    Cardholder := { Name := "Ann" }
    CardCurrency := "GBP"
    LoadedFunds := 1000
    BlockedFunds := -400
    TotalFunds := 600
    Usable := true }

/-- Every request of a list is allowed in the state it arrives in. -/
def TraceAllowed (allowed : Registry → Request → Prop) (s : Registry) : List Request → Prop
  | [] => True
  | rq :: rest => allowed s rq ∧ TraceAllowed allowed (serve s rq).1 rest

/-- A reverse request that releases no captured money: when the hold it names has a capture,
the amount is at most `AuthAmount - CapturedAmount`. -/
def reverseWithinRemainder (s : Registry) (vars : Vars) (body : Option reverseAuthRequest) :
    Prop :=
  ∀ (cardNumber : Int) (data : reverseAuthRequest) (card : Card) (authRq : AuthRequestPtr)
    (fundCapture : FundCapture),
    validateAndReturnCardNumber vars = some cardNumber → body = some data →
    FindCardByNumber s.cards cardNumber = .ok card →
    FindAuthRequestByUUID s.authRequests card.CardNumber (vars.get "auth_request_uuid")
      = .ok authRq →
    FindFundCaptureByAuthUUID s.fundCaptures (deref s.authRequests authRq).UUID
      = .ok fundCapture →
    data.ReverseAmount ≤ (deref s.authRequests authRq).AuthAmount - fundCapture.CapturedAmount

/-- The requests of the capture flow: no refund request, and of the reverse requests those
that release no captured money. -/
def Request.isCaptureFlow (s : Registry) : Request → Prop
  | .reverse vars body => reverseWithinRemainder s vars body
  | .refund _ _ => False
  | _ => True

/-- The requests other than refund requests. -/
def Request.isNotRefund (_s : Registry) : Request → Prop
  | .refund _ _ => False
  | _ => True

/-- The requests other than reverse requests. -/
def Request.isNotReverse (_s : Registry) : Request → Prop
  | .reverse _ _ => False
  | _ => True

/-- A second hold of 400 on card 1, with the token `t2`. -/
def authorize2 : Request :=
  .authorize (cardVars "1") (some { MerchantName := "shop", AuthAmount := 400 }) "t2"

/-- The amount the capture of the hold with token `uuid` records, 0 when there is none. -/
def capturedOf (fundCaptures : String → Option FundCapture) (uuid : String) : Int :=
  match fundCaptures uuid with
  | some fc => fc.CapturedAmount
  | none => 0

/-- The sum, over the holds of a slice, of what is authorized and not captured. -/
def outstanding (fundCaptures : String → Option FundCapture) (l : List AuthRequest) : Int :=
  (l.map fun ar => ar.AuthAmount - capturedOf fundCaptures ar.UUID).sum

/-- The invariant of the registry in the capture flow: the blocked funds of a card are what
its holds authorize and its captures have not taken. -/
structure CaptureInv (s : Registry) : Prop where
  number : ∀ cn c, s.cards cn = some c → c.CardNumber = cn
  noHolds : ∀ cn, s.cards cn = none → holdsOf s.authRequests cn = []
  usable : ∀ cn c, s.cards cn = some c → holdsOf s.authRequests cn ≠ [] → c.Usable = true
  blocked : ∀ cn c, s.cards cn = some c →
    c.BlockedFunds = outstanding s.fundCaptures (holdsOf s.authRequests cn)
  bounded : ∀ cn, ∀ ar ∈ holdsOf s.authRequests cn,
    capturedOf s.fundCaptures ar.UUID ≤ ar.AuthAmount
  nodup : ∀ cn, ((holdsOf s.authRequests cn).map AuthRequest.UUID).Nodup
  disjoint : ∀ cn cn', ∀ ar ∈ holdsOf s.authRequests cn, ∀ ar' ∈ holdsOf s.authRequests cn',
    ar.UUID = ar'.UUID → cn = cn'
  pointer : ∀ u fc, s.fundCaptures u = some fc →
    fc.AuthRequest.index < (holdsOf s.authRequests fc.AuthRequest.cardNumber).length ∧
    (deref s.authRequests fc.AuthRequest).UUID = u

/-- The hold of the scenarios: token `t1`, 400 authorized. -/
def hold1 : AuthRequest := { UUID := "t1", MerchantName := "shop", AuthAmount := 400 }

/-- The registry of holds with `hold1` on card 1. -/
def holds1 : Int → Option (List AuthRequest) := mapSet (fun _ => none) 1 [hold1]

/-- A capture of `hold1` at a given captured amount. -/
def fundCapture1 (capturedAmount : Int) (completed : Bool) : FundCapture :=
  { AuthRequest := { cardNumber := 1, index := 0 }
    CapturedAmount := capturedAmount
    Completed := completed }

end api

/-! ## Scenarios of the later properties -/

namespace api

open prepaid

/-- Capture requests with the given route variables, one for each amount of a list. -/
def captureRequests (vars : Vars) (amounts : List Int) : List Request :=
  amounts.map fun amount => .capture vars (some { CaptureAmount := amount })

/-- A registry of cards with card 1 only. -/
def cardsWith1 : Int → Option Card := mapSet (fun _ => none) 1 (card1 0 0)

/-- A random source that yields 1, 1 and then 2. -/
def candidates112 : Nat → Int := fun i => if i < 2 then 1 else 2

/-- The registry after create card (number 1) and load 1000. -/
def loaded1000 : Registry :=
  run Registry.empty
    [ .createCard (some { CardholderName := "Ann", CardCurrency := "GBP" }) (fun _ => 1),
      .loadFunds (cardVars "1") (some { AmountCents := 1000 }) ]

/-- The registry after create card, load 1000, authorize 400 and capture 100. -/
def captured100 : Registry := run Registry.empty (authorized400 ++ [capture1 100])

/-- The hold with the token `uuid` of the card under `cn` is fully reversed: it is found, its
`AuthAmount` is 0, and a capture recorded under the token points to a hold with
`AuthAmount = 0` and has no negative `CapturedAmount`. -/
def reversedHold (s : Registry) (cn : Int) (card : Card) (uuid : String)
    (p : AuthRequestPtr) : Prop :=
  FindCardByNumber s.cards cn = .ok card ∧
  FindAuthRequestByUUID s.authRequests card.CardNumber uuid = .ok p ∧
  (deref s.authRequests p).AuthAmount = 0 ∧
  ∀ fc, s.fundCaptures uuid = some fc →
    (deref s.authRequests fc.AuthRequest).AuthAmount = 0 ∧ 0 ≤ fc.CapturedAmount

end api

/-! ## 64-bit arithmetic -/

namespace prepaid

/-- The least value of a Go `int64`. -/
def minInt64 : Int := -9223372036854775808

/-- The greatest value of a Go `int64`. -/
def maxInt64 : Int := 9223372036854775807

/-- The integers a Go `int64` can hold. -/
def isInt64 (x : Int) : Prop := minInt64 ≤ x ∧ x ≤ maxInt64

instance (x : Int) : Decidable (isInt64 x) := inferInstanceAs (Decidable (_ ∧ _))

/-- The `int64` Go's `+` and `-` yield when the exact result is `x`: the integer of the
`int64` range that is congruent to `x` modulo `2^64`. -/
def wrap64 (x : Int) : Int :=
  (x + 9223372036854775808) % 18446744073709551616 - 9223372036854775808

/-- Go: `func (c *Card) CaptureFunds(amountCents int64) error`, with the subtractions of
`int64`. -/
def Card.CaptureFunds64 (c : Card) (amountCents : Int) : Card × Option Error :=
  if amountCents > c.BlockedFunds then (c, some .ErrNotEnoughFunds)
  else
    ({ c with
       BlockedFunds := wrap64 (c.BlockedFunds - amountCents)
       TotalFunds := wrap64 (c.TotalFunds - amountCents) }, none)

/-- Go: `func (fc *FundCapture) Capture(amount int64, card *Card) error`, with the additions
of `int64`; `authRq` is the object `fc.AuthRequest` points to. -/
def FundCapture.Capture64 (fc : FundCapture) (authRq : prepaid.AuthRequest) (amount : Int)
    (card : Card) :
    FundCapture × Card × Option Error :=
  if fc.Completed then (fc, card, some .ErrInvalidCapture)
  else if wrap64 (fc.CapturedAmount + amount) > authRq.AuthAmount then
    (fc, card, some .ErrInvalidCapture)
  else
    let fc1 : FundCapture :=
      if wrap64 (fc.CapturedAmount + amount) = authRq.AuthAmount then
        (if !fc.Completed then { fc with Completed := true } else fc)
      else fc
    let fc2 : FundCapture := { fc1 with CapturedAmount := wrap64 (fc1.CapturedAmount + amount) }
    match card.CaptureFunds64 amount with
    | (card1, some err) => (fc2, card1, some err)
    | (card1, none) => (fc2, card1, none)

end prepaid

/-! ## The ledger and the handlers with the arithmetic of `int64`

The definitions of this part repeat the definitions above that add or subtract amounts,
with every `+` and `-` of the Go code followed by `wrap64`; comparisons do not wrap.  The
functions without arithmetic (`NewCard`, the `Find...` functions, `NewFundCapture`,
`createCardAPIHandler`, `getCardFundsAPIHandler`) are the same for both. -/

namespace prepaid

/-- Go: `func (c *Card) LoadFunds(amountCents int64)`, with the additions of `int64`. -/
def Card.LoadFunds64 (c : Card) (amountCents : Int) : Card :=
  { c with
    LoadedFunds := wrap64 (c.LoadedFunds + amountCents)
    TotalFunds := wrap64 (c.TotalFunds + amountCents)
    Usable := true }

/-- Go: `func (c *Card) Refund(amountCents int64)`, with the addition of `int64`. -/
def Card.Refund64 (c : Card) (amountCents : Int) : Card :=
  { c with TotalFunds := wrap64 (c.TotalFunds + amountCents) }

/-- Go: `func (c *Card) hasEnoughAvailableFunds(amountCents int64) bool`, with the
subtraction of `int64`. -/
def Card.hasEnoughAvailableFunds64 (c : Card) (amountCents : Int) : Bool :=
  decide (wrap64 (c.TotalFunds - c.BlockedFunds) ≥ amountCents)

/-- Go: `func (c *Card) BlockFunds(amountCents int64) error`, with the arithmetic of
`int64`. -/
def Card.BlockFunds64 (c : Card) (amountCents : Int) : Card × Option Error :=
  if !c.Usable then (c, some .ErrCardIsNotUsable)
  else if !c.hasEnoughAvailableFunds64 amountCents then (c, some .ErrNotEnoughFunds)
  else ({ c with BlockedFunds := wrap64 (c.BlockedFunds + amountCents) }, none)

/-- Go: `func (c *Card) UnblockFunds(amountCents int64) error`, with the subtraction of
`int64`. -/
def Card.UnblockFunds64 (c : Card) (amountCents : Int) : Card × Option Error :=
  if !c.Usable then (c, some .ErrCardIsNotUsable)
  else ({ c with BlockedFunds := wrap64 (c.BlockedFunds - amountCents) }, none)

/-- Go: `func (c *Card) NewAuthRequest(merchantName string, authAmount int64) (*string, error)`,
with `BlockFunds` in the arithmetic of `int64`; `uuid` is the value of
`uuid.NewV4().String()`. -/
def Card.NewAuthRequest64 (c : Card) (authRequests : Int → Option (List AuthRequest))
    (uuid : String) (merchantName : String) (authAmount : Int) :
    Card × (Int → Option (List AuthRequest)) × Except Error String :=
  let ar : AuthRequest := { UUID := uuid, MerchantName := merchantName, AuthAmount := authAmount }
  match c.BlockFunds64 authAmount with
  | (c1, some err) => (c1, authRequests, .error err)
  | (c1, none) =>
    (c1, mapSet authRequests c1.CardNumber (holdsOf authRequests c1.CardNumber ++ [ar]),
      .ok ar.UUID)

/-- Go: `func (ar *AuthRequest) Reverse(amount int64, card *Card) error`, with the
subtractions of `int64`. -/
def AuthRequest.Reverse64 (ar : AuthRequest) (amount : Int) (card : Card) :
    AuthRequest × Card × Option Error :=
  let ar1 : AuthRequest := { ar with AuthAmount := wrap64 (ar.AuthAmount - amount) }
  match card.UnblockFunds64 amount with
  | (card1, some err) => (ar1, card1, some err)
  | (card1, none) => (ar1, card1, none)

end prepaid

namespace api

open prepaid

/-- Go: `func loadFundsAPIHandler(w http.ResponseWriter, r *http.Request)`, with the
arithmetic of `int64`. -/
def loadFundsAPIHandler64 (s : Registry) (vars : Vars) (body : Option loadFundsRequest) :
    Registry × Response :=
  match validateAndReturnCardNumber vars with
  | none => (s, .httpError .errInvalidCardNumProvided 400)
  | some possibleCardNo =>
    match body with
    | none => (s, .httpError .errIncorrectOrMalformedJSON 400)
    | some data =>
      if !loadFundsRqIsValid data then (s, .httpError .errRqInvalidOrMissingData 400)
      else
        match FindCardByNumber s.cards possibleCardNo with
        | .error _ => (s, .httpError .errCardNotFound 404)
        | .ok card =>
          ({ s with cards := mapSet s.cards possibleCardNo (card.LoadFunds64 data.AmountCents) },
            .empty)

/-- Go: `func authRequestAPIHandler(w http.ResponseWriter, r *http.Request)`, with the
arithmetic of `int64`; `uuid` is the token `uuid.NewV4()` yields inside `NewAuthRequest`. -/
def authRequestAPIHandler64 (s : Registry) (vars : Vars) (body : Option authRequest)
    (uuid : String) : Registry × Response :=
  match validateAndReturnCardNumber vars with
  | none => (s, .httpError .errInvalidCardNumProvided 400)
  | some cardNumber =>
    match body with
    | none => (s, .httpError .errIncorrectOrMalformedJSON 400)
    | some data =>
      if !authRqIsValid data then (s, .httpError .errRqInvalidOrMissingData 400)
      else
        match FindCardByNumber s.cards cardNumber with
        | .error _ => (s, .httpError .errCardNotFound 404)
        | .ok card =>
          match card.NewAuthRequest64 s.authRequests uuid (vars.get "merchant_name")
              data.AuthAmount with
          | (card1, authRequests1, .error err) =>
            let s1 : Registry :=
              { s with cards := mapSet s.cards cardNumber card1, authRequests := authRequests1 }
            if err = Error.ErrCardIsNotUsable then (s1, .httpError .errCardIsNotUsable 403)
            else (s1, .httpError .errNotEnoughFunds 403)
          | (card1, authRequests1, .ok authRqUUID) =>
            ({ s with cards := mapSet s.cards cardNumber card1, authRequests := authRequests1 },
              .authRequestSuccess authRqUUID)

/-- Go: `func reverseAuthRqAPIHandler(w http.ResponseWriter, r *http.Request)`, with the
arithmetic of `int64`. -/
def reverseAuthRqAPIHandler64 (s : Registry) (vars : Vars) (body : Option reverseAuthRequest) :
    Registry × Response :=
  let authRqUUID := vars.get "auth_request_uuid"
  if authRqUUID = "" then (s, .httpError .errRqInvalidOrMissingData 400)
  else
    match validateAndReturnCardNumber vars with
    | none => (s, .httpError .errInvalidCardNumProvided 400)
    | some cardNumber =>
      match body with
      | none => (s, .httpError .errIncorrectOrMalformedJSON 400)
      | some data =>
        if !reverseAuthRqIsValid data then (s, .httpError .errRqInvalidOrMissingData 400)
        else
          match FindCardByNumber s.cards cardNumber with
          | .error _ => (s, .httpError .errCardNotFound 404)
          | .ok card =>
            match FindAuthRequestByUUID s.authRequests card.CardNumber authRqUUID with
            | .error _ => (s, .httpError .errAuthRqNotFound 404)
            | .ok authRq =>
              if data.ReverseAmount > (deref s.authRequests authRq).AuthAmount then
                (s, .httpError .errInvalidReverseAmount 403)
              else
                let captured : Bool :=
                  match FindFundCaptureByAuthUUID s.fundCaptures
                      (deref s.authRequests authRq).UUID with
                  | .ok fundCapture => decide (fundCapture.CapturedAmount > data.ReverseAmount)
                  | .error _ => false
                if captured then (s, .httpError .errInvalidReverseAmount 403)
                else
                  match (deref s.authRequests authRq).Reverse64 data.ReverseAmount card with
                  | (authRq1, card1, err) =>
                    let s1 : Registry :=
                      { s with
                        cards := mapSet s.cards cardNumber card1
                        authRequests := store s.authRequests authRq authRq1 }
                    match err with
                    | some _ => (s1, .httpError .errCardIsNotUsable 403)
                    | none => (s1, .empty)

/-- Go: `func captureFundsAPIHandler(w http.ResponseWriter, r *http.Request)`, with the
arithmetic of `int64`. -/
def captureFundsAPIHandler64 (s : Registry) (vars : Vars) (body : Option captureFundsRequest) :
    Registry × Response :=
  let authRqUUID := vars.get "auth_request_uuid"
  if authRqUUID = "" then (s, .httpError .errRqInvalidOrMissingData 400)
  else
    match validateAndReturnCardNumber vars with
    | none => (s, .httpError .errInvalidCardNumProvided 400)
    | some cardNumber =>
      match body with
      | none => (s, .httpError .errIncorrectOrMalformedJSON 400)
      | some data =>
        if !captureFundsRqIsValid data then (s, .httpError .errRqInvalidOrMissingData 400)
        else
          match FindCardByNumber s.cards cardNumber with
          | .error _ => (s, .httpError .errCardNotFound 404)
          | .ok card =>
            match FindAuthRequestByUUID s.authRequests card.CardNumber authRqUUID with
            | .error _ => (s, .httpError .errAuthRqNotFound 404)
            | .ok authRq =>
              let found := captureFundsAPIHandler.fundCapture s authRq
              match found.2.Capture64 (deref s.authRequests found.2.AuthRequest)
                  data.CaptureAmount card with
              | (fundCapture1, card1, err) =>
                let s1 : Registry :=
                  { s with
                    cards := mapSet s.cards cardNumber card1
                    fundCaptures :=
                      mapSet found.1 (deref s.authRequests authRq).UUID fundCapture1 }
                match err with
                | some e =>
                  if e = Error.ErrAuthIsReversed then (s1, .httpError .errAuthReversed 403)
                  else (s1, .httpError .errInvalidCaptureAmount 400)
                | none => (s1, .empty)

/-- The last statements of `refundFundsAPIHandler`, from the check of the refund amount on,
with the arithmetic of `int64`: the capture and the card after them, and whether the request
was rejected. -/
def refundFunds64 (fundCapture : FundCapture) (card : Card) (data : refundFundsRequest) :
    FundCapture × Card × Option ErrorBody :=
  if data.RefundAmount > fundCapture.CapturedAmount then
    (fundCapture, card, some .errInvalidRefundAmount)
  else
    ({ fundCapture with
       CapturedAmount := wrap64 (fundCapture.CapturedAmount - data.RefundAmount) },
      card.Refund64 data.RefundAmount, none)

/-- Go: `func refundFundsAPIHandler(w http.ResponseWriter, r *http.Request)`, with the
arithmetic of `int64`. -/
def refundFundsAPIHandler64 (s : Registry) (vars : Vars) (body : Option refundFundsRequest) :
    Registry × Response :=
  let authRqUUID := vars.get "auth_request_uuid"
  if authRqUUID = "" then (s, .httpError .errRqInvalidOrMissingData 400)
  else
    match validateAndReturnCardNumber vars with
    | none => (s, .httpError .errInvalidCardNumProvided 400)
    | some cardNumber =>
      match body with
      | none => (s, .httpError .errIncorrectOrMalformedJSON 400)
      | some data =>
        if !refundFundsRqIsValid data then (s, .httpError .errRqInvalidOrMissingData 400)
        else
          match FindCardByNumber s.cards cardNumber with
          | .error _ => (s, .httpError .errCardNotFound 404)
          | .ok card =>
            match FindAuthRequestByUUID s.authRequests card.CardNumber authRqUUID with
            | .error _ => (s, .httpError .errAuthRqNotFound 404)
            | .ok authRq =>
              match FindFundCaptureByAuthUUID s.fundCaptures
                  (deref s.authRequests authRq).UUID with
              | .error _ => (s, .httpError .errFundCaptureNotFound 404)
              | .ok fundCapture =>
                match refundFunds64 fundCapture card data with
                | (fundCapture1, card1, some e) =>
                  ({ s with
                     cards := mapSet s.cards cardNumber card1
                     fundCaptures :=
                       mapSet s.fundCaptures (deref s.authRequests authRq).UUID fundCapture1 },
                    .httpError e 403)
                | (fundCapture1, card1, none) =>
                  ({ s with
                     cards := mapSet s.cards cardNumber card1
                     fundCaptures :=
                       mapSet s.fundCaptures (deref s.authRequests authRq).UUID fundCapture1 },
                    .empty)

/-- The router of `NewAPI`, with the handlers in the arithmetic of `int64`. -/
def serve64 (s : Registry) : Request → Registry × Response
  | .createCard body rand => createCardAPIHandler s body rand
  | .getCardFunds vars => getCardFundsAPIHandler s vars
  | .loadFunds vars body => loadFundsAPIHandler64 s vars body
  | .authorize vars body uuid => authRequestAPIHandler64 s vars body uuid
  | .reverse vars body => reverseAuthRqAPIHandler64 s vars body
  | .capture vars body => captureFundsAPIHandler64 s vars body
  | .refund vars body => refundFundsAPIHandler64 s vars body

/-- The state after a list of requests served one after the other by `serve64`. -/
def run64 (s : Registry) : List Request → Registry
  | [] => s
  | rq :: rest => run64 (serve64 s rq).1 rest

/-- The states the server reaches from the empty registry, in the arithmetic of `int64`, by
serving, one at a time, requests that satisfy `allowed` in the state they arrive in. -/
inductive ReachableBy64 (allowed : Registry → Request → Prop) : Registry → Prop where
  | start : ReachableBy64 allowed Registry.empty
  | step {s : Registry} (rq : Request) :
      ReachableBy64 allowed s → allowed s rq → rq.tokenFresh s →
        ReachableBy64 allowed (serve64 s rq).1

/-- The states the server reaches from the empty registry, in the arithmetic of `int64`. -/
def Reachable64 (s : Registry) : Prop := ReachableBy64 (fun _ _ => True) s

/-- The freshness assumption along a list of requests served by `serve64`. -/
def TraceFresh64 (s : Registry) : List Request → Prop
  | [] => True
  | rq :: rest => rq.tokenFresh s ∧ TraceFresh64 (serve64 s rq).1 rest

/-- Every request of a list is allowed in the state it arrives in, when `serve64` serves
them. -/
def TraceAllowed64 (allowed : Registry → Request → Prop) (s : Registry) :
    List Request → Prop
  | [] => True
  | rq :: rest => allowed s rq ∧ TraceAllowed64 allowed (serve64 s rq).1 rest

/-- A load request that does not take the loaded funds of its card beyond the greatest
`int64`. -/
def loadWithinRange (s : Registry) (vars : Vars) (body : Option loadFundsRequest) : Prop :=
  ∀ (cardNumber : Int) (data : loadFundsRequest) (card : Card),
    validateAndReturnCardNumber vars = some cardNumber → body = some data →
    FindCardByNumber s.cards cardNumber = .ok card →
    card.LoadedFunds + data.AmountCents ≤ maxInt64

/-- A capture request whose amount, added to what the capture of its hold records, does not
go beyond the greatest `int64`. -/
def captureWithinRange (s : Registry) (vars : Vars) (body : Option captureFundsRequest) :
    Prop :=
  ∀ (cardNumber : Int) (data : captureFundsRequest) (card : Card) (authRq : AuthRequestPtr),
    validateAndReturnCardNumber vars = some cardNumber → body = some data →
    FindCardByNumber s.cards cardNumber = .ok card →
    FindAuthRequestByUUID s.authRequests card.CardNumber (vars.get "auth_request_uuid")
      = .ok authRq →
    (captureFundsAPIHandler.fundCapture s authRq).2.CapturedAmount + data.CaptureAmount
      ≤ maxInt64

/-- The requests of the capture flow in the arithmetic of `int64`: no refund request, of the
reverse requests those that release no captured money, and of the load and capture requests
those whose sums stay within the `int64` range. -/
def Request.isCaptureFlow64 (s : Registry) : Request → Prop
  | .loadFunds vars body => loadWithinRange s vars body
  | .reverse vars body => reverseWithinRemainder s vars body
  | .capture vars body => captureWithinRange s vars body
  | .refund _ _ => False
  | _ => True

/-- The ranges the amounts of the registry stay in along the capture flow. -/
structure Ranges (s : Registry) : Prop where
  cards : ∀ cn c, s.cards cn = some c →
    c.BlockedFunds ≤ c.TotalFunds ∧ c.TotalFunds ≤ c.LoadedFunds ∧ c.LoadedFunds ≤ maxInt64
  holds : ∀ cn, ∀ ar ∈ holdsOf s.authRequests cn, ar.AuthAmount ≤ maxInt64
  captures : ∀ u fc, s.fundCaptures u = some fc → 0 ≤ fc.CapturedAmount

/-- A card with the number 1 at given loaded, blocked and total funds. -/
def cardWith (loadedFunds blockedFunds totalFunds : Int) : Card :=
  { CardNumber := 1
    Cardholder := { Name := "Ann" }
    CardCurrency := "GBP"
    LoadedFunds := loadedFunds
    BlockedFunds := blockedFunds
    TotalFunds := totalFunds
    Usable := true }

/-- The card `NewCard` creates under the number 1. -/
def newCard1 : Card :=
  { CardNumber := 1
    Cardholder := { Name := "Ann" }
    CardCurrency := "GBP"
    LoadedFunds := 0
    BlockedFunds := 0
    TotalFunds := 0
    Usable := false }

/-- The request that creates the card of the scenarios, under the number 1. -/
def create1 : Request :=
  .createCard (some { CardholderName := "Ann", CardCurrency := "GBP" }) (fun _ => 1)

/-- A load request on card 1. -/
def load1 (amount : Int) : Request :=
  .loadFunds (cardVars "1") (some { AmountCents := amount })

/-- An authorization request on card 1 that draws the token `uuid`. -/
def authorize1 (amount : Int) (uuid : String) : Request :=
  .authorize (cardVars "1") (some { MerchantName := "shop", AuthAmount := amount }) uuid

end api

/-! ## Properties of the ledger operations -/

section Ledger

open prepaid api

theorem BlockFunds_CardNumber (c : Card) (amount : Int) :
    (c.BlockFunds amount).1.CardNumber = c.CardNumber := by
  unfold Card.BlockFunds
  split_ifs <;> rfl

theorem BlockFunds_error_unchanged (c : Card) (amount : Int) (e : Error)
    (h : (c.BlockFunds amount).2 = some e) : (c.BlockFunds amount).1 = c := by
  unfold Card.BlockFunds at h ⊢
  split_ifs at h ⊢ <;> simp_all

theorem NewAuthRequest_eq (c : Card) (authRequests : Int → Option (List AuthRequest))
    (uuid merchantName : String) (amount : Int) :
    c.NewAuthRequest authRequests uuid merchantName amount =
      match (c.BlockFunds amount).2 with
      | some err => ((c.BlockFunds amount).1, authRequests, .error err)
      | none =>
        ((c.BlockFunds amount).1,
          mapSet authRequests c.CardNumber
            (holdsOf authRequests c.CardNumber ++
              [{ UUID := uuid, MerchantName := merchantName, AuthAmount := amount }]),
          .ok uuid) := by
  unfold Card.NewAuthRequest
  have hn := BlockFunds_CardNumber c amount
  rcases hb : c.BlockFunds amount with ⟨c1, _ | err⟩
  · rw [hb] at hn
    simp only at hn
    simp [hn]
  · simp

end Ledger

section Capture

open prepaid api

theorem Capture_eq (fc : FundCapture) (authRq : AuthRequest) (amount : Int) (card : Card) :
    fc.Capture authRq amount card =
      if fc.Completed = true ∨ fc.CapturedAmount + amount > authRq.AuthAmount then
        (fc, card, some .ErrInvalidCapture)
      else
        ({ fc with
           CapturedAmount := fc.CapturedAmount + amount
           Completed := decide (fc.CapturedAmount + amount = authRq.AuthAmount) },
          (card.CaptureFunds amount).1, (card.CaptureFunds amount).2) := by
  unfold FundCapture.Capture
  by_cases hc : fc.Completed = true
  · simp [hc]
  · by_cases hgt : fc.CapturedAmount + amount > authRq.AuthAmount
    · simp [hc, hgt]
    · have hcf : fc.Completed = false := by simpa using hc
      rcases hq : card.CaptureFunds amount with ⟨card1, _ | err⟩ <;>
        by_cases heq : fc.CapturedAmount + amount = authRq.AuthAmount <;>
        simp [hcf, hgt, heq]

end Capture

section Holds

open prepaid api

theorem loop_lt (uuid : String) (l : List AuthRequest) (i : Nat)
    (h : FindAuthRequestByUUID.loop uuid l = some i) :
    i < l.length ∧ (l.getD i default).UUID = uuid := by
  induction l generalizing i with
  | nil => simp [FindAuthRequestByUUID.loop] at h
  | cons x rest ih =>
    unfold FindAuthRequestByUUID.loop at h
    split_ifs at h with hx
    · simp at h
      subst h
      simp [hx]
    · simp at h
      obtain ⟨j, hj, rfl⟩ := h
      have := ih j hj
      simpa using this

theorem loop_none (uuid : String) (l : List AuthRequest) :
    FindAuthRequestByUUID.loop uuid l = none ↔ ∀ ar ∈ l, ar.UUID ≠ uuid := by
  induction l with
  | nil => simp [FindAuthRequestByUUID.loop]
  | cons x rest ih =>
    unfold FindAuthRequestByUUID.loop
    split_ifs with hx
    · simp [hx]
    · simp [ih]
      intro _
      exact fun h => hx h.symm

theorem loop_append (uuid : String) (l : List AuthRequest) (ar : AuthRequest) :
    FindAuthRequestByUUID.loop uuid (l ++ [ar]) =
      match FindAuthRequestByUUID.loop uuid l with
      | some i => some i
      | none => if uuid = ar.UUID then some l.length else none := by
  induction l with
  | nil => simp [FindAuthRequestByUUID.loop]
  | cons x rest ih =>
    rw [List.cons_append]
    unfold FindAuthRequestByUUID.loop
    by_cases hx : uuid = x.UUID
    · simp [hx]
    · rw [if_neg hx, if_neg hx, ih]
      rcases FindAuthRequestByUUID.loop uuid rest with _ | j
      · by_cases hu : uuid = ar.UUID <;> simp [hu]
      · simp

/-- C7. With a token that no hold of the card carries yet: when `Card.NewAuthRequest` fails,
the card and the registry of holds are as before; when it succeeds, the returned token is
found by `FindAuthRequestByUUID` under the card's number, the hold found has the requested
`AuthAmount` and the given `MerchantName`, and every hold that was found before is found at
the same place with the same content. -/
theorem C7_NewAuthRequest_registers (c : Card)
    (authRequests : Int → Option (List AuthRequest)) (uuid merchantName : String)
    (amount : Int)
    (hfresh : ∀ ar ∈ holdsOf authRequests c.CardNumber, ar.UUID ≠ uuid) :
    (∀ e, (c.NewAuthRequest authRequests uuid merchantName amount).2.2 = .error e →
      (c.NewAuthRequest authRequests uuid merchantName amount).1 = c ∧
      (c.NewAuthRequest authRequests uuid merchantName amount).2.1 = authRequests) ∧
    (∀ tok, (c.NewAuthRequest authRequests uuid merchantName amount).2.2 = .ok tok →
      (∃ p, FindAuthRequestByUUID
          (c.NewAuthRequest authRequests uuid merchantName amount).2.1 c.CardNumber tok
            = .ok p ∧
        (deref (c.NewAuthRequest authRequests uuid merchantName amount).2.1 p).AuthAmount
            = amount ∧
        (deref (c.NewAuthRequest authRequests uuid merchantName amount).2.1 p).MerchantName
            = merchantName) ∧
      (∀ cardNumber u q, FindAuthRequestByUUID authRequests cardNumber u = .ok q →
        FindAuthRequestByUUID
          (c.NewAuthRequest authRequests uuid merchantName amount).2.1 cardNumber u = .ok q ∧
        deref (c.NewAuthRequest authRequests uuid merchantName amount).2.1 q
          = deref authRequests q)) := by
  rw [NewAuthRequest_eq]
  rcases hbf : (c.BlockFunds amount).2 with _ | err
  · refine ⟨fun e h => by simp at h, ?_⟩
    intro tok htok
    simp only [Except.ok.injEq] at htok
    subst htok
    have hnone := (loop_none uuid (holdsOf authRequests c.CardNumber)).2 hfresh
    constructor
    · refine ⟨{ cardNumber := c.CardNumber,
                index := (holdsOf authRequests c.CardNumber).length }, ?_, ?_, ?_⟩
      · simp [FindAuthRequestByUUID, mapSet, loop_append, hnone]
      · simp [deref, holdsOf, mapSet]
      · simp [deref, holdsOf, mapSet]
    · intro cardNumber u q hq
      unfold FindAuthRequestByUUID at hq ⊢
      by_cases hcn : cardNumber = c.CardNumber
      · subst hcn
        rcases hl : authRequests c.CardNumber with _ | l
        · simp [hl] at hq
        · rw [hl] at hq
          simp only at hq
          rcases hloop : FindAuthRequestByUUID.loop u l with _ | i
          · simp [hloop] at hq
          · rw [hloop] at hq
            simp only [Except.ok.injEq] at hq
            subst hq
            have hlt := (loop_lt u l i hloop).1
            simp [mapSet, holdsOf, hl, loop_append, hloop, deref, List.getElem?_append_left hlt]
      · rcases hl : authRequests cardNumber with _ | l
        · simp [hl] at hq
        · rw [hl] at hq
          simp only at hq
          rcases hloop : FindAuthRequestByUUID.loop u l with _ | i
          · simp [hloop] at hq
          · rw [hloop] at hq
            simp only [Except.ok.injEq] at hq
            subst hq
            simp [mapSet, holdsOf, hl, hloop, deref, hcn]
  · refine ⟨fun e _ => ⟨BlockFunds_error_unchanged c amount err hbf, rfl⟩, ?_⟩
    intro tok h
    simp at h

end Holds

section Scenarios

open prepaid api

theorem reachableBy_run (allowed : Registry → Request → Prop) (trace : List Request) :
    ∀ s : Registry, ReachableBy allowed s → TraceAllowed allowed s trace → TraceFresh s trace →
      ReachableBy allowed (run s trace) := by
  induction trace with
  | nil => intro s hs _ _; exact hs
  | cons rq rest ih =>
    intro s hs hall hfresh
    exact ih _ (ReachableBy.step rq hs hall.1 hfresh.1) hall.2 hfresh.2

theorem reachable_run (trace : List Request) (s : Registry) (hs : Reachable s)
    (hfresh : TraceFresh s trace) : Reachable (run s trace) := by
  refine reachableBy_run _ trace s hs ?_ hfresh
  clear hs hfresh
  induction trace generalizing s with
  | nil => trivial
  | cons rq rest ih => exact ⟨trivial, ih _⟩

theorem traceFresh_authorized400 (rest : List Request)
    (hrest : ∀ rq ∈ rest, ∀ s, rq.tokenFresh s) :
    TraceFresh Registry.empty (authorized400 ++ rest) := by
  have hgen : ∀ (l : List Request) (s : Registry), (∀ rq ∈ l, ∀ s, rq.tokenFresh s) →
      TraceFresh s l := by
    intro l
    induction l with
    | nil => intro s _; trivial
    | cons r l ih =>
      intro s h
      exact ⟨h r (by simp) s, ih _ (fun q hq => h q (by simp [hq]))⟩
  refine ⟨trivial, trivial, ?_, hgen rest _ hrest⟩
  intro cardNumber ar har
  change ar ∈ ([] : List AuthRequest) at har
  simp at har

end Scenarios

section Defects

open prepaid api

/-- C1 fails on the code. After create card, load 1000, authorize 400, capture 100 and
reverse 400, all accepted by the handlers, the card has `BlockedFunds = -100`: the reverse
handler lets through a reverse amount that is not below the captured amount, and
`UnblockFunds` has no floor check. -/
theorem C1_blocked_funds_negative :
    Reachable (run Registry.empty (authorized400 ++ [capture1 100, reverse1 400])) ∧
    ((run Registry.empty (authorized400 ++ [capture1 100, reverse1 400])).cards 1).map
        Card.BlockedFunds = some (-100) ∧
    ((run Registry.empty (authorized400 ++ [capture1 100, reverse1 400])).cards 1).map
        Card.TotalFunds = some 900 ∧
    (serve (run Registry.empty (authorized400 ++ [capture1 100])) (reverse1 400)).2
        = Response.empty := by
  refine ⟨?_, by decide, by decide, by decide⟩
  refine reachable_run _ _ ReachableBy.start (traceFresh_authorized400 _ ?_)
  intro rq hrq s
  simp only [List.mem_cons, List.mem_singleton, List.not_mem_nil, or_false] at hrq
  rcases hrq with rfl | rfl <;> exact trivial

/-- C2 fails on the code. After create card, load 1000, authorize 400, capture 100 and
reverse 400, the capture of the hold has `CapturedAmount = 100` and the hold it points to has
`AuthAmount = 0`. -/
theorem C2_captured_exceeds_authorized :
    Reachable (run Registry.empty (authorized400 ++ [capture1 100, reverse1 400])) ∧
    ((run Registry.empty (authorized400 ++ [capture1 100, reverse1 400])).fundCaptures
        "t1").map FundCapture.CapturedAmount = some 100 ∧
    ((run Registry.empty (authorized400 ++ [capture1 100, reverse1 400])).fundCaptures
        "t1").map
      (fun fc => (deref (run Registry.empty
        (authorized400 ++ [capture1 100, reverse1 400])).authRequests
          fc.AuthRequest).AuthAmount) = some 0 := by
  refine ⟨?_, by decide, by decide⟩
  refine reachable_run _ _ ReachableBy.start (traceFresh_authorized400 _ ?_)
  intro rq hrq s
  simp only [List.mem_cons, List.mem_singleton, List.not_mem_nil, or_false] at hrq
  rcases hrq with rfl | rfl <;> exact trivial

/-- C3 fails on the code. `Capture` writes `CapturedAmount` and `Completed` before it calls
`CaptureFunds`: after create card, load 1000, authorize 400, capture 100 and refund 100, the
capture request of 400 is answered with an error and yet leaves `CapturedAmount = 400` and
`Completed = true` where they were `0` and `false`.  `Reverse` writes `AuthAmount` before it
calls `UnblockFunds`: on a card that is not usable it returns `ErrCardIsNotUsable` and has
taken the amount from `AuthAmount`. -/
theorem C3_written_before_error :
    ((run Registry.empty (authorized400 ++ [capture1 100, refund1 100])).fundCaptures "t1")
      = some { AuthRequest := { cardNumber := 1, index := 0 }, CapturedAmount := 0,
               Completed := false } ∧
    (serve (run Registry.empty (authorized400 ++ [capture1 100, refund1 100]))
        (capture1 400)).2 = Response.httpError .errInvalidCaptureAmount 400 ∧
    ((serve (run Registry.empty (authorized400 ++ [capture1 100, refund1 100]))
        (capture1 400)).1.fundCaptures "t1")
      = some { AuthRequest := { cardNumber := 1, index := 0 }, CapturedAmount := 400,
               Completed := true } ∧
    (fundCapture1 0 false).Capture hold1 400 (card1 300 1000)
      = (fundCapture1 400 true, card1 300 1000, some .ErrNotEnoughFunds) ∧
    hold1.Reverse 100 { card1 0 0 with Usable := false }
      = ({ hold1 with AuthAmount := 300 }, { card1 0 0 with Usable := false },
         some .ErrCardIsNotUsable) := by
  refine ⟨by decide, by decide, by decide, by decide, by decide⟩

/-- C4 fails on the code. After create card, load 1000, authorize 400 and capture 100, the
reverse request of 350, which is more than the remainder 400 - 100 that was not captured, is
accepted: the hold is left with `AuthAmount = 50` and the card with `BlockedFunds = -50`. -/
theorem C4_reverse_350_accepted :
    (serve (run Registry.empty (authorized400 ++ [capture1 100])) (reverse1 350)).2
        = Response.empty ∧
    ((run Registry.empty (authorized400 ++ [capture1 100])).authRequests 1)
        = some [{ UUID := "t1", MerchantName := "", AuthAmount := 400 }] ∧
    ((run Registry.empty (authorized400 ++ [capture1 100])).fundCaptures "t1").map
        FundCapture.CapturedAmount = some 100 ∧
    ((serve (run Registry.empty (authorized400 ++ [capture1 100])) (reverse1 350)).1.authRequests
        1) = some [{ UUID := "t1", MerchantName := "", AuthAmount := 50 }] ∧
    ((serve (run Registry.empty (authorized400 ++ [capture1 100])) (reverse1 350)).1.cards
        1).map Card.BlockedFunds = some (-50) := by
  refine ⟨by decide, by decide, by decide, by decide, by decide⟩

end Defects

section CaptureFlow

open prepaid api

theorem outstanding_mapSet_other (fcs : String → Option FundCapture) (u : String)
    (fc : FundCapture) (l : List AuthRequest) (h : ∀ ar ∈ l, ar.UUID ≠ u) :
    outstanding (mapSet fcs u fc) l = outstanding fcs l := by
  induction l with
  | nil => rfl
  | cons x rest ih =>
    have hx : x.UUID ≠ u := h x (by simp)
    have hr : ∀ ar ∈ rest, ar.UUID ≠ u := fun ar har => h ar (by simp [har])
    have ih' := ih hr
    simp only [outstanding, List.map_cons, List.sum_cons] at ih' ⊢
    rw [ih']
    simp [capturedOf, mapSet, hx]

theorem outstanding_mapSet_mem (fcs : String → Option FundCapture) (u : String)
    (fc : FundCapture) (l : List AuthRequest) (hnd : (l.map AuthRequest.UUID).Nodup)
    (ar : AuthRequest) (har : ar ∈ l) (hu : ar.UUID = u) :
    outstanding (mapSet fcs u fc) l
      = outstanding fcs l - (fc.CapturedAmount - capturedOf fcs u) := by
  induction l with
  | nil => simp at har
  | cons x rest ih =>
    simp only [List.map_cons, List.nodup_cons, List.mem_map, not_exists, not_and] at hnd
    obtain ⟨hx, hrest⟩ := hnd
    rcases List.mem_cons.1 har with rfl | hmem
    · have hr : ∀ a ∈ rest, a.UUID ≠ u := by
        intro a ha heq
        exact hx a ha (heq.trans hu.symm)
      have := outstanding_mapSet_other fcs u fc rest hr
      simp only [outstanding, List.map_cons, List.sum_cons] at this ⊢
      rw [this]
      simp [capturedOf, mapSet, hu]
      omega
    · have hxu : x.UUID ≠ u := by
        intro heq
        exact hx ar hmem (hu.trans heq.symm)
      have ih' := ih hrest hmem
      simp only [outstanding, List.map_cons, List.sum_cons] at ih' ⊢
      rw [ih']
      simp [capturedOf, mapSet, hxu]
      omega

theorem outstanding_ge (fcs : String → Option FundCapture) (l : List AuthRequest)
    (hb : ∀ ar ∈ l, capturedOf fcs ar.UUID ≤ ar.AuthAmount) :
    0 ≤ outstanding fcs l ∧
      ∀ ar ∈ l, ar.AuthAmount - capturedOf fcs ar.UUID ≤ outstanding fcs l := by
  induction l with
  | nil => simp [outstanding]
  | cons x rest ih =>
    have hx := hb x (by simp)
    obtain ⟨h0, hr⟩ := ih (fun ar har => hb ar (by simp [har]))
    simp only [outstanding, List.map_cons, List.sum_cons] at h0 hr ⊢
    refine ⟨by omega, ?_⟩
    intro ar har
    rcases List.mem_cons.1 har with rfl | hmem
    · omega
    · have := hr ar hmem
      omega

theorem outstanding_append (fcs : String → Option FundCapture) (l : List AuthRequest)
    (ar : AuthRequest) :
    outstanding fcs (l ++ [ar])
      = outstanding fcs l + (ar.AuthAmount - capturedOf fcs ar.UUID) := by
  simp [outstanding]

theorem NewCard_loop_unused (cards : Int → Option Card) (rand : Nat → Int) (n : Nat) :
    ∀ i cNum, NewCard.loop cards rand n i = some cNum → cards cNum = none := by
  induction n with
  | zero => intro i cNum h; simp [NewCard.loop] at h
  | succ n ih =>
    intro i cNum h
    unfold NewCard.loop at h
    split_ifs at h with hs
    · exact ih _ _ h
    · simp only [Option.some.injEq] at h
      subst h
      simpa using hs

theorem captureInv_empty : CaptureInv Registry.empty := by
  constructor <;> simp [Registry.empty, holdsOf, outstanding]

end CaptureFlow

section CaptureFlowSteps

open prepaid api

theorem FindCardByNumber_ok (cards : Int → Option Card) (cn : Int) (card : Card) :
    FindCardByNumber cards cn = .ok card ↔ cards cn = some card := by
  unfold FindCardByNumber
  rcases cards cn with _ | c <;> simp

theorem FindAuthRequestByUUID_ok (authRequests : Int → Option (List AuthRequest))
    (cn : Int) (uuid : String) (p : AuthRequestPtr)
    (h : FindAuthRequestByUUID authRequests cn uuid = .ok p) :
    p.cardNumber = cn ∧ p.index < (holdsOf authRequests cn).length ∧
      deref authRequests p ∈ holdsOf authRequests cn ∧
      (deref authRequests p).UUID = uuid := by
  unfold FindAuthRequestByUUID at h
  rcases hl : authRequests cn with _ | l
  · simp [hl] at h
  · rw [hl] at h
    simp only at h
    rcases hloop : FindAuthRequestByUUID.loop uuid l with _ | i
    · simp [hloop] at h
    · rw [hloop] at h
      simp only [Except.ok.injEq] at h
      subst h
      obtain ⟨hlt, hu⟩ := loop_lt uuid l i hloop
      refine ⟨rfl, by simpa [holdsOf, hl] using hlt, ?_, ?_⟩
      · simp only [deref, holdsOf, hl, Option.getD_some]
        rw [List.getD_eq_getElem _ _ hlt]
        exact List.getElem_mem _
      · simpa [deref, holdsOf, hl] using hu

theorem mapSet_mapSet {κ α : Type} [DecidableEq κ] (m : κ → Option α) (k : κ) (a b : α) :
    mapSet (mapSet m k a) k b = mapSet m k b := by
  funext k'
  simp only [mapSet]
  split_ifs <;> rfl

/-- A card is replaced by one with the same number and the same blocked funds. -/
theorem captureInv_card (s : Registry) (h : CaptureInv s) (cn : Int) (card card1 : Card)
    (hc : s.cards cn = some card) (hn : card1.CardNumber = card.CardNumber)
    (hus : card.Usable = true → card1.Usable = true)
    (hb : card1.BlockedFunds = card.BlockedFunds) :
    CaptureInv { s with cards := mapSet s.cards cn card1 } := by
  refine ⟨?_, ?_, ?_, ?_, h.bounded, h.nodup, h.disjoint, h.pointer⟩
  · intro k c hk
    simp only [mapSet] at hk
    split_ifs at hk with hkc
    · simp only [Option.some.injEq] at hk
      subst hk hkc
      rw [hn]
      exact h.number _ _ hc
    · exact h.number _ _ hk
  · intro k hk
    simp only [mapSet] at hk
    split_ifs at hk with hkc
    exact h.noHolds _ hk
  · intro k c hk hne
    simp only [mapSet] at hk
    split_ifs at hk with hkc
    · simp only [Option.some.injEq] at hk
      subst hk hkc
      exact hus (h.usable _ _ hc hne)
    · exact h.usable _ _ hk hne
  · intro k c hk
    simp only [mapSet] at hk
    split_ifs at hk with hkc
    · simp only [Option.some.injEq] at hk
      subst hk hkc
      rw [hb]
      exact h.blocked _ _ hc
    · exact h.blocked _ _ hk

theorem captureInv_createCard (s : Registry) (h : CaptureInv s)
    (body : Option createCardRequest) (rand : Nat → Int) :
    CaptureInv (createCardAPIHandler s body rand).1 := by
  unfold createCardAPIHandler
  rcases body with _ | data
  · exact h
  · simp only
    split_ifs
    · exact h
    · unfold NewCard
      rcases hloop : NewCard.loop s.cards rand createCardMaxRetries 0 with _ | cNum
      · exact h
      · have hnone := NewCard_loop_unused _ _ _ _ _ hloop
        refine ⟨?_, ?_, ?_, ?_, h.bounded, h.nodup, h.disjoint, h.pointer⟩
        · intro k c hk
          simp only [mapSet] at hk
          split_ifs at hk with hkc
          · simp only [Option.some.injEq] at hk
            subst hk hkc
            rfl
          · exact h.number _ _ hk
        · intro k hk
          simp only [mapSet] at hk
          split_ifs at hk with hkc
          exact h.noHolds _ hk
        · intro k c hk hne
          simp only [mapSet] at hk
          split_ifs at hk with hkc
          · subst hkc
            exact absurd (h.noHolds _ hnone) hne
          · exact h.usable _ _ hk hne
        · intro k c hk
          simp only [mapSet] at hk
          split_ifs at hk with hkc
          · simp only [Option.some.injEq] at hk
            subst hk hkc
            show (0 : Int) = outstanding s.fundCaptures (holdsOf s.authRequests k)
            rw [h.noHolds _ hnone]
            rfl
          · exact h.blocked _ _ hk

theorem captureInv_loadFunds (s : Registry) (h : CaptureInv s) (vars : Vars)
    (body : Option loadFundsRequest) : CaptureInv (loadFundsAPIHandler s vars body).1 := by
  unfold loadFundsAPIHandler
  rcases validateAndReturnCardNumber vars with _ | cn
  · exact h
  · rcases body with _ | data
    · exact h
    · simp only
      split_ifs
      · exact h
      · rcases hf : FindCardByNumber s.cards cn with e | card
        · exact h
        · exact captureInv_card s h cn card _ ((FindCardByNumber_ok _ _ _).1 hf) rfl
            (fun _ => rfl) rfl

end CaptureFlowSteps

section CaptureFlowAuthorize

open prepaid api

theorem deref_mem (authRequests : Int → Option (List AuthRequest)) (p : AuthRequestPtr)
    (h : p.index < (holdsOf authRequests p.cardNumber).length) :
    deref authRequests p ∈ holdsOf authRequests p.cardNumber := by
  unfold deref
  rw [List.getD_eq_getElem _ _ h]
  exact List.getElem_mem _

theorem holdsOf_mapSet (authRequests : Int → Option (List AuthRequest)) (cn k : Int)
    (l : List AuthRequest) :
    holdsOf (mapSet authRequests cn l) k = if k = cn then l else holdsOf authRequests k := by
  unfold holdsOf mapSet
  split_ifs <;> rfl

theorem capturedOf_unused (s : Registry) (h : CaptureInv s) (uuid : String)
    (hfresh : tokenUnused s uuid) : s.fundCaptures uuid = none := by
  rcases hfc : s.fundCaptures uuid with _ | fc
  · rfl
  · obtain ⟨hlt, hu⟩ := h.pointer uuid fc hfc
    exact absurd hu (hfresh _ _ (deref_mem _ _ hlt))

/-- A hold with an unused token and an amount that is not negative is appended to the slice
of a card, and the amount is added to the blocked funds of the card. -/
theorem captureInv_append (s : Registry) (h : CaptureInv s) (cn : Int) (card card1 : Card)
    (uuid merchantName : String) (A : Int)
    (hc : s.cards cn = some card) (hfresh : tokenUnused s uuid) (hA : 0 ≤ A)
    (hn : card1.CardNumber = card.CardNumber) (hus : card1.Usable = true)
    (hb : card1.BlockedFunds = card.BlockedFunds + A) :
    CaptureInv
      { s with
        cards := mapSet s.cards cn card1
        authRequests := mapSet s.authRequests cn
          (holdsOf s.authRequests cn ++
            [{ UUID := uuid, MerchantName := merchantName, AuthAmount := A }]) } := by
  have hcap : capturedOf s.fundCaptures uuid = 0 := by
    simp [capturedOf, capturedOf_unused s h uuid hfresh]
  refine ⟨?_, ?_, ?_, ?_, ?_, ?_, ?_, ?_⟩
  · intro k c hk
    simp only [mapSet] at hk
    split_ifs at hk with hkc
    · simp only [Option.some.injEq] at hk
      subst hk hkc
      rw [hn]
      exact h.number _ _ hc
    · exact h.number _ _ hk
  · intro k hk
    simp only [mapSet] at hk
    split_ifs at hk with hkc
    simp only [holdsOf_mapSet, if_neg hkc]
    exact h.noHolds _ hk
  · intro k c hk hne
    simp only [mapSet] at hk
    simp only [holdsOf_mapSet] at hne
    split_ifs at hk hne with hkc
    · simp only [Option.some.injEq] at hk
      subst hk
      exact hus
    · exact h.usable _ _ hk hne
  · intro k c hk
    simp only [mapSet] at hk
    simp only [holdsOf_mapSet]
    split_ifs at hk ⊢ with hkc
    · simp only [Option.some.injEq] at hk
      subst hk hkc
      rw [hb, outstanding_append, h.blocked _ _ hc, hcap]
      simp
    · exact h.blocked _ _ hk
  · intro k ar har
    simp only [holdsOf_mapSet] at har
    split_ifs at har with hkc
    · rcases List.mem_append.1 har with hl | hl
      · exact h.bounded _ _ (hkc ▸ hl)
      · simp only [List.mem_singleton] at hl
        subst hl
        simp only [hcap]
        exact hA
    · exact h.bounded _ _ har
  · intro k
    simp only [holdsOf_mapSet]
    split_ifs with hkc
    · rw [List.map_append, List.nodup_append]
      refine ⟨h.nodup cn, by simp, ?_⟩
      intro u hu1 hu2
      simp only [List.map_cons, List.map_nil, List.mem_singleton] at hu2
      subst hu2
      obtain ⟨ar, har, hau⟩ := List.mem_map.1 hu1
      exact hfresh cn ar har hau
    · exact h.nodup k
  · intro k k' ar har ar' har' huu
    simp only [holdsOf_mapSet] at har har'
    split_ifs at har har' with hk hk'
    · rw [hk, hk']
    · rcases List.mem_append.1 har with hl | hl
      · exact hk ▸ h.disjoint cn k' ar hl ar' har' huu
      · simp only [List.mem_singleton] at hl
        subst hl
        exact absurd huu.symm (hfresh k' ar' har')
    · rcases List.mem_append.1 har' with hl | hl
      · rename_i hk2
        exact hk2 ▸ h.disjoint k cn ar har ar' hl huu
      · simp only [List.mem_singleton] at hl
        subst hl
        exact absurd huu (hfresh k ar har)
    · exact h.disjoint k k' ar har ar' har' huu
  · intro u fc hfc
    obtain ⟨hlt, hu⟩ := h.pointer u fc hfc
    simp only [deref, holdsOf_mapSet] at hu ⊢
    split_ifs with hkc
    · rw [hkc] at hlt hu
      refine ⟨by simp; omega, ?_⟩
      rw [List.getD_eq_getElem?_getD, List.getElem?_append_left hlt,
        ← List.getD_eq_getElem?_getD]
      exact hu
    · exact ⟨hlt, hu⟩

theorem captureInv_authorize (s : Registry) (h : CaptureInv s) (vars : Vars)
    (body : Option authRequest) (uuid : String) (hfresh : tokenUnused s uuid) :
    CaptureInv (authRequestAPIHandler s vars body uuid).1 := by
  unfold authRequestAPIHandler
  rcases validateAndReturnCardNumber vars with _ | cn
  · exact h
  · rcases body with _ | data
    · exact h
    · simp only
      split_ifs with hvalid
      · exact h
      · rcases hf : FindCardByNumber s.cards cn with e | card
        · exact h
        · have hc := (FindCardByNumber_ok _ _ _).1 hf
          have hnum := h.number _ _ hc
          have hN := NewAuthRequest_eq card s.authRequests uuid
            (vars.get "merchant_name") data.AuthAmount
          have hA : 0 ≤ data.AuthAmount := by
            simp [authRqIsValid] at hvalid
            omega
          rcases hbf : (card.BlockFunds data.AuthAmount).2 with _ | err
          · rw [hbf] at hN
            simp only at hN
            simp only [hN, hnum]
            refine captureInv_append s h cn card _ uuid _ _ hc hfresh hA
              (BlockFunds_CardNumber _ _) ?_ ?_
            · unfold Card.BlockFunds at hbf ⊢
              split_ifs at hbf ⊢ with h1 h2
              simpa using h1
            · unfold Card.BlockFunds at hbf ⊢
              split_ifs at hbf ⊢
              rfl
          · rw [hbf] at hN
            simp only at hN
            simp only [hN]
            have hcard := BlockFunds_error_unchanged card data.AuthAmount err hbf
            split_ifs <;>
              exact captureInv_card s h cn card _ hc (by rw [hcard]) (by rw [hcard]; exact id)
                (by rw [hcard])

end CaptureFlowAuthorize

section CaptureFlowCapture

open prepaid api

/-- The capture of a hold of a card is replaced, and the blocked funds of the card go down
by what the new capture records more than the old one. -/
theorem captureInv_record (s : Registry) (h : CaptureInv s) (cn : Int) (card card1 : Card)
    (hold : AuthRequest) (u : String) (fc1 : FundCapture)
    (hc : s.cards cn = some card) (hmem : hold ∈ holdsOf s.authRequests cn)
    (hu : hold.UUID = u)
    (hlt : fc1.AuthRequest.index < (holdsOf s.authRequests fc1.AuthRequest.cardNumber).length)
    (hptr : deref s.authRequests fc1.AuthRequest = hold)
    (hle : fc1.CapturedAmount ≤ hold.AuthAmount)
    (hn : card1.CardNumber = card.CardNumber) (hus : card1.Usable = card.Usable)
    (hb : card1.BlockedFunds
      = card.BlockedFunds - (fc1.CapturedAmount - capturedOf s.fundCaptures u)) :
    CaptureInv
      { s with
        cards := mapSet s.cards cn card1
        fundCaptures := mapSet s.fundCaptures u fc1 } := by
  have hother : ∀ k, k ≠ cn → ∀ ar ∈ holdsOf s.authRequests k, ar.UUID ≠ u := by
    intro k hk ar har heq
    exact hk (h.disjoint k cn ar har hold hmem (heq.trans hu.symm))
  refine ⟨?_, ?_, ?_, ?_, ?_, h.nodup, h.disjoint, ?_⟩
  · intro k c hk
    simp only [mapSet] at hk
    split_ifs at hk with hkc
    · simp only [Option.some.injEq] at hk
      subst hk hkc
      rw [hn]
      exact h.number _ _ hc
    · exact h.number _ _ hk
  · intro k hk
    simp only [mapSet] at hk
    split_ifs at hk with hkc
    exact h.noHolds _ hk
  · intro k c hk hne
    simp only [mapSet] at hk
    split_ifs at hk with hkc
    · simp only [Option.some.injEq] at hk
      subst hk hkc
      rw [hus]
      exact h.usable _ _ hc hne
    · exact h.usable _ _ hk hne
  · intro k c hk
    simp only [mapSet] at hk
    split_ifs at hk with hkc
    · simp only [Option.some.injEq] at hk
      subst hk hkc
      show card1.BlockedFunds = outstanding (mapSet s.fundCaptures u fc1) _
      rw [outstanding_mapSet_mem s.fundCaptures u fc1 _ (h.nodup k) hold hmem hu, hb,
        h.blocked _ _ hc]
    · show c.BlockedFunds = outstanding (mapSet s.fundCaptures u fc1) _
      rw [outstanding_mapSet_other s.fundCaptures u fc1 _ (hother k hkc)]
      exact h.blocked _ _ hk
  · intro k ar har
    show capturedOf (mapSet s.fundCaptures u fc1) ar.UUID ≤ ar.AuthAmount
    by_cases hau : ar.UUID = u
    · have hk : k = cn := by
        by_contra hne
        exact hother k hne ar har hau
      subst hk
      have : ar = hold :=
        List.inj_on_of_nodup_map (h.nodup k) har hmem (hau.trans hu.symm)
      subst this
      simpa [capturedOf, mapSet, hau] using hle
    · have := h.bounded k ar har
      simpa [capturedOf, mapSet, hau] using this
  · intro u' fc hfc
    simp only [mapSet] at hfc
    split_ifs at hfc with huu
    · simp only [Option.some.injEq] at hfc
      subst hfc
      exact ⟨hlt, by rw [hptr, hu, huu]⟩
    · exact h.pointer u' fc hfc

/-- What the capture handler has in hand after its lookups. -/
theorem capture_target (s : Registry) (h : CaptureInv s) (cn : Int) (card : Card)
    (uuid : String) (authRq : AuthRequestPtr)
    (hc : s.cards cn = some card)
    (hfind : FindAuthRequestByUUID s.authRequests card.CardNumber uuid = .ok authRq) :
    deref s.authRequests authRq ∈ holdsOf s.authRequests cn ∧
    (deref s.authRequests authRq).UUID = uuid ∧
    (captureFundsAPIHandler.fundCapture s authRq).2.AuthRequest.index <
      (holdsOf s.authRequests
        (captureFundsAPIHandler.fundCapture s authRq).2.AuthRequest.cardNumber).length ∧
    deref s.authRequests (captureFundsAPIHandler.fundCapture s authRq).2.AuthRequest
      = deref s.authRequests authRq ∧
    capturedOf s.fundCaptures uuid
      = (captureFundsAPIHandler.fundCapture s authRq).2.CapturedAmount ∧
    (∀ fc1, mapSet (captureFundsAPIHandler.fundCapture s authRq).1 uuid fc1
      = mapSet s.fundCaptures uuid fc1) := by
  rw [h.number _ _ hc] at hfind
  obtain ⟨hpc, hplt, hpmem, hpu⟩ := FindAuthRequestByUUID_ok _ _ _ _ hfind
  refine ⟨hpmem, hpu, ?_⟩
  unfold captureFundsAPIHandler.fundCapture FindFundCaptureByAuthUUID
  rw [hpu]
  rcases hfc : s.fundCaptures uuid with _ | fc
  · refine ⟨?_, rfl, ?_, ?_⟩
    · simpa [NewFundCapture, hpc] using hplt
    · simp [NewFundCapture, capturedOf, hfc]
    · intro fc1
      simp [NewFundCapture, mapSet_mapSet]
  · obtain ⟨hlt, hu⟩ := h.pointer uuid fc hfc
    have hmem := deref_mem _ _ hlt
    have hk : fc.AuthRequest.cardNumber = cn :=
      h.disjoint _ _ _ hmem _ hpmem (hu.trans hpu.symm)
    refine ⟨hlt, ?_, ?_, fun _ => rfl⟩
    · rw [hk] at hmem
      exact List.inj_on_of_nodup_map (h.nodup cn) hmem hpmem (hu.trans hpu.symm)
    · simp [capturedOf, hfc]

/-- The core of C5: under the invariant, an amount that passes the two checks of `Capture`
is within the blocked funds of the card. -/
theorem capture_within_blocked (s : Registry) (h : CaptureInv s) (cn : Int) (card : Card)
    (uuid : String) (authRq : AuthRequestPtr) (amount : Int)
    (hc : s.cards cn = some card)
    (hfind : FindAuthRequestByUUID s.authRequests card.CardNumber uuid = .ok authRq)
    (hsum : (captureFundsAPIHandler.fundCapture s authRq).2.CapturedAmount + amount ≤
      (deref s.authRequests
        (captureFundsAPIHandler.fundCapture s authRq).2.AuthRequest).AuthAmount) :
    amount ≤ card.BlockedFunds := by
  obtain ⟨hmem, -, -, hptr, hcap, -⟩ := capture_target s h cn card uuid authRq hc hfind
  rw [hptr] at hsum
  have := (outstanding_ge s.fundCaptures _ (h.bounded cn)).2 _ hmem
  rw [h.blocked _ _ hc]
  rw [← hcap] at hsum
  have hu := (capture_target s h cn card uuid authRq hc hfind).2.1
  rw [hu] at this
  omega

theorem captureInv_capture (s : Registry) (h : CaptureInv s) (vars : Vars)
    (body : Option captureFundsRequest) : CaptureInv (captureFundsAPIHandler s vars body).1 := by
  unfold captureFundsAPIHandler
  simp only
  split_ifs with hempty
  · exact h
  · rcases validateAndReturnCardNumber vars with _ | cn
    · exact h
    · rcases body with _ | data
      · exact h
      · simp only
        split_ifs with hvalid
        · exact h
        · rcases hf : FindCardByNumber s.cards cn with e | card
          · exact h
          · have hc := (FindCardByNumber_ok _ _ _).1 hf
            simp only
            rcases hfind : FindAuthRequestByUUID s.authRequests card.CardNumber
                (vars.get "auth_request_uuid") with e | authRq
            · exact h
            · simp only
              obtain ⟨hmem, hu, hlt, hptr, hcap, hmap⟩ :=
                capture_target s h cn card _ authRq hc hfind
              have hbound := h.bounded cn _ hmem
              rw [hu, hcap] at hbound
              simp only [hu, hmap, Capture_eq]
              split_ifs with hrej
              · have : CaptureInv
                    { s with
                      cards := mapSet s.cards cn card
                      fundCaptures := mapSet s.fundCaptures (vars.get "auth_request_uuid")
                        (captureFundsAPIHandler.fundCapture s authRq).2 } :=
                  captureInv_record s h cn card card _ _ _ hc hmem hu hlt hptr
                    (by rw [← hptr] at hbound ⊢; exact hbound) rfl rfl (by rw [hcap]; simp)
                simp only
                split_ifs <;> exact this
              · have hsum : (captureFundsAPIHandler.fundCapture s authRq).2.CapturedAmount
                    + data.CaptureAmount ≤
                    (deref s.authRequests
                      (captureFundsAPIHandler.fundCapture s authRq).2.AuthRequest).AuthAmount := by
                  simp only [not_or, not_lt] at hrej
                  exact hrej.2
                have hblocked := capture_within_blocked s h cn card _ authRq
                  data.CaptureAmount hc hfind hsum
                have hq : ¬ (data.CaptureAmount > card.BlockedFunds) := by omega
                have : CaptureInv
                    { s with
                      cards := mapSet s.cards cn (card.CaptureFunds data.CaptureAmount).1
                      fundCaptures := mapSet s.fundCaptures (vars.get "auth_request_uuid")
                        { (captureFundsAPIHandler.fundCapture s authRq).2 with
                          CapturedAmount :=
                            (captureFundsAPIHandler.fundCapture s authRq).2.CapturedAmount
                              + data.CaptureAmount
                          Completed := decide
                            ((captureFundsAPIHandler.fundCapture s authRq).2.CapturedAmount
                              + data.CaptureAmount
                              = (deref s.authRequests
                                (captureFundsAPIHandler.fundCapture s
                                  authRq).2.AuthRequest).AuthAmount) } } := by
                  refine captureInv_record s h cn card _ _ _ _ hc hmem hu hlt hptr
                    (by rw [← hptr]; exact hsum) ?_ ?_ ?_
                  · simp [Card.CaptureFunds, hq]
                  · simp [Card.CaptureFunds, hq]
                  · simp only [Card.CaptureFunds, if_neg hq, hcap]
                    omega
                rcases hcf : (card.CaptureFunds data.CaptureAmount).2 with _ | e
                · simp only
                  exact this
                · simp only
                  split_ifs <;> exact this

end CaptureFlowCapture

section CaptureFlowReverse

open prepaid api

theorem outstanding_set (fcs : String → Option FundCapture) (l : List AuthRequest) (i : Nat)
    (ar1 : AuthRequest) (hi : i < l.length) (hu : ar1.UUID = (l.getD i default).UUID) :
    outstanding fcs (l.set i ar1)
      = outstanding fcs l - ((l.getD i default).AuthAmount - ar1.AuthAmount) := by
  induction l generalizing i with
  | nil => simp at hi
  | cons x rest ih =>
    cases i with
    | zero =>
      simp only [List.getD_cons_zero] at hu
      simp only [outstanding, List.set_cons_zero, List.map_cons, List.sum_cons,
        List.getD_cons_zero, hu]
      omega
    | succ j =>
      simp only [List.getD_cons_succ] at hu
      have hj : j < rest.length := by simpa using hi
      have := ih j hj hu
      simp only [outstanding, List.set_cons_succ, List.map_cons, List.sum_cons,
        List.getD_cons_succ] at this ⊢
      rw [this]
      omega

theorem map_UUID_set (l : List AuthRequest) (i : Nat) (ar1 : AuthRequest)
    (hu : ar1.UUID = (l.getD i default).UUID) (hi : i < l.length) :
    (l.set i ar1).map AuthRequest.UUID = l.map AuthRequest.UUID := by
  induction l generalizing i with
  | nil => rfl
  | cons x rest ih =>
    cases i with
    | zero =>
      simp only [List.getD_cons_zero] at hu
      simp [hu]
    | succ j =>
      simp only [List.getD_cons_succ] at hu
      have hj : j < rest.length := by simpa using hi
      simp [ih j hu hj]

theorem getD_set_UUID (l : List AuthRequest) (i j : Nat) (ar1 : AuthRequest)
    (hu : ar1.UUID = (l.getD i default).UUID) (hi : i < l.length) :
    ((l.set i ar1).getD j default).UUID = (l.getD j default).UUID := by
  have h := congrArg (fun m => m.getD j (default : AuthRequest).UUID) (map_UUID_set l i ar1 hu hi)
  simp only [List.getD_eq_getElem?_getD, List.getElem?_map] at h ⊢
  rcases h1 : (l.set i ar1)[j]? with _ | a <;> rcases h2 : l[j]? with _ | b <;>
    simp [h1, h2] at h ⊢ <;> exact h

theorem holdsOf_store (authRequests : Int → Option (List AuthRequest)) (p : AuthRequestPtr)
    (ar1 : AuthRequest) (k : Int) :
    holdsOf (store authRequests p ar1) k =
      if k = p.cardNumber then (holdsOf authRequests p.cardNumber).set p.index ar1
      else holdsOf authRequests k := by
  unfold store
  rw [holdsOf_mapSet]

theorem mem_store (authRequests : Int → Option (List AuthRequest)) (p : AuthRequestPtr)
    (ar1 : AuthRequest)
    (hlt : p.index < (holdsOf authRequests p.cardNumber).length)
    (hu : ar1.UUID = (deref authRequests p).UUID) (k : Int) (ar : AuthRequest)
    (har : ar ∈ holdsOf (store authRequests p ar1) k) :
    (ar ∈ holdsOf authRequests k ∨ (ar = ar1 ∧ k = p.cardNumber)) ∧
      ∃ ar0 ∈ holdsOf authRequests k, ar0.UUID = ar.UUID := by
  rw [holdsOf_store] at har
  split_ifs at har with hk
  · rcases List.mem_or_eq_of_mem_set har with hmem | heq
    · exact ⟨Or.inl (hk ▸ hmem), ar, hk ▸ hmem, rfl⟩
    · refine ⟨Or.inr ⟨heq, hk⟩, deref authRequests p, hk ▸ deref_mem _ _ hlt, ?_⟩
      rw [heq, hu]
  · exact ⟨Or.inl har, ar, har, rfl⟩

/-- A hold of a card is overwritten by one with the same token, and the blocked funds of the
card go down by what the new hold authorizes less than the old one. -/
theorem captureInv_store (s : Registry) (h : CaptureInv s) (cn : Int) (card card1 : Card)
    (p : AuthRequestPtr) (ar1 : AuthRequest)
    (hc : s.cards cn = some card) (hp : p.cardNumber = cn)
    (hlt : p.index < (holdsOf s.authRequests p.cardNumber).length)
    (hu : ar1.UUID = (deref s.authRequests p).UUID)
    (hle : capturedOf s.fundCaptures ar1.UUID ≤ ar1.AuthAmount)
    (hn : card1.CardNumber = card.CardNumber) (hus : card1.Usable = card.Usable)
    (hb : card1.BlockedFunds
      = card.BlockedFunds - ((deref s.authRequests p).AuthAmount - ar1.AuthAmount)) :
    CaptureInv
      { s with
        cards := mapSet s.cards cn card1
        authRequests := store s.authRequests p ar1 } := by
  refine ⟨?_, ?_, ?_, ?_, ?_, ?_, ?_, ?_⟩
  · intro k c hk
    simp only [mapSet] at hk
    split_ifs at hk with hkc
    · simp only [Option.some.injEq] at hk
      subst hk hkc
      rw [hn]
      exact h.number _ _ hc
    · exact h.number _ _ hk
  · intro k hk
    simp only [mapSet] at hk
    split_ifs at hk with hkc
    simp only [holdsOf_store, hp, if_neg hkc]
    exact h.noHolds _ hk
  · intro k c hk hne
    simp only [mapSet] at hk
    simp only [holdsOf_store] at hne
    split_ifs at hk hne with hkc hkp hkp
    · simp only [Option.some.injEq] at hk
      subst hk
      rw [hus]
      refine h.usable _ _ hc ?_
      intro hnil
      rw [hp, hnil] at hlt
      simp at hlt
    · simp only [Option.some.injEq] at hk
      subst hk
      rw [hus]
      exact h.usable _ _ hc (hkc ▸ hne)
    · exact absurd (hkp.trans hp) hkc
    · exact h.usable _ _ hk hne
  · intro k c hk
    simp only [mapSet] at hk
    simp only [holdsOf_store, hp]
    split_ifs at hk ⊢ with hkc
    · simp only [Option.some.injEq] at hk
      subst hk
      rw [hp] at hlt
      rw [outstanding_set _ _ _ _ hlt (by simpa [deref, hp] using hu), hb, h.blocked _ _ hc]
      simp [deref, hp]
    · exact h.blocked _ _ hk
  · intro k ar har
    rcases (mem_store _ _ _ hlt hu k ar har).1 with hmem | ⟨heq, -⟩
    · exact h.bounded _ _ hmem
    · rw [heq]
      exact hle
  · intro k
    simp only [holdsOf_store]
    split_ifs with hkc
    · rw [map_UUID_set _ _ _ (by simpa [deref] using hu) hlt]
      exact h.nodup _
    · exact h.nodup k
  · intro k k' ar har ar' har' huu
    obtain ⟨a0, ha0, hu0⟩ := (mem_store _ _ _ hlt hu k ar har).2
    obtain ⟨a1, ha1, hu1⟩ := (mem_store _ _ _ hlt hu k' ar' har').2
    exact h.disjoint k k' a0 ha0 a1 ha1 (by rw [hu0, hu1, huu])
  · intro u fc hfc
    obtain ⟨hlt', hu'⟩ := h.pointer u fc hfc
    simp only [deref, holdsOf_store] at hu' ⊢
    split_ifs with hkc
    · rw [hkc] at hlt' hu'
      refine ⟨by simpa using hlt', ?_⟩
      rw [getD_set_UUID _ _ _ _ (by simpa [deref] using hu) hlt]
      exact hu'
    · exact ⟨hlt', hu'⟩

theorem Reverse_usable (ar : AuthRequest) (amount : Int) (card : Card)
    (hus : card.Usable = true) :
    ar.Reverse amount card =
      ({ ar with AuthAmount := ar.AuthAmount - amount },
        { card with BlockedFunds := card.BlockedFunds - amount }, none) := by
  simp [AuthRequest.Reverse, Card.UnblockFunds, hus]

theorem captureInv_reverse (s : Registry) (h : CaptureInv s) (vars : Vars)
    (body : Option reverseAuthRequest) (hallowed : reverseWithinRemainder s vars body) :
    CaptureInv (reverseAuthRqAPIHandler s vars body).1 := by
  unfold reverseAuthRqAPIHandler
  simp only
  split_ifs with hempty
  · exact h
  · rcases hv : validateAndReturnCardNumber vars with _ | cn
    · exact h
    · rcases body with _ | data
      · exact h
      · simp only
        split_ifs with hvalid
        · exact h
        · rcases hf : FindCardByNumber s.cards cn with e | card
          · exact h
          · have hc := (FindCardByNumber_ok _ _ _).1 hf
            simp only
            rcases hfind : FindAuthRequestByUUID s.authRequests card.CardNumber
                (vars.get "auth_request_uuid") with e | authRq
            · exact h
            · simp only
              have hfind' := hfind
              rw [h.number _ _ hc] at hfind'
              obtain ⟨hpc, hplt, hpmem, hpu⟩ := FindAuthRequestByUUID_ok _ _ _ _ hfind'
              split_ifs with hgt hcaptured
              · exact h
              · exact h
              · have hus : card.Usable = true :=
                  h.usable _ _ hc (List.ne_nil_of_mem hpmem)
                rw [Reverse_usable _ _ _ hus]
                simp only
                refine captureInv_store s h cn card _ authRq _ hc hpc (hpc ▸ hplt) rfl ?_
                  rfl rfl (by simp only []; omega)
                show capturedOf s.fundCaptures (deref s.authRequests authRq).UUID
                  ≤ (deref s.authRequests authRq).AuthAmount - data.ReverseAmount
                rcases hfc : s.fundCaptures (deref s.authRequests authRq).UUID with _ | fc
                · simp only [capturedOf, hfc]
                  omega
                · have := hallowed cn data card authRq fc hv rfl hf hfind
                    (by simp [FindFundCaptureByAuthUUID, hfc])
                  simp only [capturedOf, hfc]
                  omega

end CaptureFlowReverse

section CaptureFlowMain

open prepaid api

theorem captureInv_reachable (s : Registry) (hs : ReachableBy Request.isCaptureFlow s) :
    CaptureInv s := by
  induction hs with
  | start => exact captureInv_empty
  | step rq _ hallowed hfresh ih =>
    cases rq with
    | createCard body rand => exact captureInv_createCard _ ih body rand
    | getCardFunds vars =>
      show CaptureInv (getCardFundsAPIHandler _ vars).1
      unfold getCardFundsAPIHandler
      rcases validateAndReturnCardNumber vars with _ | cn
      · exact ih
      · simp only
        rcases FindCardByNumber _ cn with e | card <;> exact ih
    | loadFunds vars body => exact captureInv_loadFunds _ ih vars body
    | authorize vars body uuid => exact captureInv_authorize _ ih vars body uuid hfresh
    | reverse vars body => exact captureInv_reverse _ ih vars body hallowed
    | capture vars body => exact captureInv_capture _ ih vars body
    | refund vars body => exact absurd hallowed (by simp [Request.isCaptureFlow])

end CaptureFlowMain

section Witnesses

open prepaid api

/-- C7 on card 1 with the hold `t1`: a second hold, with the token `t2`, is registered and
found. -/
theorem C7_NewAuthRequest_registers_witness :
    (∀ ar ∈ holdsOf holds1 (card1 400 1000).CardNumber, ar.UUID ≠ "t2") ∧
    ∃ p, FindAuthRequestByUUID
        ((card1 400 1000).NewAuthRequest holds1 "t2" "shop" 100).2.1
        (card1 400 1000).CardNumber "t2" = .ok p ∧
      (deref ((card1 400 1000).NewAuthRequest holds1 "t2" "shop" 100).2.1 p).AuthAmount
        = 100 ∧
      (deref ((card1 400 1000).NewAuthRequest holds1 "t2" "shop" 100).2.1 p).MerchantName
        = "shop" :=
  ⟨by decide,
    ((C7_NewAuthRequest_registers (card1 400 1000) holds1 "t2" "shop" 100 (by decide)).2
      "t2" rfl).1⟩

end Witnesses

section LedgerOperations

open prepaid api

/-- C20. On a card with `0 <= BlockedFunds <= TotalFunds` and with an amount >= 0, each of
`LoadFunds`, `Refund`, `BlockFunds` and `CaptureFunds`, whether it returns an error or not,
leaves `0 <= BlockedFunds <= TotalFunds`; `UnblockFunds` does so if and only if the card is
not usable or the amount is at most `BlockedFunds`. -/
theorem C20_ledger_keeps_bounds (c : Card) (amount : Int)
    (h0 : 0 ≤ c.BlockedFunds) (h1 : c.BlockedFunds ≤ c.TotalFunds) (ha : 0 ≤ amount) :
    (0 ≤ (c.LoadFunds amount).BlockedFunds ∧
      (c.LoadFunds amount).BlockedFunds ≤ (c.LoadFunds amount).TotalFunds) ∧
    (0 ≤ (c.Refund amount).BlockedFunds ∧
      (c.Refund amount).BlockedFunds ≤ (c.Refund amount).TotalFunds) ∧
    (0 ≤ (c.BlockFunds amount).1.BlockedFunds ∧
      (c.BlockFunds amount).1.BlockedFunds ≤ (c.BlockFunds amount).1.TotalFunds) ∧
    (0 ≤ (c.CaptureFunds amount).1.BlockedFunds ∧
      (c.CaptureFunds amount).1.BlockedFunds ≤ (c.CaptureFunds amount).1.TotalFunds) ∧
    ((0 ≤ (c.UnblockFunds amount).1.BlockedFunds ∧
        (c.UnblockFunds amount).1.BlockedFunds ≤ (c.UnblockFunds amount).1.TotalFunds) ↔
      (c.Usable = false ∨ amount ≤ c.BlockedFunds)) := by
  refine ⟨?_, ?_, ?_, ?_, ?_⟩
  · simp only [Card.LoadFunds]
    omega
  · simp only [Card.Refund]
    omega
  · unfold Card.BlockFunds Card.hasEnoughAvailableFunds
    split_ifs with hu hf
    · exact ⟨h0, h1⟩
    · exact ⟨h0, h1⟩
    · simp only [Bool.not_eq_true', decide_eq_false_iff_not, not_not] at hf
      simp only
      omega
  · unfold Card.CaptureFunds
    split_ifs with hgt
    · exact ⟨h0, h1⟩
    · simp only
      omega
  · by_cases hus : c.Usable = true
    · rw [show c.UnblockFunds amount
          = ({ c with BlockedFunds := c.BlockedFunds - amount }, none) by
        simp [Card.UnblockFunds, hus]]
      show (0 ≤ c.BlockedFunds - amount ∧ c.BlockedFunds - amount ≤ c.TotalFunds) ↔ _
      constructor
      · intro h
        right
        omega
      · intro h
        rcases h with h | h
        · rw [hus] at h
          exact absurd h (by decide)
        · constructor <;> omega
    · have hf : c.Usable = false := by simpa using hus
      rw [show c.UnblockFunds amount = (c, some .ErrCardIsNotUsable) by
        simp [Card.UnblockFunds, hf]]
      simp [h0, h1, hf]

/-- C20 on a card with 300 blocked out of 900 and the amount 200. -/
theorem C20_ledger_keeps_bounds_witness :
    0 ≤ ((card1 300 900).CaptureFunds 200).1.BlockedFunds ∧
      ((card1 300 900).CaptureFunds 200).1.BlockedFunds
        ≤ ((card1 300 900).CaptureFunds 200).1.TotalFunds :=
  (C20_ledger_keeps_bounds (card1 300 900) 200 (by decide) (by decide) (by decide)).2.2.2.1

end LedgerOperations

section CardCreation

open prepaid api

theorem NewCard_loop_none (cards : Int → Option Card) (rand : Nat → Int) (n : Nat) :
    ∀ i, NewCard.loop cards rand n i = none ↔
      ∀ j < n, (cards (rand (i + j))).isSome = true := by
  induction n with
  | zero => intro i; simp [NewCard.loop]
  | succ n ih =>
    intro i
    unfold NewCard.loop
    split_ifs with hs
    · rw [ih (i + 1)]
      constructor
      · intro h j hj
        cases j with
        | zero => simpa using hs
        | succ j =>
          have := h j (by omega)
          rwa [show i + 1 + j = i + (j + 1) by omega] at this
      · intro h j hj
        have := h (j + 1) (by omega)
        rwa [show i + (j + 1) = i + 1 + j by omega] at this
    · simp only [reduceCtorEq, false_iff, not_forall]
      exact ⟨0, by omega, by simpa using hs⟩

theorem NewCard_loop_some (cards : Int → Option Card) (rand : Nat → Int) (n : Nat) :
    ∀ i cNum, NewCard.loop cards rand n i = some cNum →
      ∃ j < n, cNum = rand (i + j) ∧ cards (rand (i + j)) = none ∧
        ∀ j' < j, (cards (rand (i + j'))).isSome = true := by
  induction n with
  | zero => intro i cNum h; simp [NewCard.loop] at h
  | succ n ih =>
    intro i cNum h
    unfold NewCard.loop at h
    split_ifs at h with hs
    · obtain ⟨j, hj, hc, hnone, hbefore⟩ := ih (i + 1) cNum h
      refine ⟨j + 1, by omega, ?_, ?_, ?_⟩
      · rw [hc]
        congr 1
        omega
      · rw [show i + (j + 1) = i + 1 + j by omega]
        exact hnone
      · intro j' hj'
        cases j' with
        | zero => simpa using hs
        | succ j' =>
          have := hbefore j' (by omega)
          rwa [show i + 1 + j' = i + (j' + 1) by omega] at this
    · simp only [Option.some.injEq] at h
      refine ⟨0, by omega, ?_, ?_, ?_⟩
      · simpa using h.symm
      · simpa using hs
      · intro j' hj'
        omega

/-- C13. With the results of `rand.Int63()` given by `rand`: `NewCard` returns an error if
and only if each of the first 5 candidates is a registered card number, and then changes
nothing; otherwise it returns a card whose `CardNumber` is the first candidate that is not
registered, with `LoadedFunds = BlockedFunds = TotalFunds = 0` and `Usable = false`, registers
it under that number, and every card registered before is found unchanged by
`FindCardByNumber`. -/
theorem C13_NewCard_first_unused (cards : Int → Option Card) (rand : Nat → Int)
    (cardholderName chosenCurrency : String) :
    ((∃ e, (NewCard cards rand cardholderName chosenCurrency).2 = .error e) ↔
      ∀ j < 5, (cards (rand j)).isSome = true) ∧
    ((∃ e, (NewCard cards rand cardholderName chosenCurrency).2 = .error e) →
      (NewCard cards rand cardholderName chosenCurrency).1 = cards) ∧
    ((¬ ∀ j < 5, (cards (rand j)).isSome = true) →
      ∃ pc, (NewCard cards rand cardholderName chosenCurrency).2 = .ok pc) ∧
    (∀ pc, (NewCard cards rand cardholderName chosenCurrency).2 = .ok pc →
      ∃ j < 5, cards (rand j) = none ∧ (∀ j' < j, (cards (rand j')).isSome = true) ∧
        pc = { CardNumber := rand j
               Cardholder := { Name := cardholderName }
               CardCurrency := chosenCurrency
               LoadedFunds := 0
               BlockedFunds := 0
               TotalFunds := 0
               Usable := false } ∧
        FindCardByNumber (NewCard cards rand cardholderName chosenCurrency).1 (rand j)
          = .ok pc ∧
        ∀ k c, FindCardByNumber cards k = .ok c →
          FindCardByNumber (NewCard cards rand cardholderName chosenCurrency).1 k = .ok c) := by
  have hnone := NewCard_loop_none cards rand createCardMaxRetries 0
  simp only [Nat.zero_add, createCardMaxRetries] at hnone
  unfold NewCard
  rcases hloop : NewCard.loop cards rand createCardMaxRetries 0 with _ | cNum
  · have hall := hnone.1 hloop
    refine ⟨⟨fun _ => hall, fun _ => ⟨_, rfl⟩⟩, fun _ => rfl, fun h => absurd hall h, ?_⟩
    intro pc hpc
    simp at hpc
  · have hnot : ¬ ∀ j < 5, (cards (rand j)).isSome = true := by
      intro hall
      have := hnone.2 hall
      rw [createCardMaxRetries] at hloop
      rw [hloop] at this
      simp at this
    refine ⟨⟨fun h => ?_, fun h => absurd h hnot⟩, fun h => ?_, fun _ => ⟨_, rfl⟩, ?_⟩
    · obtain ⟨e, he⟩ := h
      simp at he
    · obtain ⟨e, he⟩ := h
      simp at he
    · intro pc hpc
      simp only [Except.ok.injEq] at hpc
      obtain ⟨j, hj, hc, hfree, hbefore⟩ := NewCard_loop_some cards rand _ 0 cNum hloop
      simp only [Nat.zero_add, createCardMaxRetries] at hj hc hfree hbefore
      subst hc
      refine ⟨j, hj, hfree, hbefore, hpc.symm, ?_, ?_⟩
      · simp [FindCardByNumber, mapSet, hpc]
      · intro k c hk
        have hkc := (FindCardByNumber_ok _ _ _).1 hk
        have hne : k ≠ rand j := by
          intro heq
          rw [heq, hfree] at hkc
          simp at hkc
        simp [FindCardByNumber, mapSet, hne, hkc]

/-- C13 on a registry whose card 1 is taken, with the candidates 1, 1, 2, ...: the new card
gets the number 2 and card 1 is found as before. -/
theorem C13_NewCard_first_unused_witness :
    ∃ j < 5, cardsWith1 (candidates112 j) = none ∧
      FindCardByNumber (NewCard cardsWith1 candidates112 "Bob" "USD").1 1
        = .ok (card1 0 0) :=
  match (C13_NewCard_first_unused cardsWith1 candidates112 "Bob" "USD").2.2.2 _ rfl with
  | ⟨j, hj, hfree, _, _, _, hold⟩ => ⟨j, hj, hfree, hold 1 (card1 0 0) rfl⟩

/-- C12, as stated, fails: `NewCard` checks neither the currency code nor the cardholder
name.  With the empty name and the currency code `XXX`, which is not a key of
`SupportedCurrencies`, it returns a card and registers it. -/
theorem C12_counterexample :
    SupportedCurrencies "XXX" = none ∧
    (NewCard (fun _ => none) (fun _ => 1) "" "XXX").2
      = .ok { CardNumber := 1, Cardholder := { Name := "" }, CardCurrency := "XXX",
              LoadedFunds := 0, BlockedFunds := 0, TotalFunds := 0, Usable := false } ∧
    (NewCard (fun _ => none) (fun _ => 1) "" "XXX").1 1
      = some { CardNumber := 1, Cardholder := { Name := "" }, CardCurrency := "XXX",
               LoadedFunds := 0, BlockedFunds := 0, TotalFunds := 0, Usable := false } :=
  ⟨by decide, rfl, rfl⟩

/-- C12, amended. For every cardholder name and currency code, the create card handler,
through `createCardRqIsValid`, answers with an error and registers no card when the currency
code is not a key of `SupportedCurrencies` or when the cardholder name is empty (`NewCard` is
not called). -/
theorem C12_createCard_rejects (s : Registry) (data : createCardRequest) (rand : Nat → Int)
    (h : SupportedCurrencies data.CardCurrency = none ∨ data.CardholderName = "") :
    createCardRqIsValid data = false ∧
    createCardAPIHandler s (some data) rand
      = (s, .httpError .errRqInvalidOrMissingData 400) := by
  have hv : createCardRqIsValid data = false := by
    unfold createCardRqIsValid
    rcases h with h | h
    · simp [h]
    · simp [h]
  exact ⟨hv, by simp [createCardAPIHandler, hv]⟩

/-- C12 on a request with the empty cardholder name. -/
theorem C12_createCard_rejects_witness :
    createCardRqIsValid { CardholderName := "", CardCurrency := "GBP" } = false ∧
    createCardAPIHandler Registry.empty
        (some { CardholderName := "", CardCurrency := "GBP" }) (fun _ => 1)
      = (Registry.empty, .httpError .errRqInvalidOrMissingData 400) :=
  C12_createCard_rejects Registry.empty { CardholderName := "", CardCurrency := "GBP" }
    (fun _ => 1) (Or.inr rfl)

end CardCreation

section HandlerFrames

open prepaid api

theorem createCard_authRequests (s : Registry) (body : Option createCardRequest)
    (rand : Nat → Int) : (createCardAPIHandler s body rand).1.authRequests = s.authRequests := by
  unfold createCardAPIHandler
  repeat' split
  all_goals rfl

theorem getCardFunds_authRequests (s : Registry) (vars : Vars) :
    (getCardFundsAPIHandler s vars).1.authRequests = s.authRequests := by
  unfold getCardFundsAPIHandler
  repeat' split
  all_goals rfl

theorem loadFunds_authRequests (s : Registry) (vars : Vars) (body : Option loadFundsRequest) :
    (loadFundsAPIHandler s vars body).1.authRequests = s.authRequests := by
  unfold loadFundsAPIHandler
  repeat' split
  all_goals rfl

theorem captureFunds_authRequests (s : Registry) (vars : Vars)
    (body : Option captureFundsRequest) :
    (captureFundsAPIHandler s vars body).1.authRequests = s.authRequests := by
  unfold captureFundsAPIHandler
  dsimp only
  repeat' split
  all_goals rfl

theorem refundFunds_authRequests (s : Registry) (vars : Vars)
    (body : Option refundFundsRequest) :
    (refundFundsAPIHandler s vars body).1.authRequests = s.authRequests := by
  unfold refundFundsAPIHandler
  dsimp only
  repeat' split
  all_goals rfl

end HandlerFrames

section ReverseAmount

open prepaid api

theorem deref_store_same (authRequests : Int → Option (List AuthRequest))
    (p : AuthRequestPtr) (ar : AuthRequest)
    (hlt : p.index < (holdsOf authRequests p.cardNumber).length) :
    deref (store authRequests p ar) p = ar := by
  simp only [deref, holdsOf_store, if_true, List.getD_eq_getElem?_getD]
  rw [List.getElem?_set_eq_of_lt _ hlt]
  rfl

theorem deref_store_other (authRequests : Int → Option (List AuthRequest))
    (p q : AuthRequestPtr) (ar : AuthRequest) (hne : q ≠ p) :
    deref (store authRequests p ar) q = deref authRequests q := by
  simp only [deref, holdsOf_store]
  split_ifs with hk
  · have hi : p.index ≠ q.index := by
      intro hi
      apply hne
      cases p
      cases q
      simp_all
    simp only [List.getD_eq_getElem?_getD, List.getElem?_set_ne hi, hk]
  · rfl

theorem reverseAuthRqAPIHandler_found (s : Registry) (vars : Vars)
    (data : reverseAuthRequest) (cn : Int) (card : Card) (authRq : AuthRequestPtr)
    (hcn : validateAndReturnCardNumber vars = some cn)
    (hcard : FindCardByNumber s.cards cn = .ok card)
    (hfind : FindAuthRequestByUUID s.authRequests card.CardNumber
      (vars.get "auth_request_uuid") = .ok authRq)
    (haccepted : (reverseAuthRqAPIHandler s vars (some data)).2 = .empty) :
    0 < data.ReverseAmount ∧
    data.ReverseAmount ≤ (deref s.authRequests authRq).AuthAmount ∧
    (∀ fc, FindFundCaptureByAuthUUID s.fundCaptures (deref s.authRequests authRq).UUID
      = .ok fc → fc.CapturedAmount ≤ data.ReverseAmount) ∧
    reverseAuthRqAPIHandler s vars (some data) =
      ({ s with
         cards := mapSet s.cards cn
           ((deref s.authRequests authRq).Reverse data.ReverseAmount card).2.1
         authRequests := store s.authRequests authRq
           { deref s.authRequests authRq with
             AuthAmount := (deref s.authRequests authRq).AuthAmount - data.ReverseAmount } },
        .empty) := by
  unfold reverseAuthRqAPIHandler at haccepted ⊢
  simp only [hcn, hcard, hfind] at haccepted ⊢
  split_ifs at haccepted ⊢ with h1 h2 h3 h4
  · rcases hr : (deref s.authRequests authRq).Reverse data.ReverseAmount card
      with ⟨ar1, card1, _ | e⟩
    · have har : ar1 = { deref s.authRequests authRq with
          AuthAmount := (deref s.authRequests authRq).AuthAmount - data.ReverseAmount } := by
        unfold AuthRequest.Reverse at hr
        split at hr <;> simp only [Prod.mk.injEq] at hr <;> exact hr.1.symm
      refine ⟨by simpa [reverseAuthRqIsValid] using h2, by omega, ?_, ?_⟩
      · intro fc hfc
        rw [hfc] at h4
        simpa using h4
      · simp only [har]
    · rw [hr] at haccepted
      simp at haccepted

/-- C15. When the reverse handler accepts a request on a hold with `AuthAmount >= 0`, the
amount is positive (request validator) and at most `AuthAmount` (handler check), and the
hold's `AuthAmount` afterwards is the old one less the amount, so it is `>= 0` and strictly
smaller than before; and no request the handlers serve increases the `AuthAmount` of a hold
that exists when the request arrives. -/
theorem C15_AuthAmount_only_shrinks (s : Registry) (vars : Vars) (data : reverseAuthRequest)
    (cn : Int) (card : Card) (authRq : AuthRequestPtr)
    (hcn : validateAndReturnCardNumber vars = some cn)
    (hcard : FindCardByNumber s.cards cn = .ok card)
    (hfind : FindAuthRequestByUUID s.authRequests card.CardNumber
      (vars.get "auth_request_uuid") = .ok authRq)
    (haccepted : (reverseAuthRqAPIHandler s vars (some data)).2 = .empty)
    (_hauth : 0 ≤ (deref s.authRequests authRq).AuthAmount) :
    (0 < data.ReverseAmount ∧ data.ReverseAmount ≤ (deref s.authRequests authRq).AuthAmount ∧
      (deref (reverseAuthRqAPIHandler s vars (some data)).1.authRequests authRq).AuthAmount
        = (deref s.authRequests authRq).AuthAmount - data.ReverseAmount ∧
      0 ≤ (deref (reverseAuthRqAPIHandler s vars (some data)).1.authRequests
        authRq).AuthAmount ∧
      (deref (reverseAuthRqAPIHandler s vars (some data)).1.authRequests authRq).AuthAmount
        < (deref s.authRequests authRq).AuthAmount) ∧
    (∀ (s0 : Registry) (rq : Request) (p : AuthRequestPtr),
      p.index < (holdsOf s0.authRequests p.cardNumber).length →
      (deref (serve s0 rq).1.authRequests p).AuthAmount
        ≤ (deref s0.authRequests p).AuthAmount) := by
  constructor
  · obtain ⟨hpos, hle, -, heq⟩ :=
      reverseAuthRqAPIHandler_found s vars data cn card authRq hcn hcard hfind haccepted
    obtain ⟨hpc, hplt, -, -⟩ := FindAuthRequestByUUID_ok _ _ _ _ hfind
    rw [heq]
    simp only
    rw [deref_store_same _ _ _ (hpc ▸ hplt)]
    refine ⟨hpos, hle, rfl, ?_, ?_⟩
    · show 0 ≤ (deref s.authRequests authRq).AuthAmount - data.ReverseAmount
      omega
    · show (deref s.authRequests authRq).AuthAmount - data.ReverseAmount
        < (deref s.authRequests authRq).AuthAmount
      omega
  · intro s0 rq p hp
    cases rq with
    | createCard body rand =>
      show (deref (createCardAPIHandler s0 body rand).1.authRequests p).AuthAmount ≤ _
      rw [createCard_authRequests]
    | getCardFunds vars =>
      show (deref (getCardFundsAPIHandler s0 vars).1.authRequests p).AuthAmount ≤ _
      rw [getCardFunds_authRequests]
    | loadFunds vars body =>
      show (deref (loadFundsAPIHandler s0 vars body).1.authRequests p).AuthAmount ≤ _
      rw [loadFunds_authRequests]
    | capture vars body =>
      show (deref (captureFundsAPIHandler s0 vars body).1.authRequests p).AuthAmount ≤ _
      rw [captureFunds_authRequests]
    | refund vars body =>
      show (deref (refundFundsAPIHandler s0 vars body).1.authRequests p).AuthAmount ≤ _
      rw [refundFunds_authRequests]
    | authorize vars body uuid =>
      show (deref (authRequestAPIHandler s0 vars body uuid).1.authRequests p).AuthAmount ≤ _
      unfold authRequestAPIHandler
      rcases validateAndReturnCardNumber vars with _ | k
      · exact le_refl _
      · rcases body with _ | d
        · exact le_refl _
        · simp only
          split_ifs
          · exact le_refl _
          · rcases FindCardByNumber s0.cards k with e | c
            · exact le_refl _
            · simp only [NewAuthRequest_eq]
              rcases (c.BlockFunds d.AuthAmount).2 with _ | err
              · simp only [deref, holdsOf_mapSet]
                split_ifs with hk
                · rw [hk] at hp
                  simp only [List.getD_eq_getElem?_getD, List.getElem?_append_left hp, hk]
                  exact le_refl _
                · exact le_refl _
              · simp only
                split_ifs <;> exact le_refl _
    | reverse vars body =>
      show (deref (reverseAuthRqAPIHandler s0 vars body).1.authRequests p).AuthAmount ≤ _
      unfold reverseAuthRqAPIHandler
      dsimp only
      split_ifs
      · exact le_refl _
      · rcases validateAndReturnCardNumber vars with _ | k
        · exact le_refl _
        · rcases body with _ | d
          · exact le_refl _
          · simp only
            split_ifs with hvalid
            · exact le_refl _
            · rcases FindCardByNumber s0.cards k with e | c
              · exact le_refl _
              · simp only
                rcases hf : FindAuthRequestByUUID s0.authRequests c.CardNumber
                    (vars.get "auth_request_uuid") with e | q
                · exact le_refl _
                · simp only
                  split_ifs
                  · exact le_refl _
                  · exact le_refl _
                  · have hpos : 0 < d.ReverseAmount := by
                      simpa [reverseAuthRqIsValid] using hvalid
                    obtain ⟨hqc, hqlt, -, -⟩ := FindAuthRequestByUUID_ok _ _ _ _ hf
                    have hst : ∀ ar1 : AuthRequest,
                        ar1.AuthAmount = (deref s0.authRequests q).AuthAmount - d.ReverseAmount →
                        (deref (store s0.authRequests q ar1) p).AuthAmount
                          ≤ (deref s0.authRequests p).AuthAmount := by
                      intro ar1 h1
                      by_cases hpq : p = q
                      · subst hpq
                        rw [deref_store_same _ _ _ hp, h1]
                        omega
                      · rw [deref_store_other _ _ _ _ hpq]
                    rcases hr : (deref s0.authRequests q).Reverse d.ReverseAmount c
                      with ⟨ar1, card1, _ | e⟩ <;>
                    · have har : ar1.AuthAmount
                          = (deref s0.authRequests q).AuthAmount - d.ReverseAmount := by
                        unfold AuthRequest.Reverse at hr
                        split at hr <;> simp only [Prod.mk.injEq] at hr <;> rw [← hr.1]
                      exact hst ar1 har

end ReverseAmount

section LaterDefects

open prepaid api

/-- C16 fails on the code. After create card, load 1000, authorize 400 and capture 100, the
reverse request of 50, which is within the remainder 400 - 100 that was not captured, is
rejected with `errInvalidReverseAmount`, because its amount is below the captured 100; the
hold keeps `AuthAmount = 400` and the card `BlockedFunds = 300`. -/
theorem C16_reverse_50_rejected :
    (captured100.cards 1).map Card.Usable = some true ∧
    (captured100.fundCaptures "t1").map FundCapture.CapturedAmount = some 100 ∧
    (captured100.authRequests 1).map (List.map AuthRequest.AuthAmount) = some [400] ∧
    (serve captured100 (reverse1 50)).2 = Response.httpError .errInvalidReverseAmount 403 ∧
    ((serve captured100 (reverse1 50)).1.authRequests 1).map
        (List.map AuthRequest.AuthAmount) = some [400] ∧
    ((serve captured100 (reverse1 50)).1.cards 1).map Card.BlockedFunds = some 300 := by
  refine ⟨by decide, by decide, by decide, by decide, by decide, by decide⟩

/-- C18 fails on the code. After create card, load 1000, authorize 400, capture 100,
refund 100, capture 400 (answered with an error, but recorded in `CapturedAmount`) and
refund 400, all but the second capture accepted, the card has `TotalFunds = 1400` and
`LoadedFunds = 1000`. -/
theorem C18_total_exceeds_loaded :
    Reachable (run Registry.empty
      (authorized400 ++ [capture1 100, refund1 100, capture1 400, refund1 400])) ∧
    ((run Registry.empty
      (authorized400 ++ [capture1 100, refund1 100, capture1 400, refund1 400])).cards 1).map
        Card.TotalFunds = some 1400 ∧
    ((run Registry.empty
      (authorized400 ++ [capture1 100, refund1 100, capture1 400, refund1 400])).cards 1).map
        Card.LoadedFunds = some 1000 ∧
    (serve (run Registry.empty (authorized400 ++ [capture1 100, refund1 100]))
        (capture1 400)).2 = Response.httpError .errInvalidCaptureAmount 400 ∧
    (serve (run Registry.empty (authorized400 ++ [capture1 100, refund1 100, capture1 400]))
        (refund1 400)).2 = Response.empty := by
  refine ⟨?_, by decide, by decide, by decide, by decide⟩
  refine reachable_run _ _ ReachableBy.start (traceFresh_authorized400 _ ?_)
  intro rq hrq s
  simp only [List.mem_cons, List.mem_singleton, List.not_mem_nil, or_false] at hrq
  rcases hrq with rfl | rfl | rfl | rfl <;> exact trivial

/-- C19 fails on the code. The authorization request on card 1 with the body
`merchant_name = shop`, `auth_amount = 400` is accepted, and the hold it registers has the
empty `MerchantName`: the handler passes `vars["merchant_name"]`, which the route
`/card/{card_number}/authorization_request` does not define, instead of the `MerchantName`
of the body. -/
theorem C19_merchant_name_lost :
    authRqIsValid { MerchantName := "shop", AuthAmount := 400 } = true ∧
    (cardVars "1").get "merchant_name" = "" ∧
    (authRequestAPIHandler loaded1000 (cardVars "1")
        (some { MerchantName := "shop", AuthAmount := 400 }) "t1").2
      = Response.authRequestSuccess "t1" ∧
    (authRequestAPIHandler loaded1000 (cardVars "1")
        (some { MerchantName := "shop", AuthAmount := 400 }) "t1").1.authRequests 1
      = some [{ UUID := "t1", MerchantName := "", AuthAmount := 400 }] := by
  refine ⟨by decide, by decide, by decide, by decide⟩

end LaterDefects

section LaterWitnesses

open prepaid api

/-- C15 after create card, load 1000 and authorize 400: the reverse of 100 is accepted and
leaves 300 authorized. -/
theorem C15_AuthAmount_only_shrinks_witness :
    0 < (100 : Int) ∧
    (100 : Int) ≤ (deref (run Registry.empty authorized400).authRequests
      { cardNumber := 1, index := 0 }).AuthAmount ∧
    (deref (reverseAuthRqAPIHandler (run Registry.empty authorized400)
        (cardAuthVars "1" "t1") (some { ReverseAmount := 100 })).1.authRequests
      { cardNumber := 1, index := 0 }).AuthAmount
      = (deref (run Registry.empty authorized400).authRequests
          { cardNumber := 1, index := 0 }).AuthAmount - 100 ∧
    0 ≤ (deref (reverseAuthRqAPIHandler (run Registry.empty authorized400)
        (cardAuthVars "1" "t1") (some { ReverseAmount := 100 })).1.authRequests
      { cardNumber := 1, index := 0 }).AuthAmount ∧
    (deref (reverseAuthRqAPIHandler (run Registry.empty authorized400)
        (cardAuthVars "1" "t1") (some { ReverseAmount := 100 })).1.authRequests
      { cardNumber := 1, index := 0 }).AuthAmount
      < (deref (run Registry.empty authorized400).authRequests
          { cardNumber := 1, index := 0 }).AuthAmount :=
  (C15_AuthAmount_only_shrinks (run Registry.empty authorized400) (cardAuthVars "1" "t1")
    { ReverseAmount := 100 } 1 (card1 400 1000) { cardNumber := 1, index := 0 }
    (by decide) rfl rfl (by decide) (by decide)).1

end LaterWitnesses

section FullReversal

open prepaid api

theorem capture_reversedHold (s : Registry) (cn : Int) (card : Card) (uuid : String)
    (p : AuthRequestPtr) (vars : Vars) (m : Int) (h : reversedHold s cn card uuid p)
    (hv : validateAndReturnCardNumber vars = some cn)
    (hu : vars.get "auth_request_uuid" = uuid) (hne : uuid ≠ "") (hm : 0 < m) :
    (captureFundsAPIHandler s vars (some { CaptureAmount := m })).2
      = .httpError .errInvalidCaptureAmount 400 ∧
    ((captureFundsAPIHandler.fundCapture s p).2.Capture
        (deref s.authRequests (captureFundsAPIHandler.fundCapture s p).2.AuthRequest) m
        card).2.2 = some .ErrInvalidCapture ∧
    (∀ k, FindCardByNumber (captureFundsAPIHandler s vars
        (some { CaptureAmount := m })).1.cards k = FindCardByNumber s.cards k) ∧
    reversedHold (captureFundsAPIHandler s vars (some { CaptureAmount := m })).1 cn card
      uuid p := by
  obtain ⟨hcard, hfind, hzero, hfc⟩ := h
  obtain ⟨-, -, -, hpu⟩ := FindAuthRequestByUUID_ok _ _ _ _ hfind
  have hc := (FindCardByNumber_ok _ _ _).1 hcard
  have hrej : (captureFundsAPIHandler.fundCapture s p).2.Completed = true ∨
      (captureFundsAPIHandler.fundCapture s p).2.CapturedAmount + m >
        (deref s.authRequests (captureFundsAPIHandler.fundCapture s p).2.AuthRequest).AuthAmount := by
    unfold captureFundsAPIHandler.fundCapture FindFundCaptureByAuthUUID
    rw [hpu]
    rcases hcap : s.fundCaptures uuid with _ | fc
    · right
      simp only [NewFundCapture, hzero]
      omega
    · right
      obtain ⟨h0, h1⟩ := hfc fc hcap
      simp only [h0]
      omega
  have hkeep : ∀ fc, (mapSet (captureFundsAPIHandler.fundCapture s p).1 uuid
      (captureFundsAPIHandler.fundCapture s p).2) uuid = some fc →
      (deref s.authRequests fc.AuthRequest).AuthAmount = 0 ∧ 0 ≤ fc.CapturedAmount := by
    intro fc hfc'
    simp only [mapSet, if_true, Option.some.injEq] at hfc'
    subst hfc'
    unfold captureFundsAPIHandler.fundCapture FindFundCaptureByAuthUUID
    rw [hpu]
    rcases hcap : s.fundCaptures uuid with _ | fc
    · simp [NewFundCapture, hzero]
    · exact hfc fc hcap
  have heq : captureFundsAPIHandler s vars (some { CaptureAmount := m }) =
      ({ s with
         cards := mapSet s.cards cn card
         fundCaptures := mapSet (captureFundsAPIHandler.fundCapture s p).1 uuid
           (captureFundsAPIHandler.fundCapture s p).2 },
        .httpError .errInvalidCaptureAmount 400) := by
    unfold captureFundsAPIHandler
    simp only [hu, hne, hv, hcard, hfind, captureFundsRqIsValid, hm, if_false, decide_True,
      Bool.not_true, Bool.false_eq_true, Capture_eq, if_pos hrej, hpu]
    rfl
  rw [heq]
  refine ⟨rfl, by rw [Capture_eq, if_pos hrej], ?_, ?_, hfind, hzero, hkeep⟩
  · intro k
    unfold FindCardByNumber
    simp only [mapSet]
    split_ifs with hk
    · rw [hk, hc]
    · rfl
  · simp [FindCardByNumber, mapSet]

theorem run_capture_reversedHold (cn : Int) (card : Card) (uuid : String)
    (p : AuthRequestPtr) (vars : Vars)
    (hv : validateAndReturnCardNumber vars = some cn)
    (hu : vars.get "auth_request_uuid" = uuid) (hne : uuid ≠ "") (ms : List Int) :
    ∀ s : Registry, reversedHold s cn card uuid p → (∀ x ∈ ms, 0 < x) →
      reversedHold (run s (captureRequests vars ms)) cn card uuid p ∧
      ∀ k, FindCardByNumber (run s (captureRequests vars ms)).cards k
        = FindCardByNumber s.cards k := by
  induction ms with
  | nil => intro s h _; exact ⟨h, fun _ => rfl⟩
  | cons x rest ih =>
    intro s h hpos
    obtain ⟨-, -, hcards, hnext⟩ :=
      capture_reversedHold s cn card uuid p vars x h hv hu hne (hpos x (by simp))
    obtain ⟨hr, hk⟩ := ih _ hnext (fun y hy => hpos y (by simp [hy]))
    exact ⟨hr, fun k => (hk k).trans (hcards k)⟩

theorem loop_congr (uuid : String) (l : List AuthRequest) :
    ∀ l' : List AuthRequest, l.map AuthRequest.UUID = l'.map AuthRequest.UUID →
      FindAuthRequestByUUID.loop uuid l = FindAuthRequestByUUID.loop uuid l' := by
  induction l with
  | nil =>
    intro l' h
    cases l' with
    | nil => rfl
    | cons y r => simp at h
  | cons x rest ih =>
    intro l' h
    cases l' with
    | nil => simp at h
    | cons y r =>
      simp only [List.map_cons, List.cons.injEq] at h
      simp only [FindAuthRequestByUUID.loop, h.1, ih r h.2]

end FullReversal

section FullReversalMain

open prepaid api

theorem authRequestAPIHandler_accepted (s : Registry) (cn : Int) (card : Card) (vars : Vars)
    (data : authRequest) (uuid : String)
    (hv : validateAndReturnCardNumber vars = some cn)
    (hcard : FindCardByNumber s.cards cn = .ok card) (hus : card.Usable = true)
    (hpos : 0 < data.AuthAmount)
    (hle : data.AuthAmount ≤ card.TotalFunds - card.BlockedFunds)
    (hm : data.MerchantName ≠ "") :
    authRequestAPIHandler s vars (some data) uuid =
      ({ s with
         cards := mapSet s.cards cn
           { card with BlockedFunds := card.BlockedFunds + data.AuthAmount }
         authRequests := mapSet s.authRequests card.CardNumber
           (holdsOf s.authRequests card.CardNumber ++
             [{ UUID := uuid, MerchantName := vars.get "merchant_name",
                AuthAmount := data.AuthAmount }]) },
        .authRequestSuccess uuid) := by
  have hbf : card.BlockFunds data.AuthAmount
      = ({ card with BlockedFunds := card.BlockedFunds + data.AuthAmount }, none) := by
    simp [Card.BlockFunds, Card.hasEnoughAvailableFunds, hus, hle]
  unfold authRequestAPIHandler
  simp only [hv, hcard, authRqIsValid, hpos, hm, NewAuthRequest_eq, hbf, decide_True,
    Bool.true_and, bne_iff_ne, ne_eq, not_false_eq_true, decide_True, Bool.not_true,
    Bool.false_eq_true, if_false]
  simp [hm]

theorem FindAuthRequestByUUID_store (authRequests : Int → Option (List AuthRequest))
    (p : AuthRequestPtr) (ar1 : AuthRequest) (k : Int) (u : String)
    (hlt : p.index < (holdsOf authRequests p.cardNumber).length)
    (hu : ar1.UUID = (deref authRequests p).UUID) :
    FindAuthRequestByUUID (store authRequests p ar1) k u
      = FindAuthRequestByUUID authRequests k u := by
  unfold FindAuthRequestByUUID
  simp only [store, mapSet]
  split_ifs with hk
  · subst hk
    rcases hm : authRequests p.cardNumber with _ | l
    · simp [holdsOf, hm] at hlt
    · simp only [holdsOf, hm, Option.getD_some] at hlt hu ⊢
      rw [loop_congr u _ _ (map_UUID_set l p.index ar1 (by simpa [deref, holdsOf, hm] using hu)
        hlt)]
  · rfl

theorem reverseAuthRqAPIHandler_full (t : Registry) (cn : Int) (c1 : Card) (vars : Vars)
    (uuid : String) (l : List AuthRequest) (ar : AuthRequest)
    (hv : validateAndReturnCardNumber vars = some cn)
    (hu : vars.get "auth_request_uuid" = uuid) (hne : uuid ≠ "")
    (hcard : FindCardByNumber t.cards cn = .ok c1) (hus : c1.Usable = true)
    (hl : t.authRequests c1.CardNumber = some (l ++ [ar]))
    (hfresh : ∀ x ∈ l, x.UUID ≠ uuid) (haru : ar.UUID = uuid) (hpos : 0 < ar.AuthAmount)
    (hnocap : t.fundCaptures uuid = none) :
    FindAuthRequestByUUID t.authRequests c1.CardNumber uuid
      = .ok { cardNumber := c1.CardNumber, index := l.length } ∧
    deref t.authRequests { cardNumber := c1.CardNumber, index := l.length } = ar ∧
    reverseAuthRqAPIHandler t vars (some { ReverseAmount := ar.AuthAmount }) =
      ({ t with
         cards := mapSet t.cards cn { c1 with BlockedFunds := c1.BlockedFunds - ar.AuthAmount }
         authRequests := store t.authRequests { cardNumber := c1.CardNumber, index := l.length }
           { ar with AuthAmount := ar.AuthAmount - ar.AuthAmount } },
        .empty) := by
  have hloop : FindAuthRequestByUUID.loop uuid (l ++ [ar]) = some l.length := by
    rw [loop_append, (loop_none uuid l).2 hfresh]
    simp [haru]
  have hfind : FindAuthRequestByUUID t.authRequests c1.CardNumber uuid
      = .ok { cardNumber := c1.CardNumber, index := l.length } := by
    simp [FindAuthRequestByUUID, hl, hloop]
  have hderef : deref t.authRequests { cardNumber := c1.CardNumber, index := l.length }
      = ar := by
    simp [deref, holdsOf, hl]
  refine ⟨hfind, hderef, ?_⟩
  unfold reverseAuthRqAPIHandler
  simp only [hu, hne, hv, hcard, hfind, hderef, reverseAuthRqIsValid, hpos, haru,
    FindFundCaptureByAuthUUID, hnocap, Reverse_usable _ _ _ hus, if_false, decide_True,
    Bool.not_true, Bool.false_eq_true, gt_iff_lt, lt_self_iff_false]

/-- C17. On a usable card with `0 <= BlockedFunds <= TotalFunds`, for an amount `a` with
`0 < a <= TotalFunds - BlockedFunds` and a new token: the authorization of `a` is accepted,
the reverse of `a` on the new hold, with no capture in between, is accepted, leaves the hold
with `AuthAmount = 0` and the card with the `BlockedFunds` (and `TotalFunds`) it had before
the authorization; and after any number of capture requests of positive amounts on that
hold, a capture request of a positive amount on it fails with `ErrInvalidCapture` and leaves
every card as it was. -/
theorem C17_full_reversal (s s1 s2 : Registry) (cn : Int) (card : Card) (varsA varsH : Vars)
    (data : authRequest) (uuid : String)
    (hcard : FindCardByNumber s.cards cn = .ok card) (hus : card.Usable = true)
    (_hb0 : 0 ≤ card.BlockedFunds) (_hb1 : card.BlockedFunds ≤ card.TotalFunds)
    (hpos : 0 < data.AuthAmount)
    (hle : data.AuthAmount ≤ card.TotalFunds - card.BlockedFunds)
    (hm : data.MerchantName ≠ "")
    (hvA : validateAndReturnCardNumber varsA = some cn)
    (hvH : validateAndReturnCardNumber varsH = some cn)
    (hu : varsH.get "auth_request_uuid" = uuid) (hne : uuid ≠ "")
    (hfresh : ∀ ar ∈ holdsOf s.authRequests card.CardNumber, ar.UUID ≠ uuid)
    (hnocap : s.fundCaptures uuid = none)
    (hs1 : s1 = (authRequestAPIHandler s varsA (some data) uuid).1)
    (hs2 : s2 = (reverseAuthRqAPIHandler s1 varsH
      (some { ReverseAmount := data.AuthAmount })).1) :
    (authRequestAPIHandler s varsA (some data) uuid).2 = .authRequestSuccess uuid ∧
    (reverseAuthRqAPIHandler s1 varsH (some { ReverseAmount := data.AuthAmount })).2
      = .empty ∧
    ∃ (p : AuthRequestPtr) (card2 : Card),
      FindAuthRequestByUUID s2.authRequests card.CardNumber uuid = .ok p ∧
      (deref s2.authRequests p).AuthAmount = 0 ∧
      FindCardByNumber s2.cards cn = .ok card2 ∧
      card2.BlockedFunds = card.BlockedFunds ∧ card2.TotalFunds = card.TotalFunds ∧
      ∀ (amounts : List Int) (m : Int) (s3 : Registry),
        (∀ x ∈ amounts, 0 < x) → 0 < m → s3 = run s2 (captureRequests varsH amounts) →
        (serve s3 (.capture varsH (some { CaptureAmount := m }))).2
          = .httpError .errInvalidCaptureAmount 400 ∧
        ((captureFundsAPIHandler.fundCapture s3 p).2.Capture
          (deref s3.authRequests (captureFundsAPIHandler.fundCapture s3 p).2.AuthRequest) m
          card2).2.2 = some .ErrInvalidCapture ∧
        ∀ k, FindCardByNumber (serve s3 (.capture varsH
          (some { CaptureAmount := m }))).1.cards k = FindCardByNumber s2.cards k := by
  have h1 := authRequestAPIHandler_accepted s cn card varsA data uuid hvA hcard hus hpos hle hm
  rw [h1] at hs1
  simp only at hs1
  have hc1 : FindCardByNumber s1.cards cn
      = .ok { card with BlockedFunds := card.BlockedFunds + data.AuthAmount } := by
    rw [hs1]
    simp [FindCardByNumber, mapSet]
  have hl1 : s1.authRequests
      ({ card with BlockedFunds := card.BlockedFunds + data.AuthAmount } : Card).CardNumber
      = some (holdsOf s.authRequests card.CardNumber ++
          [{ UUID := uuid, MerchantName := varsA.get "merchant_name",
             AuthAmount := data.AuthAmount }]) := by
    rw [hs1]
    simp [mapSet]
  have hn1 : s1.fundCaptures uuid = none := by
    rw [hs1]
    exact hnocap
  obtain ⟨hfind1, hderef1, h2⟩ := reverseAuthRqAPIHandler_full s1 cn _ varsH uuid _ _ hvH hu
    hne hc1 hus hl1 hfresh rfl hpos hn1
  simp only at hfind1 hderef1 h2
  rw [h2] at hs2
  simp only at hs2
  have hplt : (holdsOf s.authRequests card.CardNumber).length
      < (holdsOf s1.authRequests card.CardNumber).length := by
    simp only [holdsOf] at hl1 ⊢
    rw [hl1]
    simp
  have hfind2 : FindAuthRequestByUUID s2.authRequests card.CardNumber uuid
      = .ok { cardNumber := card.CardNumber,
              index := (holdsOf s.authRequests card.CardNumber).length } := by
    rw [hs2]
    simp only
    rw [FindAuthRequestByUUID_store _ _ _ _ _ hplt (by rw [hderef1])]
    exact hfind1
  have hderef2 : (deref s2.authRequests
      { cardNumber := card.CardNumber,
        index := (holdsOf s.authRequests card.CardNumber).length }).AuthAmount = 0 := by
    rw [hs2]
    simp only
    rw [deref_store_same _ _ _ hplt]
    simp
  have hc2 : FindCardByNumber s2.cards cn
      = .ok { card with
              BlockedFunds := card.BlockedFunds + data.AuthAmount - data.AuthAmount } := by
    rw [hs2]
    simp [FindCardByNumber, mapSet]
  have hrev : reversedHold s2 cn
      { card with BlockedFunds := card.BlockedFunds + data.AuthAmount - data.AuthAmount }
      uuid { cardNumber := card.CardNumber,
             index := (holdsOf s.authRequests card.CardNumber).length } := by
    refine ⟨hc2, hfind2, hderef2, ?_⟩
    intro fc hfc
    rw [hs2] at hfc
    simp only [hn1] at hfc
    cases hfc
  refine ⟨by rw [h1], by rw [h2], _, _, hfind2, hderef2, hc2, by simp, rfl, ?_⟩
  intro amounts m s3 hall hmpos hs3
  obtain ⟨hr3, hk3⟩ := run_capture_reversedHold cn _ uuid _ varsH hvH hu hne amounts s2 hrev hall
  rw [← hs3] at hr3 hk3
  obtain ⟨hresp, herr, hcards, -⟩ := capture_reversedHold s3 cn _ uuid _ varsH m hr3 hvH hu hne hmpos
  exact ⟨hresp, herr, fun k => (hcards k).trans (hk3 k)⟩

end FullReversalMain

section FullReversalWitness

open prepaid api

/-- C17 on scenario E of the specification: on a card loaded with 1000, the authorization of
400 and the reverse of 400 are both accepted. -/
theorem C17_full_reversal_witness :
    (authRequestAPIHandler loaded1000 (cardVars "1")
        (some { MerchantName := "shop", AuthAmount := 400 }) "t1").2
      = .authRequestSuccess "t1" ∧
    (reverseAuthRqAPIHandler
        (authRequestAPIHandler loaded1000 (cardVars "1")
          (some { MerchantName := "shop", AuthAmount := 400 }) "t1").1
        (cardAuthVars "1" "t1") (some { ReverseAmount := 400 })).2 = .empty :=
  have h := C17_full_reversal loaded1000
    (authRequestAPIHandler loaded1000 (cardVars "1")
      (some { MerchantName := "shop", AuthAmount := 400 }) "t1").1
    (reverseAuthRqAPIHandler
      (authRequestAPIHandler loaded1000 (cardVars "1")
        (some { MerchantName := "shop", AuthAmount := 400 }) "t1").1
      (cardAuthVars "1" "t1") (some { ReverseAmount := 400 })).1
    1 (card1 0 1000) (cardVars "1") (cardAuthVars "1" "t1")
    { MerchantName := "shop", AuthAmount := 400 } "t1"
    rfl rfl (by decide) (by decide) (by decide) (by decide) (by decide) (by decide)
    (by decide) (by decide) (by decide)
    (by
      intro ar har
      change ar ∈ ([] : List AuthRequest) at har
      simp at har)
    rfl rfl rfl
  ⟨h.1, h.2.1⟩

end FullReversalWitness

section Int64

open prepaid api

theorem wrap64_of_isInt64 (x : Int) (h : isInt64 x) : wrap64 x = x := by
  unfold isInt64 minInt64 maxInt64 at h
  unfold wrap64
  omega

theorem wrap64_isInt64 (x : Int) : isInt64 (wrap64 x) := by
  unfold isInt64 minInt64 maxInt64 wrap64
  omega

theorem wrap64_overflow (x y : Int) (hx : isInt64 x) (hy : isInt64 y) (hx0 : 0 ≤ x)
    (hy0 : 0 < y) (hsum : x + y > maxInt64) : wrap64 (x + y) < 0 := by
  unfold isInt64 minInt64 maxInt64 at hx hy
  unfold maxInt64 at hsum
  unfold wrap64
  omega

/-- C21, as stated, fails: the wrapped addition lets an amount through when the exact sum
is beyond the greatest `int64`.  On a capture with `CapturedAmount = 1` of a hold with
`AuthAmount = 400` and the amount `9223372036854775807`, the sum wraps to
`-9223372036854775808`, which is not above 400, so the check passes and `CapturedAmount`
is overwritten: with 399 blocked on the card `Capture` returns `ErrNotEnoughFunds` from
`CaptureFunds` after the write, and with `9223372036854775807` blocked it returns no error
at all. -/
theorem C21_counterexample :
    (fundCapture1 1 false).Completed = false ∧
    0 ≤ (fundCapture1 1 false).CapturedAmount ∧
    (fundCapture1 1 false).CapturedAmount ≤ hold1.AuthAmount ∧
    isInt64 (fundCapture1 1 false).CapturedAmount ∧ isInt64 hold1.AuthAmount ∧
    isInt64 9223372036854775807 ∧ (0 : Int) < 9223372036854775807 ∧
    (fundCapture1 1 false).CapturedAmount + 9223372036854775807 > hold1.AuthAmount ∧
    (fundCapture1 1 false).Capture64 hold1 9223372036854775807 (card1 399 999)
      = (fundCapture1 (-9223372036854775808) false, card1 399 999,
          some .ErrNotEnoughFunds) ∧
    (fundCapture1 1 false).Capture64 hold1 9223372036854775807
        (card1 9223372036854775807 9223372036854775807)
      = (fundCapture1 (-9223372036854775808) false, card1 0 0, none) := by
  refine ⟨by decide, by decide, by decide, by decide, by decide, by decide, by decide,
    by decide, by decide, by decide⟩

/-- C21, amended. With the additions of `int64`: for a capture with `Completed = false` and
`0 <= CapturedAmount <= AuthAmount` and an amount > 0 whose exact sum with `CapturedAmount`
exceeds `AuthAmount` and does not exceed the greatest `int64`, `Capture` returns
`ErrInvalidCapture` and leaves the capture (`CapturedAmount`, `Completed`) and the card
unchanged. -/
theorem C21_Capture64_rejects (fc : FundCapture) (authRq : AuthRequest) (amount : Int)
    (card : Card) (hopen : fc.Completed = false) (hc0 : 0 ≤ fc.CapturedAmount)
    (_hc1 : fc.CapturedAmount ≤ authRq.AuthAmount) (hpos : 0 < amount)
    (hexceeds : fc.CapturedAmount + amount > authRq.AuthAmount)
    (hfits : fc.CapturedAmount + amount ≤ maxInt64) :
    fc.Capture64 authRq amount card = (fc, card, some .ErrInvalidCapture) ∧
    (fc.Capture64 authRq amount card).1.CapturedAmount = fc.CapturedAmount ∧
    (fc.Capture64 authRq amount card).1.Completed = fc.Completed := by
  have hw : wrap64 (fc.CapturedAmount + amount) = fc.CapturedAmount + amount := by
    apply wrap64_of_isInt64
    unfold maxInt64 at hfits
    unfold isInt64 minInt64 maxInt64
    constructor <;> omega
  have heq : fc.Capture64 authRq amount card = (fc, card, some .ErrInvalidCapture) := by
    unfold FundCapture.Capture64
    rw [hw]
    simp [hopen, hexceeds]
  rw [heq]
  exact ⟨rfl, rfl, rfl⟩

/-- C21 on a capture with 150 of 400 captured and the amount 251. -/
theorem C21_Capture64_rejects_witness :
    (fundCapture1 150 false).Capture64 hold1 251 (card1 250 850)
      = (fundCapture1 150 false, card1 250 850, some .ErrInvalidCapture) ∧
    ((fundCapture1 150 false).Capture64 hold1 251 (card1 250 850)).1.CapturedAmount
      = (fundCapture1 150 false).CapturedAmount ∧
    ((fundCapture1 150 false).Capture64 hold1 251 (card1 250 850)).1.Completed
      = (fundCapture1 150 false).Completed :=
  C21_Capture64_rejects (fundCapture1 150 false) hold1 251 (card1 250 850) rfl (by decide)
    (by decide) (by decide) (by decide) (by decide)

end Int64

/-! ## The ledger operations in the arithmetic of `int64` -/

section Ledger64

open prepaid api

theorem isInt64_iff (x : Int) :
    isInt64 x ↔ -9223372036854775808 ≤ x ∧ x ≤ 9223372036854775807 := Iff.rfl

theorem wrap64_eq (x : Int) (hlo : -9223372036854775808 ≤ x) (hhi : x ≤ 9223372036854775807) :
    wrap64 x = x := by
  unfold wrap64
  omega

theorem wrap64_sub_add (x a : Int) (hx : isInt64 x) : wrap64 (wrap64 (x - a) + a) = x := by
  rw [isInt64_iff] at hx
  unfold wrap64
  omega

theorem BlockFunds64_CardNumber (c : Card) (amount : Int) :
    (c.BlockFunds64 amount).1.CardNumber = c.CardNumber := by
  unfold Card.BlockFunds64
  split_ifs <;> rfl

theorem NewAuthRequest64_eq (c : Card) (authRequests : Int → Option (List AuthRequest))
    (uuid merchantName : String) (amount : Int) :
    c.NewAuthRequest64 authRequests uuid merchantName amount =
      match (c.BlockFunds64 amount).2 with
      | some err => ((c.BlockFunds64 amount).1, authRequests, .error err)
      | none =>
        ((c.BlockFunds64 amount).1,
          mapSet authRequests c.CardNumber
            (holdsOf authRequests c.CardNumber ++
              [{ UUID := uuid, MerchantName := merchantName, AuthAmount := amount }]),
          .ok uuid) := by
  unfold Card.NewAuthRequest64
  have hn := BlockFunds64_CardNumber c amount
  rcases hb : c.BlockFunds64 amount with ⟨c1, _ | err⟩
  · rw [hb] at hn
    simp only at hn
    simp [hn]
  · simp

theorem Capture64_eq (fc : FundCapture) (authRq : AuthRequest) (amount : Int) (card : Card) :
    fc.Capture64 authRq amount card =
      if fc.Completed = true ∨ wrap64 (fc.CapturedAmount + amount) > authRq.AuthAmount then
        (fc, card, some .ErrInvalidCapture)
      else
        ({ fc with
           CapturedAmount := wrap64 (fc.CapturedAmount + amount)
           Completed := decide (wrap64 (fc.CapturedAmount + amount) = authRq.AuthAmount) },
          (card.CaptureFunds64 amount).1, (card.CaptureFunds64 amount).2) := by
  unfold FundCapture.Capture64
  by_cases hc : fc.Completed = true
  · simp [hc]
  · by_cases hgt : wrap64 (fc.CapturedAmount + amount) > authRq.AuthAmount
    · simp [hc, hgt]
    · have hcf : fc.Completed = false := by simpa using hc
      rcases hq : card.CaptureFunds64 amount with ⟨card1, _ | err⟩ <;>
        by_cases heq : wrap64 (fc.CapturedAmount + amount) = authRq.AuthAmount <;>
        simp [hcf, hgt, heq]

/-- C14, as stated, fails in the arithmetic of `int64`: on the card with
`LoadedFunds = TotalFunds = 9223372036854775807`, which create card and one load request of
that amount yield, `LoadFunds(1)` leaves both at `-9223372036854775808` and not one cent
higher. -/
theorem C14_counterexample :
    (0 : Int) < 1 ∧
    (run64 Registry.empty [create1, load1 maxInt64]).cards 1
      = some (cardWith maxInt64 0 maxInt64) ∧
    ((cardWith maxInt64 0 maxInt64).LoadFunds64 1).LoadedFunds = minInt64 ∧
    ((cardWith maxInt64 0 maxInt64).LoadFunds64 1).TotalFunds = minInt64 ∧
    ((cardWith maxInt64 0 maxInt64).LoadFunds64 1).LoadedFunds
      ≠ (cardWith maxInt64 0 maxInt64).LoadedFunds + 1 ∧
    ((cardWith maxInt64 0 maxInt64).LoadFunds64 1).TotalFunds
      ≠ (cardWith maxInt64 0 maxInt64).TotalFunds + 1 ∧
    (run64 Registry.empty [create1, load1 maxInt64, load1 1]).cards 1
      = some (cardWith minInt64 0 minInt64) := by
  refine ⟨by decide, by decide, by decide, by decide, by decide, by decide, by decide⟩

/-- C14, amended. In the arithmetic of `int64`, for every card and amount > 0: when
`LoadedFunds + amount` and `TotalFunds + amount` are within the `int64` range, `LoadFunds`
adds exactly the amount to `LoadedFunds` and to `TotalFunds`; in every case it sets `Usable`
to true and leaves `BlockedFunds` as it was; a newly created card loaded with 1000 has
`TotalFunds = 1000`, `BlockedFunds = 0` and `Usable = true`; and none of `LoadFunds`,
`Refund`, `BlockFunds`, `UnblockFunds` and `CaptureFunds` turns `Usable` from true to
false. -/
theorem C14_LoadFunds64_effect (c : Card) (amount : Int) (hpos : 0 < amount) :
    (isInt64 (c.LoadedFunds + amount) → isInt64 (c.TotalFunds + amount) →
      (c.LoadFunds64 amount).LoadedFunds = c.LoadedFunds + amount ∧
      (c.LoadFunds64 amount).TotalFunds = c.TotalFunds + amount) ∧
    ((c.LoadFunds64 amount).Usable = true ∧
      (c.LoadFunds64 amount).BlockedFunds = c.BlockedFunds) ∧
    (∀ (cards : Int → Option Card) (rand : Nat → Int) (cardholderName chosenCurrency : String)
        (pc : Card), (NewCard cards rand cardholderName chosenCurrency).2 = .ok pc →
      (pc.LoadFunds64 1000).TotalFunds = 1000 ∧ (pc.LoadFunds64 1000).BlockedFunds = 0 ∧
        (pc.LoadFunds64 1000).Usable = true) ∧
    (c.Usable = true →
      (c.LoadFunds64 amount).Usable = true ∧ (c.Refund64 amount).Usable = true ∧
      (c.BlockFunds64 amount).1.Usable = true ∧ (c.UnblockFunds64 amount).1.Usable = true ∧
      (c.CaptureFunds64 amount).1.Usable = true) := by
  have _ := hpos
  refine ⟨?_, ⟨rfl, rfl⟩, ?_, ?_⟩
  · intro hl ht
    exact ⟨wrap64_of_isInt64 _ hl, wrap64_of_isInt64 _ ht⟩
  · intro cards rand cardholderName chosenCurrency pc hpc
    unfold NewCard at hpc
    rcases hloop : NewCard.loop cards rand createCardMaxRetries 0 with _ | cNum
    · simp [hloop] at hpc
    · simp only [hloop, Except.ok.injEq] at hpc
      subst hpc
      refine ⟨?_, rfl, rfl⟩
      show wrap64 (0 + 1000) = 1000
      decide
  · intro hus
    refine ⟨rfl, hus, ?_, ?_, ?_⟩
    · unfold Card.BlockFunds64
      split_ifs <;> exact hus
    · unfold Card.UnblockFunds64
      split_ifs <;> exact hus
    · unfold Card.CaptureFunds64
      split_ifs <;> exact hus

/-- C14 on scenario A of the specification: `NewCard` creates the card with the number 1,
and the card loaded with 1000 has `LoadedFunds = TotalFunds = 1000`, `BlockedFunds = 0` and
`Usable = true`. -/
theorem C14_LoadFunds64_effect_witness :
    (NewCard (fun _ => none) (fun _ => 1) "Ann" "GBP").2 = .ok newCard1 ∧
    ((newCard1.LoadFunds64 1000).TotalFunds = 1000 ∧
      (newCard1.LoadFunds64 1000).BlockedFunds = 0 ∧
      (newCard1.LoadFunds64 1000).Usable = true) ∧
    ((newCard1.LoadFunds64 1000).LoadedFunds = newCard1.LoadedFunds + 1000 ∧
      (newCard1.LoadFunds64 1000).TotalFunds = newCard1.TotalFunds + 1000) :=
  ⟨rfl,
    (C14_LoadFunds64_effect newCard1 1000 (by decide)).2.2.1 (fun _ => none) (fun _ => 1)
      "Ann" "GBP" newCard1 rfl,
    (C14_LoadFunds64_effect newCard1 1000 (by decide)).1 (by decide) (by decide)⟩

/-- C6, as stated, fails in the arithmetic of `int64`, because `TotalFunds - BlockedFunds`
wraps.  On the usable card with `BlockedFunds = -1` and `TotalFunds = 9223372036854775807`
(the card after create card, load 9223372036854775807, authorize 1, capture 1, reverse 1 and
refund 1) the difference is `9223372036854775808`, not below 1, and the authorization of 1
fails with `ErrNotEnoughFunds`.  On the usable card with `BlockedFunds = 1` and
`TotalFunds = -9223372036854775808` (the card after create card, load 1, authorize 1 and
load 9223372036854775807) the difference is below every amount, and the authorization of
`9223372036854775807` succeeds. -/
theorem C6_counterexample :
    ((run64 Registry.empty
        [create1, load1 maxInt64, authorize1 1 "t1", capture1 1, reverse1 1, refund1 1]).cards 1
      = some (cardWith maxInt64 (-1) maxInt64) ∧
      (cardWith maxInt64 (-1) maxInt64).Usable = true ∧
      ¬ ((cardWith maxInt64 (-1) maxInt64).TotalFunds
          - (cardWith maxInt64 (-1) maxInt64).BlockedFunds < 1) ∧
      ((cardWith maxInt64 (-1) maxInt64).BlockFunds64 1).2 = some .ErrNotEnoughFunds ∧
      ((cardWith maxInt64 (-1) maxInt64).NewAuthRequest64 (fun _ => none) "t2" "shop" 1).2.2
        = .error .ErrNotEnoughFunds) ∧
    ((run64 Registry.empty
        [create1, load1 1, authorize1 1 "t1", load1 maxInt64]).cards 1
      = some (cardWith minInt64 1 minInt64) ∧
      (cardWith minInt64 1 minInt64).Usable = true ∧
      (cardWith minInt64 1 minInt64).TotalFunds - (cardWith minInt64 1 minInt64).BlockedFunds
        < maxInt64 ∧
      ((cardWith minInt64 1 minInt64).BlockFunds64 maxInt64).2 = none ∧
      ((cardWith minInt64 1 minInt64).NewAuthRequest64 (fun _ => none) "t2" "shop"
        maxInt64).2.2 = .ok "t2") := by
  refine ⟨⟨by decide, by decide, by decide, by decide, rfl⟩,
    ⟨by decide, by decide, by decide, by decide, rfl⟩⟩

/-- C6, amended. In the arithmetic of `int64`, `Card.NewAuthRequest`, through
`Card.BlockFunds`, fails with `ErrCardIsNotUsable` on a card that is not usable; on a usable
card whose `TotalFunds - BlockedFunds` is within the `int64` range it fails with
`ErrNotEnoughFunds` exactly when `TotalFunds - BlockedFunds < amount`, and otherwise succeeds
and leaves `LoadedFunds`, `TotalFunds` and `Usable` as they were, and adds exactly `amount`
to `BlockedFunds` when `BlockedFunds + amount` is within the `int64` range.  On a usable card
with `0 <= BlockedFunds <= TotalFunds` and `TotalFunds` an `int64`, authorizing
`TotalFunds - BlockedFunds` succeeds, and authorizing one cent more, when that amount is an
`int64`, fails with `ErrNotEnoughFunds`. -/
theorem C6_NewAuthRequest64_blocks_funds (c : Card)
    (authRequests : Int → Option (List AuthRequest)) (uuid merchantName : String)
    (amount : Int) :
    (c.Usable = false →
      (c.NewAuthRequest64 authRequests uuid merchantName amount).2.2
          = .error .ErrCardIsNotUsable ∧
        (c.BlockFunds64 amount).2 = some .ErrCardIsNotUsable) ∧
    (c.Usable = true → isInt64 (c.TotalFunds - c.BlockedFunds) →
      ((c.NewAuthRequest64 authRequests uuid merchantName amount).2.2
          = .error .ErrNotEnoughFunds ↔ c.TotalFunds - c.BlockedFunds < amount) ∧
      ((c.BlockFunds64 amount).2 = some .ErrNotEnoughFunds
          ↔ c.TotalFunds - c.BlockedFunds < amount)) ∧
    (c.Usable = true → isInt64 (c.TotalFunds - c.BlockedFunds) →
      ¬ (c.TotalFunds - c.BlockedFunds < amount) →
      (c.NewAuthRequest64 authRequests uuid merchantName amount).2.2 = .ok uuid ∧
      (c.BlockFunds64 amount).2 = none ∧
      (isInt64 (c.BlockedFunds + amount) →
        (c.NewAuthRequest64 authRequests uuid merchantName amount).1.BlockedFunds
          = c.BlockedFunds + amount) ∧
      (c.NewAuthRequest64 authRequests uuid merchantName amount).1.LoadedFunds
          = c.LoadedFunds ∧
      (c.NewAuthRequest64 authRequests uuid merchantName amount).1.TotalFunds
          = c.TotalFunds ∧
      (c.NewAuthRequest64 authRequests uuid merchantName amount).1.Usable = c.Usable) ∧
    (c.Usable = true → 0 ≤ c.BlockedFunds → c.BlockedFunds ≤ c.TotalFunds →
      isInt64 c.TotalFunds →
      (c.NewAuthRequest64 authRequests uuid merchantName
          (c.TotalFunds - c.BlockedFunds)).2.2 = .ok uuid ∧
      (isInt64 (c.TotalFunds - c.BlockedFunds + 1) →
        (c.NewAuthRequest64 authRequests uuid merchantName
          (c.TotalFunds - c.BlockedFunds + 1)).2.2 = .error .ErrNotEnoughFunds)) := by
  refine ⟨?_, ?_, ?_, ?_⟩
  · intro hu
    simp [NewAuthRequest64_eq, Card.BlockFunds64, hu]
  · intro hu hr
    have hw := wrap64_of_isInt64 _ hr
    by_cases hlt : c.TotalFunds - c.BlockedFunds < amount
    · have hn : ¬ (amount ≤ c.TotalFunds - c.BlockedFunds) := by omega
      simp [NewAuthRequest64_eq, Card.BlockFunds64, Card.hasEnoughAvailableFunds64, hu, hlt,
        hn, hw]
    · have hn : amount ≤ c.TotalFunds - c.BlockedFunds := by omega
      simp [NewAuthRequest64_eq, Card.BlockFunds64, Card.hasEnoughAvailableFunds64, hu, hlt,
        hn, hw]
  · intro hu hr hlt
    have hw := wrap64_of_isInt64 _ hr
    have hn : amount ≤ c.TotalFunds - c.BlockedFunds := by omega
    refine ⟨?_, ?_, ?_, ?_, ?_, ?_⟩
    · simp [NewAuthRequest64_eq, Card.BlockFunds64, Card.hasEnoughAvailableFunds64, hu, hn, hw]
    · simp [Card.BlockFunds64, Card.hasEnoughAvailableFunds64, hu, hn, hw]
    · intro hb
      simp [NewAuthRequest64_eq, Card.BlockFunds64, Card.hasEnoughAvailableFunds64, hu, hn, hw,
        wrap64_of_isInt64 _ hb]
    · simp [NewAuthRequest64_eq, Card.BlockFunds64, Card.hasEnoughAvailableFunds64, hu, hn, hw]
    · simp [NewAuthRequest64_eq, Card.BlockFunds64, Card.hasEnoughAvailableFunds64, hu, hn, hw]
    · simp [NewAuthRequest64_eq, Card.BlockFunds64, Card.hasEnoughAvailableFunds64, hu, hn, hw]
  · intro hu h0 hle ht
    rw [isInt64_iff] at ht
    have hw : wrap64 (c.TotalFunds - c.BlockedFunds) = c.TotalFunds - c.BlockedFunds :=
      wrap64_eq _ (by omega) (by omega)
    refine ⟨?_, ?_⟩
    · simp [NewAuthRequest64_eq, Card.BlockFunds64, Card.hasEnoughAvailableFunds64, hu, hw]
    · intro _
      simp [NewAuthRequest64_eq, Card.BlockFunds64, Card.hasEnoughAvailableFunds64, hu, hw]

/-- C6 on scenario B of the specification: with 1000 on the card and 400 blocked,
authorizing 700 fails with `ErrNotEnoughFunds`, authorizing 600 succeeds and leaves 1000
blocked, and authorizing 601 fails. -/
theorem C6_NewAuthRequest64_blocks_funds_witness :
    ((card1 400 1000).NewAuthRequest64 holds1 "t2" "shop" 700).2.2
        = .error .ErrNotEnoughFunds ∧
    ((card1 400 1000).NewAuthRequest64 holds1 "t2" "shop" 600).1.BlockedFunds
        = (card1 400 1000).BlockedFunds + 600 ∧
    ((card1 400 1000).NewAuthRequest64 holds1 "t2" "shop"
        ((card1 400 1000).TotalFunds - (card1 400 1000).BlockedFunds)).2.2 = .ok "t2" ∧
    ((card1 400 1000).NewAuthRequest64 holds1 "t2" "shop"
        ((card1 400 1000).TotalFunds - (card1 400 1000).BlockedFunds + 1)).2.2
        = .error .ErrNotEnoughFunds :=
  ⟨((C6_NewAuthRequest64_blocks_funds (card1 400 1000) holds1 "t2" "shop" 700).2.1 rfl
      (by decide)).1.2 (by decide),
    ((C6_NewAuthRequest64_blocks_funds (card1 400 1000) holds1 "t2" "shop" 600).2.2.1 rfl
      (by decide) (by decide)).2.2.1 (by decide),
    ((C6_NewAuthRequest64_blocks_funds (card1 400 1000) holds1 "t2" "shop" 700).2.2.2 rfl
      (by decide) (by decide) (by decide)).1,
    ((C6_NewAuthRequest64_blocks_funds (card1 400 1000) holds1 "t2" "shop" 700).2.2.2 rfl
      (by decide) (by decide) (by decide)).2 (by decide)⟩

/-- C8, as stated, fails in the arithmetic of `int64`.  On a capture that is not completed,
with `CapturedAmount = 1` of a hold with `AuthAmount = 400`, and a card with
`BlockedFunds = TotalFunds = 9223372036854775807`, the amount `9223372036854775807` has
`CapturedAmount + amount > AuthAmount`, and `Capture` returns no error and leaves
`CapturedAmount = -9223372036854775808`.  On a new capture of the same hold and the card with
`BlockedFunds = 1` and `TotalFunds = -9223372036854775808`, the amount 1 satisfies the three
conditions, and `Capture` leaves `TotalFunds = 9223372036854775807`, which is not
`TotalFunds - 1`. -/
theorem C8_counterexample :
    ((fundCapture1 1 false).Completed = false ∧
      (fundCapture1 1 false).CapturedAmount + maxInt64 > hold1.AuthAmount ∧
      (fundCapture1 1 false).Capture64 hold1 maxInt64 (cardWith maxInt64 maxInt64 maxInt64)
        = (fundCapture1 minInt64 false, cardWith maxInt64 0 0, none)) ∧
    ((fundCapture1 0 false).Completed = false ∧
      (fundCapture1 0 false).CapturedAmount + 1 ≤ hold1.AuthAmount ∧
      (1 : Int) ≤ (cardWith minInt64 1 minInt64).BlockedFunds ∧
      (fundCapture1 0 false).Capture64 hold1 1 (cardWith minInt64 1 minInt64)
        = (fundCapture1 1 false, cardWith minInt64 0 maxInt64, none) ∧
      ((fundCapture1 0 false).Capture64 hold1 1 (cardWith minInt64 1 minInt64)).2.1.TotalFunds
        ≠ (cardWith minInt64 1 minInt64).TotalFunds - 1) := by
  refine ⟨⟨by decide, by decide, by decide⟩,
    ⟨by decide, by decide, by decide, by decide, by decide⟩⟩

/-- C8, amended. In the arithmetic of `int64`: on a capture that is not completed, with
`CapturedAmount + amount <= AuthAmount` and `amount <= BlockedFunds`, when
`CapturedAmount + amount`, `BlockedFunds - amount` and `TotalFunds - amount` are within the
`int64` range, `FundCapture.Capture` returns no error, adds exactly `amount` to
`CapturedAmount`, takes exactly `amount` from the card's `BlockedFunds` and `TotalFunds`, and
leaves `Completed` true exactly when the new `CapturedAmount` is the hold's `AuthAmount`; and
`Capture` returns an error, `ErrInvalidCapture`, whenever `Completed` is true, or
`CapturedAmount + amount > AuthAmount` and the sum is within the `int64` range. -/
theorem C8_Capture64_effect (fc : FundCapture) (authRq : AuthRequest) (amount : Int)
    (card : Card) :
    (fc.Completed = false → fc.CapturedAmount + amount ≤ authRq.AuthAmount →
      amount ≤ card.BlockedFunds →
      isInt64 (fc.CapturedAmount + amount) → isInt64 (card.BlockedFunds - amount) →
      isInt64 (card.TotalFunds - amount) →
      (fc.Capture64 authRq amount card).2.2 = none ∧
      (fc.Capture64 authRq amount card).1.CapturedAmount = fc.CapturedAmount + amount ∧
      (fc.Capture64 authRq amount card).2.1.BlockedFunds = card.BlockedFunds - amount ∧
      (fc.Capture64 authRq amount card).2.1.TotalFunds = card.TotalFunds - amount ∧
      ((fc.Capture64 authRq amount card).1.Completed = true ↔
        (fc.Capture64 authRq amount card).1.CapturedAmount = authRq.AuthAmount)) ∧
    (fc.Completed = true ∨
        (fc.CapturedAmount + amount > authRq.AuthAmount ∧
          isInt64 (fc.CapturedAmount + amount)) →
      (fc.Capture64 authRq amount card).2.2 = some .ErrInvalidCapture) := by
  constructor
  · intro hc hle hb hs hbl ht
    have hws := wrap64_of_isInt64 _ hs
    have h1 : ¬ (fc.Completed = true ∨
        wrap64 (fc.CapturedAmount + amount) > authRq.AuthAmount) := by
      rw [hc, hws]
      simp
      omega
    have h2 : ¬ (amount > card.BlockedFunds) := by omega
    rw [Capture64_eq, if_neg h1]
    simp [Card.CaptureFunds64, h2, hws, wrap64_of_isInt64 _ hbl, wrap64_of_isInt64 _ ht]
  · intro h
    have h1 : fc.Completed = true ∨
        wrap64 (fc.CapturedAmount + amount) > authRq.AuthAmount := by
      rcases h with h | ⟨hgt, hs⟩
      · exact Or.inl h
      · rw [wrap64_of_isInt64 _ hs]
        exact Or.inr hgt
    rw [Capture64_eq, if_pos h1]

/-- C8 on the second capture of scenario C: 150 of 400 are captured, 250 more complete the
capture. -/
theorem C8_Capture64_effect_witness :
    ((fundCapture1 150 false).Capture64 hold1 250 (card1 250 850)).2.2 = none ∧
    ((fundCapture1 150 false).Capture64 hold1 250 (card1 250 850)).1.CapturedAmount
      = (fundCapture1 150 false).CapturedAmount + 250 ∧
    ((fundCapture1 150 false).Capture64 hold1 250 (card1 250 850)).2.1.BlockedFunds
      = (card1 250 850).BlockedFunds - 250 ∧
    ((fundCapture1 150 false).Capture64 hold1 250 (card1 250 850)).2.1.TotalFunds
      = (card1 250 850).TotalFunds - 250 ∧
    (((fundCapture1 150 false).Capture64 hold1 250 (card1 250 850)).1.Completed = true ↔
      ((fundCapture1 150 false).Capture64 hold1 250 (card1 250 850)).1.CapturedAmount
        = hold1.AuthAmount) :=
  (C8_Capture64_effect (fundCapture1 150 false) hold1 250 (card1 250 850)).1 rfl (by decide)
    (by decide) (by decide) (by decide) (by decide)

/-- C10, as stated, fails in the arithmetic of `int64`.  On the capture with
`CapturedAmount = 1` of a hold with `AuthAmount = 400` and the card with
`BlockedFunds = TotalFunds = 9223372036854775807`, `Capture` of `9223372036854775807`
succeeds and leaves `CapturedAmount = -9223372036854775808`; the refund of
`9223372036854775807` that follows is rejected, and `CapturedAmount` and `TotalFunds` stay
at `-9223372036854775808` and 0. -/
theorem C10_counterexample :
    0 ≤ (fundCapture1 1 false).CapturedAmount ∧ 0 < maxInt64 ∧
    ((fundCapture1 1 false).Capture64 hold1 maxInt64
        (cardWith maxInt64 maxInt64 maxInt64)).2.2 = none ∧
    refundFunds64
        ((fundCapture1 1 false).Capture64 hold1 maxInt64
          (cardWith maxInt64 maxInt64 maxInt64)).1
        ((fundCapture1 1 false).Capture64 hold1 maxInt64
          (cardWith maxInt64 maxInt64 maxInt64)).2.1
        { RefundAmount := maxInt64 }
      = (fundCapture1 minInt64 false, cardWith maxInt64 0 0,
          some .errInvalidRefundAmount) := by
  refine ⟨by decide, by decide, by decide, by decide⟩

/-- C10, amended. In the arithmetic of `int64`: when `Capture(amount, card)` succeeds on a
capture with `CapturedAmount >= 0` and `amount > 0`, with `CapturedAmount + amount` not
beyond the greatest `int64` and the card's `TotalFunds` an `int64`, the refund of the same
amount on the same capture, as the refund handler performs it, is accepted and brings the
capture's `CapturedAmount` and the card's `TotalFunds` back to their values before the
capture. -/
theorem C10_capture64_then_refund64 (fc : FundCapture) (authRq : AuthRequest) (amount : Int)
    (card : Card) (hcap : 0 ≤ fc.CapturedAmount) (hpos : 0 < amount)
    (hfits : fc.CapturedAmount + amount ≤ maxInt64) (htotal : isInt64 card.TotalFunds)
    (hok : (fc.Capture64 authRq amount card).2.2 = none) :
    (refundFunds64 (fc.Capture64 authRq amount card).1 (fc.Capture64 authRq amount card).2.1
        { RefundAmount := amount }).2.2 = none ∧
    (refundFunds64 (fc.Capture64 authRq amount card).1 (fc.Capture64 authRq amount card).2.1
        { RefundAmount := amount }).1.CapturedAmount = fc.CapturedAmount ∧
    (refundFunds64 (fc.Capture64 authRq amount card).1 (fc.Capture64 authRq amount card).2.1
        { RefundAmount := amount }).2.1.TotalFunds = card.TotalFunds := by
  have hmax : fc.CapturedAmount + amount ≤ 9223372036854775807 := hfits
  have hws : wrap64 (fc.CapturedAmount + amount) = fc.CapturedAmount + amount :=
    wrap64_eq _ (by omega) hmax
  have hwc : wrap64 fc.CapturedAmount = fc.CapturedAmount :=
    wrap64_eq _ (by omega) (by omega)
  rw [Capture64_eq] at hok ⊢
  by_cases h1 : fc.Completed = true ∨ wrap64 (fc.CapturedAmount + amount) > authRq.AuthAmount
  · rw [if_pos h1] at hok
    simp at hok
  · rw [if_neg h1] at hok ⊢
    have h2 : ¬ (amount > card.BlockedFunds) := by
      intro hgt
      simp [Card.CaptureFunds64, hgt] at hok
    have h3 : ¬ (amount > fc.CapturedAmount + amount) := by omega
    simp [refundFunds64, Card.CaptureFunds64, Card.Refund64, h2, h3, hws, hwc,
      wrap64_sub_add _ _ htotal]

/-- C10 on a capture of 100 out of 400 followed by the refund of 100. -/
theorem C10_capture64_then_refund64_witness :
    (refundFunds64 ((fundCapture1 0 false).Capture64 hold1 100 (card1 400 1000)).1
        ((fundCapture1 0 false).Capture64 hold1 100 (card1 400 1000)).2.1
        { RefundAmount := 100 }).2.2 = none ∧
    (refundFunds64 ((fundCapture1 0 false).Capture64 hold1 100 (card1 400 1000)).1
        ((fundCapture1 0 false).Capture64 hold1 100 (card1 400 1000)).2.1
        { RefundAmount := 100 }).1.CapturedAmount = (fundCapture1 0 false).CapturedAmount ∧
    (refundFunds64 ((fundCapture1 0 false).Capture64 hold1 100 (card1 400 1000)).1
        ((fundCapture1 0 false).Capture64 hold1 100 (card1 400 1000)).2.1
        { RefundAmount := 100 }).2.1.TotalFunds = (card1 400 1000).TotalFunds :=
  C10_capture64_then_refund64 (fundCapture1 0 false) hold1 100 (card1 400 1000) (by decide)
    (by decide) (by decide) (by decide) rfl

/-- C9, as stated, fails, and so does its restriction to cards whose `BlockedFunds` is not
negative.  The card with `BlockedFunds = -400` and `TotalFunds = 600` is in the registry
after create card, load 1000, authorize 400, capture 400 and reverse 400; on it the
authorization of 400 succeeds and the first capture, of 150 out of 400 = 150 + 250, returns
`ErrNotEnoughFunds`.  The card with `BlockedFunds = 1` and
`TotalFunds = -9223372036854775808` is in the registry after create card, load 1,
authorize 1 and load 9223372036854775807; on it the authorization of `9223372036854775807`
succeeds, because `TotalFunds - BlockedFunds` wraps, and leaves
`BlockedFunds = -9223372036854775808`, and the first capture, of 1 out of
9223372036854775807 = 1 + 9223372036854775806, returns `ErrNotEnoughFunds`. -/
theorem C9_counterexample :
    ((run64 Registry.empty (authorized400 ++ [capture1 400, reverse1 400])).cards 1
      = some overdrawnCard ∧
      (overdrawnCard.NewAuthRequest64 (fun _ => none) "t2" "shop" 400).2.2 = .ok "t2" ∧
      ((NewFundCapture (fun _ => none) { cardNumber := 1, index := 0 } "t2").2.Capture64
          { UUID := "t2", MerchantName := "shop", AuthAmount := 400 } 150
          (overdrawnCard.NewAuthRequest64 (fun _ => none) "t2" "shop" 400).1).2.2
        = some .ErrNotEnoughFunds) ∧
    ((run64 Registry.empty [create1, load1 1, authorize1 1 "t1", load1 maxInt64]).cards 1
      = some (cardWith minInt64 1 minInt64) ∧
      0 ≤ (cardWith minInt64 1 minInt64).BlockedFunds ∧
      maxInt64 = 1 + 9223372036854775806 ∧
      ((cardWith minInt64 1 minInt64).NewAuthRequest64 (fun _ => none) "t2" "shop"
        maxInt64).2.2 = .ok "t2" ∧
      ((cardWith minInt64 1 minInt64).NewAuthRequest64 (fun _ => none) "t2" "shop"
        maxInt64).1 = cardWith minInt64 minInt64 minInt64 ∧
      ((NewFundCapture (fun _ => none) { cardNumber := 1, index := 0 } "t2").2.Capture64
          { UUID := "t2", MerchantName := "shop", AuthAmount := maxInt64 } 1
          ((cardWith minInt64 1 minInt64).NewAuthRequest64 (fun _ => none) "t2" "shop"
            maxInt64).1).2.2
        = some .ErrNotEnoughFunds) := by
  refine ⟨⟨by decide, rfl, by decide⟩, ⟨by decide, by decide, by decide, rfl, by decide,
    by decide⟩⟩

/-- C9, amended. In the arithmetic of `int64`, on a card whose `BlockedFunds` was not
negative before the authorization, with `TotalFunds` an `int64` and
`TotalFunds - BlockedFunds` within the `int64` range: for a freshly authorized hold of amount
`A` and a split `A = a + b` with `a, b > 0`, capturing `a` and then `b` on the new capture
record both succeed and leave `Completed = true` and `CapturedAmount = A`; and on every
capture whose `Completed` flag is true, `Capture` of any amount returns an error and leaves
the capture and the card as they were. -/
theorem C9_split_capture64 (c c1 c2 c3 : Card)
    (authRequests authRequests1 : Int → Option (List AuthRequest))
    (fundCaptures : String → Option FundCapture) (p : AuthRequestPtr)
    (uuid merchantName tok : String) (A a b : Int) (fc1 fc2 : FundCapture)
    (e1 e2 : Option Error)
    (hblocked : 0 ≤ c.BlockedFunds) (htotal : isInt64 c.TotalFunds)
    (havailable : isInt64 (c.TotalFunds - c.BlockedFunds))
    (ha : 0 < a) (hb : 0 < b) (hsplit : A = a + b)
    (hauth : c.NewAuthRequest64 authRequests uuid merchantName A
      = (c1, authRequests1, .ok tok))
    (hfirst : (NewFundCapture fundCaptures p uuid).2.Capture64
      { UUID := uuid, MerchantName := merchantName, AuthAmount := A } a c1 = (fc1, c2, e1))
    (hsecond : fc1.Capture64
      { UUID := uuid, MerchantName := merchantName, AuthAmount := A } b c2 = (fc2, c3, e2)) :
    (e1 = none ∧ e2 = none ∧ fc2.Completed = true ∧ fc2.CapturedAmount = A) ∧
    (∀ (fc : FundCapture) (authRq : AuthRequest) (amount : Int) (card : Card),
      fc.Completed = true →
        fc.Capture64 authRq amount card = (fc, card, some .ErrInvalidCapture)) := by
  constructor
  · rw [isInt64_iff] at htotal
    have hwa := wrap64_of_isInt64 _ havailable
    rw [isInt64_iff] at havailable
    rw [NewAuthRequest64_eq] at hauth
    rcases hbf : (c.BlockFunds64 A).2 with _ | err
    · have hAle : A ≤ c.TotalFunds - c.BlockedFunds := by
        unfold Card.BlockFunds64 Card.hasEnoughAvailableFunds64 at hbf
        rw [hwa] at hbf
        split_ifs at hbf with h1 h2
        simpa using h2
      have hwb : wrap64 (c.BlockedFunds + A) = c.BlockedFunds + A :=
        wrap64_eq _ (by omega) (by omega)
      have hc1 : (c.BlockFunds64 A).1.BlockedFunds = c.BlockedFunds + A := by
        unfold Card.BlockFunds64 at hbf ⊢
        split_ifs at hbf ⊢
        simp [hwb]
      rw [hbf] at hauth
      simp only [Prod.mk.injEq] at hauth
      obtain ⟨hc, -, -⟩ := hauth
      rw [hc] at hc1
      have hw0 : wrap64 a = a := wrap64_eq _ (by omega) (by omega)
      have g1 : ¬ (a > c1.BlockedFunds) := by rw [hc1]; omega
      have g3 : ¬ (a > A) := by omega
      have g4 : ¬ (a = A) := by omega
      simp [Capture64_eq, NewFundCapture, Card.CaptureFunds64, g1, g3, g4, hw0] at hfirst
      obtain ⟨hf1, hc2, he1⟩ := hfirst
      subst hf1 hc2
      have hw1 : wrap64 (c1.BlockedFunds - a) = c1.BlockedFunds - a :=
        wrap64_eq _ (by rw [hc1]; omega) (by rw [hc1]; omega)
      have hw2 : wrap64 (a + b) = A := (congrArg wrap64 (by omega)).trans
        (wrap64_eq _ (by omega) (by omega))
      have g2 : ¬ (b > c1.BlockedFunds - a) := by rw [hc1]; omega
      simp [Capture64_eq, Card.CaptureFunds64, g2, hw1, hw2] at hsecond
      obtain ⟨hf2, -, he2⟩ := hsecond
      subst hf2
      exact ⟨he1.symm, he2.symm, rfl, rfl⟩
    · rw [hbf] at hauth
      simp at hauth
  · intro fc authRq amount card hc
    rw [Capture64_eq, if_pos (Or.inl hc)]

/-- C9 on the split 400 = 150 + 250 of the specification, on a card loaded with 1000. -/
theorem C9_split_capture64_witness :
    (card1 0 1000).NewAuthRequest64 (fun _ => none) "t1" "shop" 400
      = (card1 400 1000, holds1, .ok "t1") ∧
    (NewFundCapture (fun _ => none) { cardNumber := 1, index := 0 } "t1").2.Capture64
      { UUID := "t1", MerchantName := "shop", AuthAmount := 400 } 150 (card1 400 1000)
      = (fundCapture1 150 false, card1 250 850, none) ∧
    (fundCapture1 150 false).Capture64
      { UUID := "t1", MerchantName := "shop", AuthAmount := 400 } 250 (card1 250 850)
      = (fundCapture1 400 true, card1 0 600, none) ∧
    ((none : Option Error) = none ∧ (none : Option Error) = none ∧
      (fundCapture1 400 true).Completed = true ∧
      (fundCapture1 400 true).CapturedAmount = 400) :=
  ⟨rfl, rfl, rfl,
    (C9_split_capture64
      (card1 0 1000) (card1 400 1000) (card1 250 850) (card1 0 600) (fun _ => none) holds1
      (fun _ => none) { cardNumber := 1, index := 0 } "t1" "shop" "t1" 400 150 250
      (fundCapture1 150 false) (fundCapture1 400 true) none none (by decide) (by decide)
      (by decide) (by decide) (by decide) (by decide) rfl rfl rfl).1⟩

end Ledger64

/-! ## The refund handler in the arithmetic of `int64` -/

section Refund64

open prepaid api

theorem refundFundsAPIHandler64_found (s : Registry) (vars : Vars) (data : refundFundsRequest)
    (cn : Int) (card : Card) (authRq : AuthRequestPtr) (fc : FundCapture)
    (huuid : vars.get "auth_request_uuid" ≠ "")
    (hcn : validateAndReturnCardNumber vars = some cn) (hpos : 0 < data.RefundAmount)
    (hcard : FindCardByNumber s.cards cn = .ok card)
    (hfind : FindAuthRequestByUUID s.authRequests card.CardNumber
      (vars.get "auth_request_uuid") = .ok authRq)
    (hfc : FindFundCaptureByAuthUUID s.fundCaptures (deref s.authRequests authRq).UUID
      = .ok fc) :
    refundFundsAPIHandler64 s vars (some data) =
      ({ s with
         cards := mapSet s.cards cn (refundFunds64 fc card data).2.1
         fundCaptures := mapSet s.fundCaptures (deref s.authRequests authRq).UUID
           (refundFunds64 fc card data).1 },
        match (refundFunds64 fc card data).2.2 with
        | some e => .httpError e 403
        | none => .empty) := by
  unfold refundFundsAPIHandler64
  simp only [huuid, hcn, hcard, hfind, hfc, refundFundsRqIsValid, hpos, if_false,
    decide_True, Bool.not_true, Bool.false_eq_true]
  rcases refundFunds64 fc card data with ⟨fc1, card1, _ | e⟩ <;> rfl

/-- C11, as stated, fails in the arithmetic of `int64`.  After create card, load 1000,
authorize 1000, capture 1000 and load 9223372036854775807 the card has
`TotalFunds = 9223372036854775807` and the capture records 1000; the refund of 1000 is
accepted and leaves `TotalFunds = -9223372036854774809`, not 1000 more than before. -/
theorem C11_counterexample :
    (run64 Registry.empty
        [create1, load1 1000, authorize1 1000 "t1", capture1 1000, load1 maxInt64]).cards 1
      = some (cardWith (-9223372036854774809) 0 maxInt64) ∧
    (run64 Registry.empty
        [create1, load1 1000, authorize1 1000 "t1", capture1 1000,
          load1 maxInt64]).fundCaptures "t1"
      = some (fundCapture1 1000 true) ∧
    (refundFundsAPIHandler64
        (run64 Registry.empty
          [create1, load1 1000, authorize1 1000 "t1", capture1 1000, load1 maxInt64])
        (cardAuthVars "1" "t1") (some { RefundAmount := 1000 })).2 = .empty ∧
    (refundFundsAPIHandler64
        (run64 Registry.empty
          [create1, load1 1000, authorize1 1000 "t1", capture1 1000, load1 maxInt64])
        (cardAuthVars "1" "t1") (some { RefundAmount := 1000 })).1.cards 1
      = some (cardWith (-9223372036854774809) 0 (-9223372036854774809)) ∧
    (cardWith (-9223372036854774809) 0 (-9223372036854774809)).TotalFunds
      ≠ (cardWith (-9223372036854774809) 0 maxInt64).TotalFunds + 1000 := by
  refine ⟨by decide, by decide, by decide, by decide, by decide⟩

/-- C11, amended. In the arithmetic of `int64`, for an existing capture and a refund
amount > 0, the refund handler rejects the request exactly when the amount exceeds
`CapturedAmount`, and then the capture, the card and the rest of the registry are as before;
otherwise it accepts the request, leaves the card's `BlockedFunds`, `LoadedFunds` and
`Usable`, the capture's `Completed` flag and everything else as they were, takes exactly the
amount from `CapturedAmount` when `CapturedAmount` is an `int64`, and adds exactly the amount
to the card's `TotalFunds` when `TotalFunds + amount` is within the `int64` range. -/
theorem C11_refund_handler64 (s : Registry) (vars : Vars) (data : refundFundsRequest)
    (cn : Int) (card : Card) (authRq : AuthRequestPtr) (fc : FundCapture)
    (huuid : vars.get "auth_request_uuid" ≠ "")
    (hcn : validateAndReturnCardNumber vars = some cn) (hpos : 0 < data.RefundAmount)
    (hcard : FindCardByNumber s.cards cn = .ok card)
    (hfind : FindAuthRequestByUUID s.authRequests card.CardNumber
      (vars.get "auth_request_uuid") = .ok authRq)
    (hfc : FindFundCaptureByAuthUUID s.fundCaptures (deref s.authRequests authRq).UUID
      = .ok fc) :
    ((refundFundsAPIHandler64 s vars (some data)).2.isError = true ↔
      data.RefundAmount > fc.CapturedAmount) ∧
    (refundFundsAPIHandler64 s vars (some data)).1.authRequests = s.authRequests ∧
    (∀ k, k ≠ cn → (refundFundsAPIHandler64 s vars (some data)).1.cards k = s.cards k) ∧
    (∀ u, u ≠ (deref s.authRequests authRq).UUID →
      (refundFundsAPIHandler64 s vars (some data)).1.fundCaptures u = s.fundCaptures u) ∧
    (data.RefundAmount > fc.CapturedAmount →
      (refundFundsAPIHandler64 s vars (some data)).2
        = .httpError .errInvalidRefundAmount 403 ∧
      (refundFundsAPIHandler64 s vars (some data)).1.cards cn = some card ∧
      (refundFundsAPIHandler64 s vars (some data)).1.fundCaptures
        (deref s.authRequests authRq).UUID = some fc) ∧
    (data.RefundAmount ≤ fc.CapturedAmount →
      (refundFundsAPIHandler64 s vars (some data)).2 = .empty ∧
      (∃ card1 fc1,
        (refundFundsAPIHandler64 s vars (some data)).1.cards cn = some card1 ∧
        (refundFundsAPIHandler64 s vars (some data)).1.fundCaptures
          (deref s.authRequests authRq).UUID = some fc1 ∧
        card1.CardNumber = card.CardNumber ∧ card1.Cardholder = card.Cardholder ∧
        card1.CardCurrency = card.CardCurrency ∧ card1.LoadedFunds = card.LoadedFunds ∧
        card1.BlockedFunds = card.BlockedFunds ∧ card1.Usable = card.Usable ∧
        fc1.AuthRequest = fc.AuthRequest ∧ fc1.Completed = fc.Completed ∧
        (isInt64 fc.CapturedAmount →
          fc1.CapturedAmount = fc.CapturedAmount - data.RefundAmount) ∧
        (isInt64 (card.TotalFunds + data.RefundAmount) →
          card1.TotalFunds = card.TotalFunds + data.RefundAmount))) := by
  rw [refundFundsAPIHandler64_found s vars data cn card authRq fc huuid hcn hpos hcard hfind
    hfc]
  refine ⟨?_, rfl, ?_, ?_, ?_, ?_⟩
  · by_cases hgt : data.RefundAmount > fc.CapturedAmount
    · simp [refundFunds64, hgt, Response.isError]
    · simp [refundFunds64, hgt, Response.isError]
  · intro k hk
    simp [mapSet, hk]
  · intro u hu
    simp [mapSet, hu]
  · intro hgt
    simp [refundFunds64, hgt, mapSet]
  · intro hle
    have hgt : ¬ (data.RefundAmount > fc.CapturedAmount) := by omega
    refine ⟨by simp [refundFunds64, hgt], (refundFunds64 fc card data).2.1,
      (refundFunds64 fc card data).1, by simp [mapSet], by simp [mapSet], ?_⟩
    simp only [refundFunds64, if_neg hgt, Card.Refund64]
    refine ⟨trivial, trivial, trivial, trivial, trivial, trivial, trivial, trivial, ?_, ?_⟩
    · intro hc
      rw [isInt64_iff] at hc
      exact wrap64_eq _ (by omega) (by omega)
    · intro ht
      exact wrap64_of_isInt64 _ ht

/-- C11 after create card, load 1000, authorize 400 and capture 100: the refund of 100 is
accepted, takes 100 from the 100 captured and brings `TotalFunds` from 900 to 1000. -/
theorem C11_refund_handler64_witness :
    FindCardByNumber (run64 Registry.empty (authorized400 ++ [capture1 100])).cards 1
      = .ok (card1 300 900) ∧
    FindFundCaptureByAuthUUID
        (run64 Registry.empty (authorized400 ++ [capture1 100])).fundCaptures "t1"
      = .ok (fundCapture1 100 false) ∧
    (refundFundsAPIHandler64 (run64 Registry.empty (authorized400 ++ [capture1 100]))
        (cardAuthVars "1" "t1") (some { RefundAmount := 100 })).2 = .empty ∧
    (∃ card1 fc1,
      (refundFundsAPIHandler64 (run64 Registry.empty (authorized400 ++ [capture1 100]))
        (cardAuthVars "1" "t1") (some { RefundAmount := 100 })).1.cards 1 = some card1 ∧
      (refundFundsAPIHandler64 (run64 Registry.empty (authorized400 ++ [capture1 100]))
        (cardAuthVars "1" "t1") (some { RefundAmount := 100 })).1.fundCaptures "t1"
        = some fc1 ∧
      fc1.CapturedAmount = 100 - 100 ∧ card1.TotalFunds = 900 + 100) :=
  ⟨rfl, rfl,
    ((C11_refund_handler64 (run64 Registry.empty (authorized400 ++ [capture1 100]))
      (cardAuthVars "1" "t1") { RefundAmount := 100 } 1
      (card1 300 900) { cardNumber := 1, index := 0 } (fundCapture1 100 false)
      (by decide) (by decide) (by decide) rfl rfl rfl).2.2.2.2.2 (by decide)).1,
    match ((C11_refund_handler64 (run64 Registry.empty (authorized400 ++ [capture1 100]))
      (cardAuthVars "1" "t1") { RefundAmount := 100 } 1
      (card1 300 900) { cardNumber := 1, index := 0 } (fundCapture1 100 false)
      (by decide) (by decide) (by decide) rfl rfl rfl).2.2.2.2.2 (by decide)).2 with
    | ⟨c, f, hc, hf, _, _, _, _, _, _, _, _, hcap, htot⟩ =>
      ⟨c, f, hc, hf, hcap (by decide), htot (by decide)⟩⟩

end Refund64

/-! ## The capture flow in the arithmetic of `int64`

Along the capture flow, with load and capture requests whose sums stay within the `int64`
range, no addition or subtraction wraps: the handlers in the arithmetic of `int64` do what
the handlers over the integers do, and the invariant of the capture flow carries over. -/

section CaptureFlow64Ledger

open prepaid api

theorem LoadFunds64_eq (c : Card) (amount : Int) (hl : isInt64 (c.LoadedFunds + amount))
    (ht : isInt64 (c.TotalFunds + amount)) : c.LoadFunds64 amount = c.LoadFunds amount := by
  unfold Card.LoadFunds64 Card.LoadFunds
  rw [wrap64_of_isInt64 _ hl, wrap64_of_isInt64 _ ht]

theorem BlockFunds64_eq (c : Card) (amount : Int)
    (hd : isInt64 (c.TotalFunds - c.BlockedFunds))
    (hb : amount ≤ c.TotalFunds - c.BlockedFunds → isInt64 (c.BlockedFunds + amount)) :
    c.BlockFunds64 amount = c.BlockFunds amount := by
  unfold Card.BlockFunds64 Card.BlockFunds Card.hasEnoughAvailableFunds64
    Card.hasEnoughAvailableFunds
  rw [wrap64_of_isInt64 _ hd]
  by_cases hle : amount ≤ c.TotalFunds - c.BlockedFunds
  · rw [wrap64_of_isInt64 _ (hb hle)]
  · have hge : ¬ (c.TotalFunds - c.BlockedFunds ≥ amount) := by omega
    simp [hge]

theorem NewAuthRequest64_eq_exact (c : Card) (authRequests : Int → Option (List AuthRequest))
    (uuid merchantName : String) (amount : Int)
    (hd : isInt64 (c.TotalFunds - c.BlockedFunds))
    (hb : amount ≤ c.TotalFunds - c.BlockedFunds → isInt64 (c.BlockedFunds + amount)) :
    c.NewAuthRequest64 authRequests uuid merchantName amount
      = c.NewAuthRequest authRequests uuid merchantName amount := by
  unfold Card.NewAuthRequest64 Card.NewAuthRequest
  rw [BlockFunds64_eq c amount hd hb]

theorem Reverse64_eq (ar : AuthRequest) (amount : Int) (card : Card)
    (ha : isInt64 (ar.AuthAmount - amount)) (hb : isInt64 (card.BlockedFunds - amount)) :
    ar.Reverse64 amount card = ar.Reverse amount card := by
  unfold AuthRequest.Reverse64 AuthRequest.Reverse Card.UnblockFunds64 Card.UnblockFunds
  rw [wrap64_of_isInt64 _ ha, wrap64_of_isInt64 _ hb]

theorem CaptureFunds64_eq (c : Card) (amount : Int)
    (h : amount ≤ c.BlockedFunds →
      isInt64 (c.BlockedFunds - amount) ∧ isInt64 (c.TotalFunds - amount)) :
    c.CaptureFunds64 amount = c.CaptureFunds amount := by
  unfold Card.CaptureFunds64 Card.CaptureFunds
  by_cases hgt : amount > c.BlockedFunds
  · simp [hgt]
  · obtain ⟨hb, ht⟩ := h (by omega)
    rw [wrap64_of_isInt64 _ hb, wrap64_of_isInt64 _ ht]

theorem Capture64_eq_exact (fc : FundCapture) (authRq : AuthRequest) (amount : Int)
    (card : Card) (hs : isInt64 (fc.CapturedAmount + amount))
    (h : amount ≤ card.BlockedFunds →
      isInt64 (card.BlockedFunds - amount) ∧ isInt64 (card.TotalFunds - amount)) :
    fc.Capture64 authRq amount card = fc.Capture authRq amount card := by
  rw [Capture64_eq, Capture_eq, wrap64_of_isInt64 _ hs, CaptureFunds64_eq card amount h]

end CaptureFlow64Ledger

section CaptureFlow64Handlers

open prepaid api

theorem blocked_nonneg (s : Registry) (h : CaptureInv s) (cn : Int) (c : Card)
    (hc : s.cards cn = some c) : 0 ≤ c.BlockedFunds := by
  rw [h.blocked _ _ hc]
  exact (outstanding_ge _ _ (h.bounded cn)).1

theorem fundCapture_nonneg (s : Registry) (hr : Ranges s) (authRq : AuthRequestPtr) :
    0 ≤ (captureFundsAPIHandler.fundCapture s authRq).2.CapturedAmount ∧
    ∀ u fc, (captureFundsAPIHandler.fundCapture s authRq).1 u = some fc →
      0 ≤ fc.CapturedAmount := by
  unfold captureFundsAPIHandler.fundCapture FindFundCaptureByAuthUUID
  rcases hfc : s.fundCaptures (deref s.authRequests authRq).UUID with _ | fc0
  · refine ⟨le_refl _, ?_⟩
    intro u fc hu
    simp only [NewFundCapture, mapSet] at hu
    split_ifs at hu
    · simp only [Option.some.injEq] at hu
      subst hu
      exact le_refl _
    · exact hr.captures u fc hu
  · exact ⟨hr.captures _ _ hfc, fun u fc hu => hr.captures u fc hu⟩

theorem loadFundsAPIHandler64_eq (s : Registry) (hr : Ranges s) (h : CaptureInv s)
    (vars : Vars) (body : Option loadFundsRequest) (hall : loadWithinRange s vars body) :
    loadFundsAPIHandler64 s vars body = loadFundsAPIHandler s vars body := by
  unfold loadFundsAPIHandler64 loadFundsAPIHandler
  rcases hv : validateAndReturnCardNumber vars with _ | cn
  · rfl
  · rcases body with _ | data
    · rfl
    · simp only
      split_ifs with hvalid
      · rfl
      · rcases hf : FindCardByNumber s.cards cn with e | card
        · rfl
        · have hc := (FindCardByNumber_ok _ _ _).1 hf
          have hpos : 0 < data.AmountCents := by
            simpa [loadFundsRqIsValid] using hvalid
          have hmax : card.LoadedFunds + data.AmountCents ≤ 9223372036854775807 :=
            hall cn data card hv rfl hf
          have h0 := blocked_nonneg s h cn card hc
          obtain ⟨h1, h2, -⟩ := hr.cards cn card hc
          simp only
          rw [LoadFunds64_eq]
          · rw [isInt64_iff]
            constructor <;> omega
          · rw [isInt64_iff]
            constructor <;> omega

theorem authRequestAPIHandler64_eq (s : Registry) (hr : Ranges s) (h : CaptureInv s)
    (vars : Vars) (body : Option authRequest) (uuid : String) :
    authRequestAPIHandler64 s vars body uuid = authRequestAPIHandler s vars body uuid := by
  unfold authRequestAPIHandler64 authRequestAPIHandler
  rcases hv : validateAndReturnCardNumber vars with _ | cn
  · rfl
  · rcases body with _ | data
    · rfl
    · simp only
      split_ifs with hvalid
      · rfl
      · rcases hf : FindCardByNumber s.cards cn with e | card
        · rfl
        · have hc := (FindCardByNumber_ok _ _ _).1 hf
          have hpos : 0 < data.AuthAmount := by
            simp [authRqIsValid] at hvalid
            omega
          have h0 := blocked_nonneg s h cn card hc
          obtain ⟨h1, h2, h3⟩ := hr.cards cn card hc
          have h3' : card.LoadedFunds ≤ 9223372036854775807 := h3
          simp only
          rw [NewAuthRequest64_eq_exact]
          · rw [isInt64_iff]
            constructor <;> omega
          · intro hle
            rw [isInt64_iff]
            constructor <;> omega

theorem reverseAuthRqAPIHandler64_eq (s : Registry) (hr : Ranges s) (h : CaptureInv s)
    (vars : Vars) (body : Option reverseAuthRequest) :
    reverseAuthRqAPIHandler64 s vars body = reverseAuthRqAPIHandler s vars body := by
  unfold reverseAuthRqAPIHandler64 reverseAuthRqAPIHandler
  simp only
  split_ifs with hempty
  · rfl
  · rcases hv : validateAndReturnCardNumber vars with _ | cn
    · rfl
    · rcases body with _ | data
      · rfl
      · simp only
        split_ifs with hvalid
        · rfl
        · rcases hf : FindCardByNumber s.cards cn with e | card
          · rfl
          · have hc := (FindCardByNumber_ok _ _ _).1 hf
            simp only
            rcases hfind : FindAuthRequestByUUID s.authRequests card.CardNumber
                (vars.get "auth_request_uuid") with e | authRq
            · rfl
            · simp only
              have hfind' := hfind
              rw [h.number _ _ hc] at hfind'
              obtain ⟨-, -, hpmem, -⟩ := FindAuthRequestByUUID_ok _ _ _ _ hfind'
              have hpos : 0 < data.ReverseAmount := by
                simpa [reverseAuthRqIsValid] using hvalid
              have hauth : (deref s.authRequests authRq).AuthAmount ≤ 9223372036854775807 :=
                hr.holds cn _ hpmem
              have h0 := blocked_nonneg s h cn card hc
              obtain ⟨h1, h2, h3⟩ := hr.cards cn card hc
              have h3' : card.LoadedFunds ≤ 9223372036854775807 := h3
              split_ifs with hgt hcaptured
              · rfl
              · rfl
              · rw [Reverse64_eq]
                · rw [isInt64_iff]
                  constructor <;> omega
                · rw [isInt64_iff]
                  constructor <;> omega

theorem captureFundsAPIHandler64_eq (s : Registry) (hr : Ranges s) (h : CaptureInv s)
    (vars : Vars) (body : Option captureFundsRequest)
    (hall : captureWithinRange s vars body) :
    captureFundsAPIHandler64 s vars body = captureFundsAPIHandler s vars body := by
  unfold captureFundsAPIHandler64 captureFundsAPIHandler
  simp only
  split_ifs with hempty
  · rfl
  · rcases hv : validateAndReturnCardNumber vars with _ | cn
    · rfl
    · rcases body with _ | data
      · rfl
      · simp only
        split_ifs with hvalid
        · rfl
        · rcases hf : FindCardByNumber s.cards cn with e | card
          · rfl
          · have hc := (FindCardByNumber_ok _ _ _).1 hf
            simp only
            rcases hfind : FindAuthRequestByUUID s.authRequests card.CardNumber
                (vars.get "auth_request_uuid") with e | authRq
            · rfl
            · simp only
              have hpos : 0 < data.CaptureAmount := by
                simpa [captureFundsRqIsValid] using hvalid
              have hmax : (captureFundsAPIHandler.fundCapture s authRq).2.CapturedAmount
                  + data.CaptureAmount ≤ 9223372036854775807 :=
                hall cn data card authRq hv rfl hf hfind
              have hcap := (fundCapture_nonneg s hr authRq).1
              have h0 := blocked_nonneg s h cn card hc
              obtain ⟨h1, h2, h3⟩ := hr.cards cn card hc
              have h3' : card.LoadedFunds ≤ 9223372036854775807 := h3
              rw [Capture64_eq_exact]
              · rw [isInt64_iff]
                constructor <;> omega
              · intro hle
                rw [isInt64_iff, isInt64_iff]
                refine ⟨⟨?_, ?_⟩, ⟨?_, ?_⟩⟩ <;> omega

theorem serve64_eq (s : Registry) (hr : Ranges s) (h : CaptureInv s) (rq : Request)
    (hall : rq.isCaptureFlow64 s) : serve64 s rq = serve s rq := by
  cases rq with
  | createCard body rand => rfl
  | getCardFunds vars => rfl
  | loadFunds vars body => exact loadFundsAPIHandler64_eq s hr h vars body hall
  | authorize vars body uuid => exact authRequestAPIHandler64_eq s hr h vars body uuid
  | reverse vars body => exact reverseAuthRqAPIHandler64_eq s hr h vars body
  | capture vars body => exact captureFundsAPIHandler64_eq s hr h vars body hall
  | refund vars body => exact absurd hall (by simp [Request.isCaptureFlow64])

end CaptureFlow64Handlers

section CaptureFlow64Ranges

open prepaid api

theorem ranges_empty : Ranges Registry.empty := by
  refine ⟨?_, ?_, ?_⟩
  · intro cn c hc
    simp [Registry.empty] at hc
  · intro cn ar har
    simp [Registry.empty, holdsOf] at har
  · intro u fc hfc
    simp [Registry.empty] at hfc

theorem ranges_update (s : Registry) (hr : Ranges s) (cn : Int) (card1 : Card)
    (ars : Int → Option (List AuthRequest)) (fcs : String → Option FundCapture)
    (hcard : card1.BlockedFunds ≤ card1.TotalFunds ∧ card1.TotalFunds ≤ card1.LoadedFunds ∧
      card1.LoadedFunds ≤ maxInt64)
    (hars : ∀ k, ∀ ar ∈ holdsOf ars k, ar.AuthAmount ≤ maxInt64)
    (hfcs : ∀ u fc, fcs u = some fc → 0 ≤ fc.CapturedAmount) :
    Ranges { cards := mapSet s.cards cn card1, authRequests := ars, fundCaptures := fcs } := by
  refine ⟨?_, hars, hfcs⟩
  intro k c hc
  simp only [mapSet] at hc
  split_ifs at hc
  · simp only [Option.some.injEq] at hc
    subst hc
    exact hcard
  · exact hr.cards k c hc

theorem captures_mapSet (fcs : String → Option FundCapture)
    (h : ∀ u fc, fcs u = some fc → 0 ≤ fc.CapturedAmount) (u0 : String) (fc0 : FundCapture)
    (h0 : 0 ≤ fc0.CapturedAmount) :
    ∀ u fc, mapSet fcs u0 fc0 u = some fc → 0 ≤ fc.CapturedAmount := by
  intro u fc hu
  simp only [mapSet] at hu
  split_ifs at hu
  · simp only [Option.some.injEq] at hu
    subst hu
    exact h0
  · exact h u fc hu

theorem ranges_createCard (s : Registry) (hr : Ranges s) (body : Option createCardRequest)
    (rand : Nat → Int) : Ranges (createCardAPIHandler s body rand).1 := by
  unfold createCardAPIHandler
  rcases body with _ | data
  · exact hr
  · simp only
    split_ifs
    · exact hr
    · unfold NewCard
      rcases NewCard.loop s.cards rand createCardMaxRetries 0 with _ | cNum
      · exact hr
      · refine ranges_update s hr cNum _ _ _ ⟨le_refl _, le_refl _, ?_⟩ hr.holds hr.captures
        show (0 : Int) ≤ maxInt64
        decide

theorem ranges_getCardFunds (s : Registry) (hr : Ranges s) (vars : Vars) :
    Ranges (getCardFundsAPIHandler s vars).1 := by
  unfold getCardFundsAPIHandler
  rcases validateAndReturnCardNumber vars with _ | cn
  · exact hr
  · simp only
    rcases FindCardByNumber _ cn with e | card <;> exact hr

theorem ranges_loadFunds (s : Registry) (hr : Ranges s) (vars : Vars)
    (body : Option loadFundsRequest) (hall : loadWithinRange s vars body) :
    Ranges (loadFundsAPIHandler s vars body).1 := by
  unfold loadFundsAPIHandler
  rcases hv : validateAndReturnCardNumber vars with _ | cn
  · exact hr
  · rcases body with _ | data
    · exact hr
    · simp only
      split_ifs with hvalid
      · exact hr
      · rcases hf : FindCardByNumber s.cards cn with e | card
        · exact hr
        · have hc := (FindCardByNumber_ok _ _ _).1 hf
          have hmax : card.LoadedFunds + data.AmountCents ≤ maxInt64 :=
            hall cn data card hv rfl hf
          obtain ⟨h1, h2, -⟩ := hr.cards cn card hc
          have hpos : 0 < data.AmountCents := by
            simpa [loadFundsRqIsValid] using hvalid
          refine ranges_update s hr cn _ _ _ ⟨?_, ?_, hmax⟩ hr.holds hr.captures
          · show card.BlockedFunds ≤ card.TotalFunds + data.AmountCents
            omega
          · show card.TotalFunds + data.AmountCents ≤ card.LoadedFunds + data.AmountCents
            omega

theorem ranges_authorize (s : Registry) (hr : Ranges s) (h : CaptureInv s) (vars : Vars)
    (body : Option authRequest) (uuid : String) :
    Ranges (authRequestAPIHandler s vars body uuid).1 := by
  unfold authRequestAPIHandler
  rcases validateAndReturnCardNumber vars with _ | cn
  · exact hr
  · rcases body with _ | data
    · exact hr
    · simp only
      split_ifs with hvalid
      · exact hr
      · rcases hf : FindCardByNumber s.cards cn with e | card
        · exact hr
        · have hc := (FindCardByNumber_ok _ _ _).1 hf
          have hN := NewAuthRequest_eq card s.authRequests uuid
            (vars.get "merchant_name") data.AuthAmount
          have h0 := blocked_nonneg s h cn card hc
          obtain ⟨h1, h2, h3⟩ := hr.cards cn card hc
          have h3' : card.LoadedFunds ≤ 9223372036854775807 := h3
          rcases hbf : (card.BlockFunds data.AuthAmount).2 with _ | err
          · rw [hbf] at hN
            simp only at hN
            simp only [hN]
            have hle : data.AuthAmount ≤ card.TotalFunds - card.BlockedFunds := by
              unfold Card.BlockFunds Card.hasEnoughAvailableFunds at hbf
              split_ifs at hbf with g1 g2
              simpa using g2
            have hcard : (card.BlockFunds data.AuthAmount).1
                = { card with BlockedFunds := card.BlockedFunds + data.AuthAmount } := by
              unfold Card.BlockFunds at hbf ⊢
              split_ifs at hbf ⊢
              rfl
            refine ranges_update s hr cn _ _ _ ?_ ?_ hr.captures
            · rw [hcard]
              refine ⟨?_, h2, h3⟩
              show card.BlockedFunds + data.AuthAmount ≤ card.TotalFunds
              omega
            · intro k ar har
              rw [holdsOf_mapSet] at har
              split_ifs at har
              · rcases List.mem_append.1 har with hold | hnew
                · exact hr.holds _ ar hold
                · simp only [List.mem_singleton] at hnew
                  subst hnew
                  show data.AuthAmount ≤ 9223372036854775807
                  omega
              · exact hr.holds k ar har
          · rw [hbf] at hN
            simp only at hN
            simp only [hN]
            have hcard := BlockFunds_error_unchanged card data.AuthAmount err hbf
            split_ifs <;>
              exact ranges_update s hr cn _ _ _ (by rw [hcard]; exact ⟨h1, h2, h3⟩) hr.holds
                hr.captures

theorem ranges_capture (s : Registry) (hr : Ranges s) (vars : Vars)
    (body : Option captureFundsRequest) : Ranges (captureFundsAPIHandler s vars body).1 := by
  unfold captureFundsAPIHandler
  simp only
  split_ifs with hempty
  · exact hr
  · rcases validateAndReturnCardNumber vars with _ | cn
    · exact hr
    · rcases body with _ | data
      · exact hr
      · simp only
        split_ifs with hvalid
        · exact hr
        · rcases hf : FindCardByNumber s.cards cn with e | card
          · exact hr
          · have hc := (FindCardByNumber_ok _ _ _).1 hf
            simp only
            rcases hfind : FindAuthRequestByUUID s.authRequests card.CardNumber
                (vars.get "auth_request_uuid") with e | authRq
            · exact hr
            · simp only
              have hpos : 0 < data.CaptureAmount := by
                simpa [captureFundsRqIsValid] using hvalid
              obtain ⟨hcap, hmap⟩ := fundCapture_nonneg s hr authRq
              obtain ⟨h1, h2, h3⟩ := hr.cards cn card hc
              have key : Ranges
                  { cards := mapSet s.cards cn
                      ((captureFundsAPIHandler.fundCapture s authRq).2.Capture
                        (deref s.authRequests
                          (captureFundsAPIHandler.fundCapture s authRq).2.AuthRequest)
                        data.CaptureAmount card).2.1
                    authRequests := s.authRequests
                    fundCaptures := mapSet (captureFundsAPIHandler.fundCapture s authRq).1
                      (deref s.authRequests authRq).UUID
                      ((captureFundsAPIHandler.fundCapture s authRq).2.Capture
                        (deref s.authRequests
                          (captureFundsAPIHandler.fundCapture s authRq).2.AuthRequest)
                        data.CaptureAmount card).1 } := by
                refine ranges_update s hr cn _ _ _ ?_ hr.holds
                  (captures_mapSet _ hmap _ _ ?_)
                · rw [Capture_eq]
                  split_ifs
                  · exact ⟨h1, h2, h3⟩
                  · simp only [Card.CaptureFunds]
                    split_ifs with hgt
                    · exact ⟨h1, h2, h3⟩
                    · refine ⟨?_, ?_, h3⟩
                      · show card.BlockedFunds - data.CaptureAmount
                          ≤ card.TotalFunds - data.CaptureAmount
                        omega
                      · show card.TotalFunds - data.CaptureAmount ≤ card.LoadedFunds
                        omega
                · rw [Capture_eq]
                  split_ifs
                  · exact hcap
                  · show 0 ≤ (captureFundsAPIHandler.fundCapture s authRq).2.CapturedAmount
                      + data.CaptureAmount
                    omega
              rcases hres : (captureFundsAPIHandler.fundCapture s authRq).2.Capture
                  (deref s.authRequests
                    (captureFundsAPIHandler.fundCapture s authRq).2.AuthRequest)
                  data.CaptureAmount card with ⟨fc1, card1, _ | e⟩
              · rw [hres] at key
                exact key
              · rw [hres] at key
                simp only
                split_ifs <;> exact key

theorem ranges_reverse (s : Registry) (hr : Ranges s) (vars : Vars)
    (body : Option reverseAuthRequest) : Ranges (reverseAuthRqAPIHandler s vars body).1 := by
  unfold reverseAuthRqAPIHandler
  simp only
  split_ifs with hempty
  · exact hr
  · rcases validateAndReturnCardNumber vars with _ | cn
    · exact hr
    · rcases body with _ | data
      · exact hr
      · simp only
        split_ifs with hvalid
        · exact hr
        · rcases hf : FindCardByNumber s.cards cn with e | card
          · exact hr
          · have hc := (FindCardByNumber_ok _ _ _).1 hf
            simp only
            rcases hfind : FindAuthRequestByUUID s.authRequests card.CardNumber
                (vars.get "auth_request_uuid") with e | authRq
            · exact hr
            · simp only
              obtain ⟨-, -, hpmem, -⟩ := FindAuthRequestByUUID_ok _ _ _ _ hfind
              have hpos : 0 < data.ReverseAmount := by
                simpa [reverseAuthRqIsValid] using hvalid
              have hauth : (deref s.authRequests authRq).AuthAmount ≤ maxInt64 :=
                hr.holds _ _ hpmem
              obtain ⟨h1, h2, h3⟩ := hr.cards cn card hc
              split_ifs with hgt hcaptured
              · exact hr
              · exact hr
              · have key : Ranges
                    { cards := mapSet s.cards cn
                        ((deref s.authRequests authRq).Reverse data.ReverseAmount card).2.1
                      authRequests := store s.authRequests authRq
                        ((deref s.authRequests authRq).Reverse data.ReverseAmount card).1
                      fundCaptures := s.fundCaptures } := by
                  refine ranges_update s hr cn _ _ _ ?_ ?_ hr.captures
                  · unfold AuthRequest.Reverse Card.UnblockFunds
                    split_ifs
                    · exact ⟨h1, h2, h3⟩
                    · refine ⟨?_, h2, h3⟩
                      show card.BlockedFunds - data.ReverseAmount ≤ card.TotalFunds
                      omega
                  · intro k ar har
                    rw [holdsOf_store] at har
                    split_ifs at har with hk
                    · rcases List.mem_or_eq_of_mem_set har with hmem | heq
                      · exact hr.holds _ ar hmem
                      · subst heq
                        have : ((deref s.authRequests authRq).Reverse data.ReverseAmount
                            card).1.AuthAmount
                            = (deref s.authRequests authRq).AuthAmount - data.ReverseAmount := by
                          unfold AuthRequest.Reverse
                          rcases card.UnblockFunds data.ReverseAmount with ⟨c1, _ | e⟩ <;> rfl
                        rw [this]
                        unfold maxInt64 at hauth ⊢
                        omega
                    · exact hr.holds k ar har
                rcases hres : (deref s.authRequests authRq).Reverse data.ReverseAmount card
                  with ⟨ar1, card1, _ | e⟩
                · rw [hres] at key
                  exact key
                · rw [hres] at key
                  exact key

theorem ranges_serve (s : Registry) (hr : Ranges s) (h : CaptureInv s) (rq : Request)
    (hall : rq.isCaptureFlow64 s) : Ranges (serve s rq).1 := by
  cases rq with
  | createCard body rand => exact ranges_createCard s hr body rand
  | getCardFunds vars => exact ranges_getCardFunds s hr vars
  | loadFunds vars body => exact ranges_loadFunds s hr vars body hall
  | authorize vars body uuid => exact ranges_authorize s hr h vars body uuid
  | reverse vars body => exact ranges_reverse s hr vars body
  | capture vars body => exact ranges_capture s hr vars body
  | refund vars body => exact absurd hall (by simp [Request.isCaptureFlow64])

end CaptureFlow64Ranges

section CaptureFlow64Main

open prepaid api

theorem isCaptureFlow_of_isCaptureFlow64 (s : Registry) (rq : Request)
    (h : rq.isCaptureFlow64 s) : rq.isCaptureFlow s := by
  cases rq with
  | createCard body rand => trivial
  | getCardFunds vars => trivial
  | loadFunds vars body => trivial
  | authorize vars body uuid => trivial
  | reverse vars body => exact h
  | capture vars body => trivial
  | refund vars body => exact h

/-- Along the capture flow within the `int64` range the server in the arithmetic of `int64`
goes through the states of the server over the integers, and these keep their ranges. -/
theorem reachableBy64_captureFlow (s : Registry)
    (hs : ReachableBy64 Request.isCaptureFlow64 s) :
    ReachableBy Request.isCaptureFlow s ∧ Ranges s := by
  induction hs with
  | start => exact ⟨ReachableBy.start, ranges_empty⟩
  | step rq _ hall hfresh ih =>
    obtain ⟨hre, hr⟩ := ih
    have hinv := captureInv_reachable _ hre
    rw [serve64_eq _ hr hinv rq hall]
    exact ⟨ReachableBy.step rq hre (isCaptureFlow_of_isCaptureFlow64 _ rq hall) hfresh,
      ranges_serve _ hr hinv rq hall⟩

theorem reachableBy64_run64 (allowed : Registry → Request → Prop) (trace : List Request) :
    ∀ s : Registry, ReachableBy64 allowed s → TraceAllowed64 allowed s trace →
      TraceFresh64 s trace → ReachableBy64 allowed (run64 s trace) := by
  induction trace with
  | nil => intro s hs _ _; exact hs
  | cons rq rest ih =>
    intro s hs hall hfresh
    exact ih _ (ReachableBy64.step rq hs hall.1 hfresh.1) hall.2 hfresh.2

theorem reachableBy64_mono (allowed : Registry → Request → Prop) (s : Registry)
    (hs : ReachableBy64 allowed s) : Reachable64 s := by
  induction hs with
  | start => exact ReachableBy64.start
  | step rq _ _ hfresh ih => exact ReachableBy64.step rq ih trivial hfresh

theorem tokenUnused_empty (s : Registry) (uuid : String)
    (h : s.authRequests = fun _ => none) : tokenUnused s uuid := by
  intro cardNumber ar har
  rw [h] at har
  simp [holdsOf] at har

theorem tokenUnused_single (s : Registry) (ar0 : AuthRequest) (uuid : String)
    (h : s.authRequests = mapSet (fun _ => none) 1 [ar0]) (hne : ar0.UUID ≠ uuid) :
    tokenUnused s uuid := by
  intro cardNumber ar har
  rw [h, holdsOf_mapSet] at har
  split_ifs at har
  · simp only [List.mem_singleton] at har
    subst har
    exact hne
  · simp [holdsOf] at har

theorem loadWithinRange_of (s : Registry) (vars : Vars) (cn amount : Int) (card : Card)
    (hv : validateAndReturnCardNumber vars = some cn)
    (hf : FindCardByNumber s.cards cn = .ok card)
    (h : card.LoadedFunds + amount ≤ maxInt64) :
    loadWithinRange s vars (some { AmountCents := amount }) := by
  intro cn1 data card1 hv1 hb hf1
  rw [hv] at hv1
  cases hv1
  cases hb
  rw [hf] at hf1
  cases hf1
  exact h

theorem reverseWithinRemainder_of (s : Registry) (vars : Vars) (cn amount : Int) (card : Card)
    (authRq : AuthRequestPtr)
    (hv : validateAndReturnCardNumber vars = some cn)
    (hf : FindCardByNumber s.cards cn = .ok card)
    (hfind : FindAuthRequestByUUID s.authRequests card.CardNumber
      (vars.get "auth_request_uuid") = .ok authRq)
    (h : ∀ fc, FindFundCaptureByAuthUUID s.fundCaptures (deref s.authRequests authRq).UUID
      = .ok fc → amount ≤ (deref s.authRequests authRq).AuthAmount - fc.CapturedAmount) :
    reverseWithinRemainder s vars (some { ReverseAmount := amount }) := by
  intro cn1 data card1 authRq1 fc hv1 hb hf1 hfind1 hfc
  rw [hv] at hv1
  cases hv1
  cases hb
  rw [hf] at hf1
  cases hf1
  rw [hfind] at hfind1
  cases hfind1
  exact h fc hfc

theorem captureWithinRange_of (s : Registry) (vars : Vars) (cn amount : Int) (card : Card)
    (authRq : AuthRequestPtr)
    (hv : validateAndReturnCardNumber vars = some cn)
    (hf : FindCardByNumber s.cards cn = .ok card)
    (hfind : FindAuthRequestByUUID s.authRequests card.CardNumber
      (vars.get "auth_request_uuid") = .ok authRq)
    (h : (captureFundsAPIHandler.fundCapture s authRq).2.CapturedAmount + amount
      ≤ maxInt64) :
    captureWithinRange s vars (some { CaptureAmount := amount }) := by
  intro cn1 data card1 authRq1 hv1 hb hf1 hfind1
  rw [hv] at hv1
  cases hv1
  cases hb
  rw [hf] at hf1
  cases hf1
  rw [hfind] at hfind1
  cases hfind1
  exact h

/-- C5, as stated, fails, in three ways.  By a refund: after create card, load 1000,
authorize 400, capture 100 and refund 100, the capture of the hold is not completed and
records 0 of the 400 authorized, so a capture of 400 passes the two checks of `Capture`; the
card has `BlockedFunds = 300`, and `CaptureFunds(400)` returns `ErrNotEnoughFunds`.  By a
reverse: after create card, load 1000, authorize 400 twice, capture 100 on the first hold and
reverse 400 on it, the card has `BlockedFunds = 300`, and a capture of 400 on the second hold
passes the two checks.  By the wrap-around of `int64`, with neither refund nor reverse: after
create card, load 1, authorize 1, load 9223372036854775807 and authorize
9223372036854775807, the card has `BlockedFunds = -9223372036854775808`, and a capture of 1
on the first hold passes the two checks. -/
theorem C5_counterexample :
    (¬ ∀ (s : Registry), Reachable64 s →
        ∀ (cardNumber : Int) (card : Card) (uuid : String) (authRq : AuthRequestPtr)
          (amount : Int), 0 < amount →
          FindCardByNumber s.cards cardNumber = .ok card →
          FindAuthRequestByUUID s.authRequests card.CardNumber uuid = .ok authRq →
          (captureFundsAPIHandler.fundCapture s authRq).2.Completed = false →
          (captureFundsAPIHandler.fundCapture s authRq).2.CapturedAmount + amount ≤
            (deref s.authRequests
              (captureFundsAPIHandler.fundCapture s authRq).2.AuthRequest).AuthAmount →
          wrap64 ((captureFundsAPIHandler.fundCapture s authRq).2.CapturedAmount + amount) ≤
            (deref s.authRequests
              (captureFundsAPIHandler.fundCapture s authRq).2.AuthRequest).AuthAmount →
          (card.CaptureFunds64 amount).2 = none ∧ amount ≤ card.BlockedFunds) ∧
    (∃ s, ReachableBy64 Request.isNotReverse s ∧
        FindCardByNumber s.cards 1 = .ok (card1 300 1000) ∧
        FindAuthRequestByUUID s.authRequests (card1 300 1000).CardNumber "t1"
          = .ok { cardNumber := 1, index := 0 } ∧
        (captureFundsAPIHandler.fundCapture s { cardNumber := 1, index := 0 }).2.Completed
          = false ∧
        wrap64 ((captureFundsAPIHandler.fundCapture s
            { cardNumber := 1, index := 0 }).2.CapturedAmount + 400)
          ≤ (deref s.authRequests (captureFundsAPIHandler.fundCapture s
            { cardNumber := 1, index := 0 }).2.AuthRequest).AuthAmount ∧
        ((card1 300 1000).CaptureFunds64 400).2 = some .ErrNotEnoughFunds) ∧
    (∃ s, ReachableBy64 Request.isNotRefund s ∧
        FindCardByNumber s.cards 1 = .ok (card1 300 900) ∧
        FindAuthRequestByUUID s.authRequests (card1 300 900).CardNumber "t2"
          = .ok { cardNumber := 1, index := 1 } ∧
        (captureFundsAPIHandler.fundCapture s { cardNumber := 1, index := 1 }).2.Completed
          = false ∧
        wrap64 ((captureFundsAPIHandler.fundCapture s
            { cardNumber := 1, index := 1 }).2.CapturedAmount + 400)
          ≤ (deref s.authRequests (captureFundsAPIHandler.fundCapture s
            { cardNumber := 1, index := 1 }).2.AuthRequest).AuthAmount ∧
        ((card1 300 900).CaptureFunds64 400).2 = some .ErrNotEnoughFunds) ∧
    (∃ s, ReachableBy64 Request.isCaptureFlow s ∧
        FindCardByNumber s.cards 1 = .ok (cardWith minInt64 minInt64 minInt64) ∧
        FindAuthRequestByUUID s.authRequests (cardWith minInt64 minInt64 minInt64).CardNumber
          "t1" = .ok { cardNumber := 1, index := 0 } ∧
        (captureFundsAPIHandler.fundCapture s { cardNumber := 1, index := 0 }).2.Completed
          = false ∧
        wrap64 ((captureFundsAPIHandler.fundCapture s
            { cardNumber := 1, index := 0 }).2.CapturedAmount + 1)
          ≤ (deref s.authRequests (captureFundsAPIHandler.fundCapture s
            { cardNumber := 1, index := 0 }).2.AuthRequest).AuthAmount ∧
        ((cardWith minInt64 minInt64 minInt64).CaptureFunds64 1).2
          = some .ErrNotEnoughFunds) := by
  have hrefund : ReachableBy64 Request.isNotReverse
      (run64 Registry.empty (authorized400 ++ [capture1 100, refund1 100])) := by
    refine reachableBy64_run64 _ _ _ ReachableBy64.start ?_ ?_
    · exact ⟨trivial, trivial, trivial, trivial, trivial, trivial⟩
    · exact ⟨trivial, trivial, tokenUnused_empty _ _ rfl, trivial, trivial, trivial⟩
  have hreverse : ReachableBy64 Request.isNotRefund
      (run64 Registry.empty (authorized400 ++ [authorize2, capture1 100, reverse1 400])) := by
    refine reachableBy64_run64 _ _ _ ReachableBy64.start ?_ ?_
    · exact ⟨trivial, trivial, trivial, trivial, trivial, trivial, trivial⟩
    · exact ⟨trivial, trivial, tokenUnused_empty _ _ rfl,
        tokenUnused_single _ _ _ rfl (by decide), trivial, trivial, trivial⟩
  have hwrap : ReachableBy64 Request.isCaptureFlow
      (run64 Registry.empty
        [create1, load1 1, authorize1 1 "t1", load1 maxInt64, authorize1 maxInt64 "t2"]) := by
    refine reachableBy64_run64 _ _ _ ReachableBy64.start ?_ ?_
    · exact ⟨trivial, trivial, trivial, trivial, trivial, trivial⟩
    · exact ⟨trivial, trivial, tokenUnused_empty _ _ rfl, trivial,
        tokenUnused_single _ _ _ rfl (by decide), trivial⟩
  refine ⟨?_, ⟨_, hrefund, rfl, rfl, by decide, by decide, by decide⟩,
    ⟨_, hreverse, rfl, rfl, by decide, by decide, by decide⟩,
    ⟨_, hwrap, rfl, rfl, by decide, by decide, by decide⟩⟩
  intro hall
  have := hall _ (reachableBy64_mono _ _ hrefund) 1 (card1 300 1000) "t1"
    { cardNumber := 1, index := 0 } 400 (by decide) rfl rfl (by decide) (by decide)
    (by decide)
  exact absurd this.2 (by decide)

/-- C5, amended. In the arithmetic of `int64`, in every state the handlers reach from the
empty registry by create card, card info and authorize requests, by load requests that keep
`LoadedFunds` of their card within the greatest `int64`, by capture requests whose amount
added to the recorded `CapturedAmount` stays within the greatest `int64`, and by reverse
requests that release no captured money (no refund request; every token drawn for a hold is
new): whenever the capture the capture handler works on passes the two checks of `Capture`
on an amount > 0 (`Completed` is false and the sum `CapturedAmount + amount`, as the code
computes it, is not above `AuthAmount`) and the sum is not beyond the greatest `int64`, the
call `card.CaptureFunds(amount)` inside does not fail, `amount <= card.BlockedFunds`, and
`Capture` returns no error. -/
theorem C5_CaptureFunds64_succeeds (s : Registry)
    (hs : ReachableBy64 Request.isCaptureFlow64 s)
    (cardNumber : Int) (card : Card) (uuid : String) (authRq : AuthRequestPtr) (amount : Int)
    (hpos : 0 < amount)
    (hcard : FindCardByNumber s.cards cardNumber = .ok card)
    (hfind : FindAuthRequestByUUID s.authRequests card.CardNumber uuid = .ok authRq)
    (hopen : (captureFundsAPIHandler.fundCapture s authRq).2.Completed = false)
    (hsum : wrap64 ((captureFundsAPIHandler.fundCapture s authRq).2.CapturedAmount + amount) ≤
      (deref s.authRequests
        (captureFundsAPIHandler.fundCapture s authRq).2.AuthRequest).AuthAmount)
    (hfits : (captureFundsAPIHandler.fundCapture s authRq).2.CapturedAmount + amount
      ≤ maxInt64) :
    (card.CaptureFunds64 amount).2 = none ∧ amount ≤ card.BlockedFunds ∧
    ((captureFundsAPIHandler.fundCapture s authRq).2.Capture64
      (deref s.authRequests (captureFundsAPIHandler.fundCapture s authRq).2.AuthRequest)
      amount card).2.2 = none := by
  obtain ⟨hre, hr⟩ := reachableBy64_captureFlow s hs
  have hcap := (fundCapture_nonneg s hr authRq).1
  have hmax : (captureFundsAPIHandler.fundCapture s authRq).2.CapturedAmount + amount
      ≤ 9223372036854775807 := hfits
  have hw : wrap64 ((captureFundsAPIHandler.fundCapture s authRq).2.CapturedAmount + amount)
      = (captureFundsAPIHandler.fundCapture s authRq).2.CapturedAmount + amount :=
    wrap64_eq _ (by omega) hmax
  have hle := capture_within_blocked s (captureInv_reachable s hre) cardNumber card uuid authRq
    amount ((FindCardByNumber_ok _ _ _).1 hcard) hfind (by rw [← hw]; exact hsum)
  have hq : ¬ (amount > card.BlockedFunds) := by omega
  have hfunds : (card.CaptureFunds64 amount).2 = none := by
    simp [Card.CaptureFunds64, hq]
  refine ⟨hfunds, hle, ?_⟩
  have hrej : ¬ ((captureFundsAPIHandler.fundCapture s authRq).2.Completed = true ∨
      wrap64 ((captureFundsAPIHandler.fundCapture s authRq).2.CapturedAmount + amount) >
        (deref s.authRequests
          (captureFundsAPIHandler.fundCapture s authRq).2.AuthRequest).AuthAmount) := by
    rw [hopen]
    simp only [Bool.false_eq_true, false_or, gt_iff_lt, not_lt]
    exact hsum
  rw [Capture64_eq, if_neg hrej]
  exact hfunds

/-- C5 after create card, load 1000, authorize 400, reverse 100 and capture 100: a further
capture of 200 passes the checks and is within the 200 blocked on the card. -/
theorem C5_CaptureFunds64_succeeds_witness :
    ((card1 200 900).CaptureFunds64 200).2 = none ∧
    (200 : Int) ≤ (card1 200 900).BlockedFunds ∧
    ((captureFundsAPIHandler.fundCapture
        (run64 Registry.empty (authorized400 ++ [reverse1 100, capture1 100]))
        { cardNumber := 1, index := 0 }).2.Capture64
      (deref (run64 Registry.empty (authorized400 ++ [reverse1 100, capture1 100])).authRequests
        (captureFundsAPIHandler.fundCapture
          (run64 Registry.empty (authorized400 ++ [reverse1 100, capture1 100]))
          { cardNumber := 1, index := 0 }).2.AuthRequest)
      200 (card1 200 900)).2.2 = none :=
  C5_CaptureFunds64_succeeds
    (run64 Registry.empty (authorized400 ++ [reverse1 100, capture1 100]))
    (reachableBy64_run64 _ _ _ ReachableBy64.start
      ⟨trivial,
        loadWithinRange_of _ _ 1 1000 newCard1 rfl rfl (by decide),
        trivial,
        reverseWithinRemainder_of _ _ 1 100 (card1 400 1000) { cardNumber := 1, index := 0 }
          rfl rfl rfl (fun fc hfc => by
            change (Except.error Error.errNoFundCapture : Except Error FundCapture)
              = Except.ok fc at hfc
            cases hfc),
        captureWithinRange_of _ _ 1 100 (card1 300 1000) { cardNumber := 1, index := 0 }
          rfl rfl rfl (by decide),
        trivial⟩
      ⟨trivial, trivial, tokenUnused_empty _ _ rfl, trivial, trivial, trivial⟩)
    1 (card1 200 900) "t1" { cardNumber := 1, index := 0 } 200 (by decide) rfl rfl
    (by decide) (by decide) (by decide)

end CaptureFlow64Main
